import Mathlib

/-!
Wayland monitor registry: `src/wayland_monitor.c`.

A shallow embedding of the output registry of `wayland_monitor.c` and of the
properties its specification states.

Modelling conventions.

* Memory is an explicit heap, a list of blocks.  A pointer is a natural number,
  `0` is `NULL`, and pointer `p + 1` designates the block at list position `p`.
  Allocation appends a block, so a fresh pointer never aliases a live one.
  A released block is `none`.
* Every operation that dereferences memory returns `Option`; `none` stands for
  undefined behaviour (a `NULL` or dangling dereference, or an access outside
  the storage that was allocated).
* `calloc`, `malloc` and `realloc` consult `State.oracle`: the next boolean says
  whether the next allocation succeeds; an exhausted oracle means success.
  A successful `realloc` moves the storage to a fresh block and releases the
  old one, which is the behaviour the C standard lets a caller rely on.
* `int` counters are natural numbers; `int32_t` event fields are integers.
  Arithmetic overflow of `int` is outside the model.
* The result of `wl_registry_bind` is an input of `_glfwAddOutput`.
* An `int*` out-parameter is returned as a value; where the caller passes the
  address of a field, the caller stores the value into that field.
-/

namespace WaylandMonitor

/-- Modelled from the spec: the public `GLFWvidmode` record (declared in
`glfw3.h`, which is not among the sources): width, height, the three colour
depths and the refresh rate. -/
structure GLFWvidmode where
  width : Int
  height : Int
  redBits : Int
  greenBits : Int
  blueBits : Int
  refreshRate : Int
  deriving DecidableEq, Repr, Inhabited

/-- The `_GLFWvidmodeWayland` struct, lines 35-38: a base mode and its flags. -/
structure _GLFWvidmodeWayland where
  base : GLFWvidmode
  flags : Nat
  deriving DecidableEq, Repr, Inhabited

/-- Modelled from the spec: the platform sub-record `monitor->wayland`
(declared in a header that is not among the sources), with the fields the
source file reads and writes. -/
structure _GLFWmonitorWayland where
  output : Nat
  modes : Nat
  modesCount : Nat
  modesSize : Nat
  done : Bool
  x : Int
  y : Int
  deriving DecidableEq, Repr, Inhabited

/-- Modelled from the spec: the `_GLFWmonitor` record (declared in
`internal.h`, which is not among the sources): display label, physical size,
the generic `modes` array pointer and the platform sub-record. -/
structure _GLFWmonitor where
  name : String
  widthMM : Int
  heightMM : Int
  modes : Nat
  wayland : _GLFWmonitorWayland
  deriving DecidableEq, Repr, Inhabited

/-- The all-zero `GLFWvidmode`, as `calloc` and `{ { 0 }, }` produce it. -/
def zeroVidmode : GLFWvidmode := ⟨0, 0, 0, 0, 0, 0⟩

/-- The all-zero `_GLFWvidmodeWayland`. -/
def zeroVidmodeWayland : _GLFWvidmodeWayland := ⟨zeroVidmode, 0⟩

/-- The all-zero `_GLFWmonitor`. -/
def zeroMonitor : _GLFWmonitor := ⟨"", 0, 0, 0, ⟨0, 0, 0, 0, false, 0, 0⟩⟩

/-- A heap block: one `_GLFWmonitor`, or an array whose length is the element
count that was requested from the allocator. -/
inductive Block where
  | monitor (m : _GLFWmonitor)
  | wlModes (cells : List _GLFWvidmodeWayland)
  | vidModes (cells : List GLFWvidmode)
  | monitorPtrs (cells : List Nat)
  deriving DecidableEq, Repr

/-- The heap: position `p` holds the block of pointer `p + 1`. -/
abbrev Heap := List (Option Block)

/-- The registry fields of the global `_glfw.wayland`. -/
structure _GLFWlibraryWayland where
  monitors : Nat
  monitorsCount : Nat
  monitorsSize : Nat
  deriving DecidableEq, Repr, Inhabited

/-- The program state: heap, registry, allocator oracle, the reports made
through `_glfwInputError`, the live `wl_output` proxies and their listeners. -/
structure State where
  heap : Heap
  wayland : _GLFWlibraryWayland
  oracle : List Bool
  errors : List (Nat × String)
  proxies : List Nat
  listeners : List (Nat × Nat)
  deriving DecidableEq, Repr

/-- Modelled from the spec: `GLFW_PLATFORM_ERROR`, the error code of a
platform error (its value is that of `glfw3.h`, not among the sources). -/
def GLFW_PLATFORM_ERROR : Nat := 0x00010008

/-- Modelled from the spec: the `CURRENT` bit of a mode's flags (value of
`WL_OUTPUT_MODE_CURRENT` in the Wayland protocol header, not among the
sources). -/
def WL_OUTPUT_MODE_CURRENT : Nat := 0x1

/-! ## Memory -/

/-- Dereference a pointer. -/
def load (h : Heap) : Nat → Option Block
  | 0 => none
  | p + 1 => (h[p]?).join

/-- Overwrite the block of a pointer. -/
def store (h : Heap) : Nat → Block → Heap
  | 0, _ => h
  | p + 1, b => h.set p (some b)

/-- Release the block of a pointer; `free(NULL)` does nothing. -/
def release (h : Heap) : Nat → Heap
  | 0 => h
  | p + 1 => h.set p none

/-- Dereference a pointer to a `_GLFWmonitor`. -/
def loadMonitor (h : Heap) (p : Nat) : Option _GLFWmonitor :=
  match load h p with
  | some (.monitor m) => some m
  | _ => none

/-- Read `modes[i]` of a `_GLFWvidmodeWayland` array. -/
def readMode (h : Heap) (p : Nat) (i : Nat) : Option _GLFWvidmodeWayland :=
  match load h p with
  | some (.wlModes cells) => cells[i]?
  | _ => none

/-- Store into `modes[i]` of a `_GLFWvidmodeWayland` array. -/
def writeMode (h : Heap) (p : Nat) (i : Nat) (v : _GLFWvidmodeWayland) : Option Heap :=
  match load h p with
  | some (.wlModes cells) =>
    if i < cells.length then some (store h p (.wlModes (cells.set i v))) else none
  | _ => none

/-- Store into `modes[i]` of a `GLFWvidmode` array. -/
def writeVidmode (h : Heap) (p : Nat) (i : Nat) (v : GLFWvidmode) : Option Heap :=
  match load h p with
  | some (.vidModes cells) =>
    if i < cells.length then some (store h p (.vidModes (cells.set i v))) else none
  | _ => none

/-- Read `monitors[i]` of a `_GLFWmonitor*` array. -/
def readPtr (h : Heap) (p : Nat) (i : Nat) : Option Nat :=
  match load h p with
  | some (.monitorPtrs cells) => cells[i]?
  | _ => none

/-- Store into `monitors[i]` of a `_GLFWmonitor*` array. -/
def writePtr (h : Heap) (p : Nat) (i : Nat) (v : Nat) : Option Heap :=
  match load h p with
  | some (.monitorPtrs cells) =>
    if i < cells.length then some (store h p (.monitorPtrs (cells.set i v))) else none
  | _ => none

/-- One allocation of a block (`malloc`, `calloc`): the oracle decides; on
failure the result is `NULL` and the heap is untouched. -/
def allocate (s : State) (b : Block) : State × Nat :=
  if s.oracle.headD true then
    ({ s with oracle := s.oracle.tail, heap := s.heap ++ [some b] }, s.heap.length + 1)
  else
    ({ s with oracle := s.oracle.tail }, 0)

/-- The first `n` cells of `cells`, padded to `n` cells: the contents of a
block after `realloc` to `n` elements. -/
def resize {α : Type} (z : α) (cells : List α) (n : Nat) : List α :=
  cells.take n ++ List.replicate (n - cells.length) z

/-- The call `realloc(p, n * sizeof(_GLFWvidmodeWayland))`. -/
def reallocModes (s : State) (p : Nat) (n : Nat) : Option (State × Nat) :=
  if p = 0 then
    some (allocate s (.wlModes (List.replicate n zeroVidmodeWayland)))
  else
    match load s.heap p with
    | some (.wlModes cells) =>
      if s.oracle.headD true then
        some ({ s with oracle := s.oracle.tail,
                       heap := release s.heap p ++
                         [some (.wlModes (resize zeroVidmodeWayland cells n))] },
              s.heap.length + 1)
      else
        some ({ s with oracle := s.oracle.tail }, 0)
    | _ => none

/-- The call `realloc(p, n * sizeof(_GLFWmonitor*))`. -/
def reallocMonitors (s : State) (p : Nat) (n : Nat) : Option (State × Nat) :=
  if p = 0 then
    some (allocate s (.monitorPtrs (List.replicate n 0)))
  else
    match load s.heap p with
    | some (.monitorPtrs cells) =>
      if s.oracle.headD true then
        some ({ s with oracle := s.oracle.tail,
                       heap := release s.heap p ++
                         [some (.monitorPtrs (resize 0 cells n))] },
              s.heap.length + 1)
      else
        some ({ s with oracle := s.oracle.tail }, 0)
    | _ => none

/-! ## Collaborators that are not in the source file -/

/-- Modelled from the spec: `_glfwInputError` (defined outside the source
file) reports an error to the logging collaborator; the report is recorded. -/
def _glfwInputError (s : State) (code : Nat) (description : String) : State :=
  { s with errors := s.errors ++ [(code, description)] }

/-- Modelled from the spec: `_glfwAllocMonitor` (defined outside the source
file) allocates a Monitor Record: a zeroed record carrying the display label
and the physical size. -/
def _glfwAllocMonitor (s : State) (name : String) (widthMM heightMM : Int) : State × Nat :=
  ({ s with heap := s.heap ++
       [some (.monitor { zeroMonitor with name := name, widthMM := widthMM,
                                           heightMM := heightMM })] },
   s.heap.length + 1)

/-- Modelled from the spec: `_glfwFreeMonitor` (defined outside the source
file) discards the record. -/
def _glfwFreeMonitor (s : State) (monitor : Nat) : State :=
  { s with heap := release s.heap monitor }

/-- A successful `wl_registry_bind` leaves a live proxy; `bound` is what the
compositor connection returned (`0` when the bind failed). -/
def wl_registry_bind (s : State) (bound : Nat) : State × Nat :=
  if bound = 0 then (s, 0) else ({ s with proxies := s.proxies ++ [bound] }, bound)

/-- The call `wl_output_add_listener(output, &output_listener, monitor)`. -/
def wl_output_add_listener (s : State) (output monitor : Nat) : State :=
  { s with listeners := s.listeners ++ [(output, monitor)] }

/-- The call `wl_output_destroy(output)`. -/
def wl_output_destroy (s : State) (output : Nat) : State :=
  { s with proxies := s.proxies.filter (fun o => o != output),
           listeners := s.listeners.filter (fun l => l.1 != output) }

/-! ## The output listener, lines 40-110 -/

/-- The `geometry` handler, lines 40-57.  The parameters the body never reads
(`output`, `subpixel`, `make`, `model`, `transform`) are left out. -/
def geometry (s : State) (data : Nat) (x y physicalWidth physicalHeight : Int) : Option State :=
  match loadMonitor s.heap data with
  | some monitor =>
    let monitor1 : _GLFWmonitor :=
      { monitor with wayland := { monitor.wayland with x := x, y := y },
                     widthMM := physicalWidth, heightMM := physicalHeight }
    some { s with heap := store s.heap data (.monitor monitor1) }
  | none => none

/-- The local `mode` of the `mode` handler, lines 67-72: zero-initialised,
then width, height, refresh rate and flags are set from the event. -/
def newMode (flags : Nat) (width height refresh : Int) : _GLFWvidmodeWayland :=
  { base := { zeroVidmode with width := width, height := height, refreshRate := refresh },
    flags := flags }

/-- The `mode` handler, lines 59-89.  The storage is reallocated to
`modesSize` elements (line 79) while `2 * modesSize` is recorded (line 85).
The parameter `output` is never read and is left out. -/
def mode (s : State) (data : Nat) (flags : Nat) (width height refresh : Int) : Option State :=
  match loadMonitor s.heap data with
  | none => none
  | some monitor =>
    let mode := newMode flags width height refresh
    if monitor.wayland.modesCount + 1 ≥ monitor.wayland.modesSize then
      let size := monitor.wayland.modesSize * 2
      match reallocModes s monitor.wayland.modes monitor.wayland.modesSize with
      | none => none
      | some (s1, modes) =>
        if modes = 0 then
          some s1
        else
          match writeMode s1.heap modes monitor.wayland.modesCount mode with
          | none => none
          | some h =>
            let monitor1 : _GLFWmonitor :=
              { monitor with wayland := { monitor.wayland with
                  modes := modes, modesSize := size,
                  modesCount := monitor.wayland.modesCount + 1 } }
            some { s1 with heap := store h data (.monitor monitor1) }
    else
      match writeMode s.heap monitor.wayland.modes monitor.wayland.modesCount mode with
      | none => none
      | some h =>
        let monitor1 : _GLFWmonitor :=
          { monitor with wayland := { monitor.wayland with
              modesCount := monitor.wayland.modesCount + 1 } }
        some { s with heap := store h data (.monitor monitor1) }

/-- The `done` handler, lines 91-97. -/
def done (s : State) (data : Nat) : Option State :=
  match loadMonitor s.heap data with
  | some monitor =>
    let monitor1 : _GLFWmonitor :=
      { monitor with wayland := { monitor.wayland with done := true } }
    some { s with heap := store s.heap data (.monitor monitor1) }
  | none => none

/-- The `scale` handler, lines 99-103: an empty body. -/
def scale (s : State) (_data : Nat) (_factor : Int) : Option State :=
  some s

/-- An event of the `wl_output` listener table, lines 105-110. -/
inductive Event where
  | geometry (x y physicalWidth physicalHeight : Int)
  | mode (flags : Nat) (width height refresh : Int)
  | done
  | scale (factor : Int)
  deriving DecidableEq, Repr

/-- Dispatch of one event to the handler of the listener table. -/
def deliver (s : State) (data : Nat) : Event → Option State
  | .geometry x y w h => geometry s data x y w h
  | .mode f w h r => mode s data f w h r
  | .done => done s data
  | .scale k => scale s data k

/-- Dispatch of a sequence of events to one output, in order. -/
def deliverAll (s : State) (data : Nat) : List Event → Option State
  | [] => some s
  | e :: es =>
    match deliver s data e with
    | some s1 => deliverAll s1 data es
    | none => none

/-! ## GLFW internal API, lines 117-171 -/

/-- The final store of `_glfwAddOutput`, line 170:
`_glfw.wayland.monitors[_glfw.wayland.monitorsCount++] = monitor`. -/
def appendMonitor (s : State) (monitor : Nat) : Option State :=
  match writePtr s.heap s.wayland.monitors s.wayland.monitorsCount monitor with
  | none => none
  | some h =>
    some { s with heap := h,
                  wayland := { s.wayland with monitorsCount := s.wayland.monitorsCount + 1 } }

/-- Lines 151-170 of `_glfwAddOutput`: when the append would reach the
recorded capacity the storage is reallocated to twice the capacity; a failed
reallocation destroys the output, frees the record and reports an error;
otherwise the record is appended. -/
def registerMonitor (s : State) (output monitor : Nat) : Option State :=
  if s.wayland.monitorsCount + 1 ≥ s.wayland.monitorsSize then
    let size := s.wayland.monitorsSize * 2
    match reallocMonitors s s.wayland.monitors size with
    | none => none
    | some (s1, monitors) =>
      if monitors = 0 then
        some (_glfwInputError (_glfwFreeMonitor (wl_output_destroy s1 output) monitor)
                GLFW_PLATFORM_ERROR "Failed to retrieve monitor information")
      else
        appendMonitor
          { s1 with wayland := { s1.wayland with monitors := monitors, monitorsSize := size } }
          monitor
  else
    appendMonitor s monitor

/-- The function `_glfwAddOutput`, lines 117-171.  `bound` is the result of
`wl_registry_bind`. -/
def _glfwAddOutput (s : State) (name version : Nat) (bound : Nat) : Option State :=
  let name_str := "wl_output@" ++ toString name
  if version < 2 then
    some (_glfwInputError s GLFW_PLATFORM_ERROR "Unsupported wl_output interface version")
  else
    let (s1, monitor) := _glfwAllocMonitor s name_str 0 0
    let (s2, output) := wl_registry_bind s1 bound
    if output = 0 then
      some (_glfwFreeMonitor s2 monitor)
    else
      let (s3, modes) := allocate s2 (.wlModes (List.replicate 4 zeroVidmodeWayland))
      match loadMonitor s3.heap monitor with
      | none => none
      | some m =>
        let m1 : _GLFWmonitor :=
          { m with wayland := { m.wayland with modes := modes, modesSize := 4, output := output } }
        let s4 := wl_output_add_listener
          { s3 with heap := store s3.heap monitor (.monitor m1) } output monitor
        registerMonitor s4 output monitor

/-! ## GLFW platform API, lines 178-272 -/

/-- The copy loop of `_glfwPlatformGetVideoModes`, lines 253-254, from index
`i` with `fuel` iterations left: `modes[i] = monitor->wayland.modes[i].base`. -/
def copyModes (src dst : Nat) : Nat → Nat → Heap → Option Heap
  | 0, _, h => some h
  | fuel + 1, i, h =>
    match readMode h src i with
    | none => none
    | some e =>
      match writeVidmode h dst i e.base with
      | none => none
      | some h1 => copyModes src dst fuel (i + 1) h1

/-- The function `_glfwPlatformGetVideoModes`, lines 240-258: the resulting
state, the returned array and the value stored through `found`. -/
def _glfwPlatformGetVideoModes (s : State) (monitor : Nat) : Option (State × Nat × Nat) :=
  match loadMonitor s.heap monitor with
  | none => none
  | some m =>
    let modesCount := m.wayland.modesCount
    let (s1, modes) := allocate s (.vidModes (List.replicate modesCount zeroVidmode))
    if modes = 0 then
      some (s1, 0, 0)
    else
      match copyModes m.wayland.modes modes modesCount 0 s1.heap with
      | none => none
      | some h => some ({ s1 with heap := h }, modes, modesCount)

/-- The scan of `_glfwPlatformGetVideoMode`, lines 264-271, from index `i`
with `fuel` iterations left: the value stored through `mode`, if any. -/
def scanCurrent (h : Heap) (modes : Nat) : Nat → Nat → Option (Option GLFWvidmode)
  | 0, _ => some none
  | fuel + 1, i =>
    match readMode h modes i with
    | none => none
    | some e =>
      if e.flags &&& WL_OUTPUT_MODE_CURRENT ≠ 0 then some (some e.base)
      else scanCurrent h modes fuel (i + 1)

/-- The function `_glfwPlatformGetVideoMode`, lines 260-272: `some (some v)`
when `v` is stored through `mode`, `some none` when the function returns
without storing. -/
def _glfwPlatformGetVideoMode (s : State) (monitor : Nat) : Option (Option GLFWvidmode) :=
  match loadMonitor s.heap monitor with
  | none => none
  | some m => scanCurrent s.heap m.wayland.modes m.wayland.modesCount 0

/-- The function `_glfwPlatformIsSameMonitor`, lines 227-230. -/
def _glfwPlatformIsSameMonitor (s : State) (first second : Nat) : Option Bool :=
  match loadMonitor s.heap first, loadMonitor s.heap second with
  | some a, some b => some (a.wayland.output == b.wayland.output)
  | _, _ => none

/-- The function `_glfwPlatformGetMonitorPos`, lines 232-238: `xpos` and
`ypos` say whether the two out-pointers are non-null; the result holds the
values stored through them. -/
def _glfwPlatformGetMonitorPos (s : State) (monitor : Nat) (xpos ypos : Bool) :
    Option (Option Int × Option Int) :=
  if xpos || ypos then
    match loadMonitor s.heap monitor with
    | none => none
    | some m =>
      some (if xpos then some m.wayland.x else none, if ypos then some m.wayland.y else none)
  else
    some (none, none)

/-- The store `*found = v` of `_glfwPlatformGetVideoModes` when `found` is
`&origMonitor->wayland.modesCount`, as at line 211. -/
def storeModesCount (h : Heap) (origMonitor : Nat) (v : Nat) : Option Heap :=
  match loadMonitor h origMonitor with
  | none => none
  | some m =>
    some (store h origMonitor
      (.monitor { m with wayland := { m.wayland with modesCount := v } }))

/-- The store `monitor->modes = v`, line 209. -/
def storeModes (h : Heap) (monitor : Nat) (v : Nat) : Option Heap :=
  match loadMonitor h monitor with
  | none => none
  | some m => some (store h monitor (.monitor { m with modes := v }))

/-- The body of the loop of `_glfwPlatformGetMonitors` after a successful
`malloc`, lines 209-213. -/
def copyMonitor (s : State) (monitors monitor origMonitor : Nat) (i : Nat) : Option State :=
  match _glfwPlatformGetVideoModes s origMonitor with
  | none => none
  | some (s1, modes, found) =>
    match storeModesCount s1.heap origMonitor found with
    | none => none
    | some h1 =>
      match storeModes h1 monitor modes with
      | none => none
      | some h2 =>
        match readPtr h2 s1.wayland.monitors i with
        | none => none
        | some p =>
          match loadMonitor h2 p with
          | none => none
          | some m =>
            match writePtr (store h2 monitor (.monitor m)) monitors i monitor with
            | none => none
            | some h3 => some { s1 with heap := h3 }

/-- The loop of `_glfwPlatformGetMonitors`, lines 192-214, from index `i`
with `fuel` iterations left, and the code after it: the resulting state, the
returned array and the value stored through `count`. -/
def getMonitorsLoop (monitors monitorsCount : Nat) : Nat → Nat → State → Option (State × Nat × Nat)
  | 0, _, s => some (s, monitors, monitorsCount)
  | fuel + 1, i, s =>
    match readPtr s.heap s.wayland.monitors i with
    | none => none
    | some origMonitor =>
      let (s1, monitor) := allocate s (.monitor zeroMonitor)
      if monitor = 0 then
        if i > 0 then
          some (s1, monitors, i)
        else
          some ({ s1 with heap := release s1.heap monitors }, 0, 0)
      else
        match copyMonitor s1 monitors monitor origMonitor i with
        | none => none
        | some s2 => getMonitorsLoop monitors monitorsCount fuel (i + 1) s2

/-- The function `_glfwPlatformGetMonitors`, lines 178-225: the resulting
state, the returned array and the value stored through `count`. -/
def _glfwPlatformGetMonitors (s : State) : Option (State × Nat × Nat) :=
  let monitorsCount := s.wayland.monitorsCount
  if s.wayland.monitorsCount = 0 then
    some (s, 0, 0)
  else
    let (s1, monitors) := allocate s (.monitorPtrs (List.replicate monitorsCount 0))
    if monitors = 0 then
      some (s1, 0, 0)
    else
      getMonitorsLoop monitors monitorsCount monitorsCount 0 s1

/-! ## Predicates used in the statements -/

/-- The mode storage of a record: the entries of the block `wayland.modes`
points to, and no entry when it points to no block of modes (`NULL` after a
failed `calloc` at line 145). -/
def modeStorage (h : Heap) (m : _GLFWmonitor) : List _GLFWvidmodeWayland :=
  match load h m.wayland.modes with
  | some (.wlModes c) => c
  | _ => []

/-- Every allocation still to come succeeds. -/
def AllocsSucceed (s : State) : Prop := ∀ b ∈ s.oracle, b = true

instance (s : State) : Decidable (AllocsSucceed s) :=
  inferInstanceAs (Decidable (∀ b ∈ s.oracle, b = true))

/-- A well-formed registry: `_glfw.wayland.monitors` points to storage of
`monitorsSize` entries, holding `cells`, and the count does not exceed it. -/
def RegistryOk (s : State) (cells : List Nat) : Prop :=
  load s.heap s.wayland.monitors = some (.monitorPtrs cells) ∧
  cells.length = s.wayland.monitorsSize ∧
  s.wayland.monitorsCount ≤ s.wayland.monitorsSize

instance (s : State) (cells : List Nat) : Decidable (RegistryOk s cells) :=
  inferInstanceAs (Decidable (_ ∧ _ ∧ _))

/-- The record `_glfwAddOutput` registers: label `wl_output@<name>`, no
physical size, no modes yet, mode capacity 4, the bound handle. -/
def freshRecord (name bound modes : Nat) : _GLFWmonitor :=
  { name := "wl_output@" ++ toString name, widthMM := 0, heightMM := 0, modes := 0,
    wayland := { output := bound, modes := modes, modesCount := 0, modesSize := 4,
                 done := false, x := 0, y := 0 } }

/-- The state of `_glfwAddOutput` at line 150, after a successful bind:
the record is allocated, its mode storage is `modes` (a fresh block of four
zeroed entries when `calloc` succeeded, `NULL` and no block when it failed),
the handle is stored and the listener is added. -/
def boundState (s : State) (name bound : Nat) (callocOk : Bool) : State :=
  { heap := s.heap ++
      (if callocOk then
        [some (.monitor (freshRecord name bound (s.heap.length + 2))),
         some (.wlModes (List.replicate 4 zeroVidmodeWayland))]
      else [some (.monitor (freshRecord name bound 0))]),
    wayland := s.wayland,
    oracle := s.oracle.tail,
    errors := s.errors,
    proxies := s.proxies ++ [bound],
    listeners := s.listeners ++ [(bound, s.heap.length + 1)] }

/-- An empty registry of the given capacity, as the bootstrap code (outside
the source file) hands it over: storage of `capacity` null entries, count 0;
`oracle` lists the outcomes of the allocations to come. -/
def emptyRegistry (capacity : Nat) (oracle : List Bool) : State :=
  { heap := [some (.monitorPtrs (List.replicate capacity 0))],
    wayland := { monitors := 1, monitorsCount := 0, monitorsSize := capacity },
    oracle := oracle, errors := [], proxies := [], listeners := [] }

/-- The arguments of one `mode` event. -/
structure ModeArgs where
  flags : Nat
  width : Int
  height : Int
  refresh : Int
  deriving DecidableEq, Repr

/-- The `mode` event carrying the given arguments. -/
def ModeArgs.event (a : ModeArgs) : Event := .mode a.flags a.width a.height a.refresh

/-- The `GLFWvidmode` with the width, height and refresh rate of a mode event
and zero colour depths. -/
def ModeArgs.vidmode (a : ModeArgs) : GLFWvidmode :=
  { zeroVidmode with width := a.width, height := a.height, refreshRate := a.refresh }

/-- Register an output on `s`, deliver the given mode events to its record,
then call `_glfwPlatformGetVideoModes` on it: the value stored through `found`
and the contents of the returned array. -/
def videoModesAfter (s : State) (name version bound : Nat) (evs : List ModeArgs) :
    Option (Nat × List GLFWvidmode) :=
  match _glfwAddOutput s name version bound with
  | none => none
  | some s1 =>
    match readPtr s1.heap s1.wayland.monitors s.wayland.monitorsCount with
    | none => none
    | some monitor =>
      match deliverAll s1 monitor (evs.map ModeArgs.event) with
      | none => none
      | some s2 =>
        match _glfwPlatformGetVideoModes s2 monitor with
        | none => none
        | some (s3, modes, found) =>
          match load s3.heap modes with
          | some (.vidModes cells) => some (found, cells)
          | _ => none

/-- The events of the end-to-end scenario, in delivery order. -/
def scenarioEvents : List Event :=
  [.geometry 100 0 600 340, .mode 0 1920 1080 60000,
   .mode WL_OUTPUT_MODE_CURRENT 1920 1080 144000, .done]

/-- The live record after the end-to-end scenario. -/
def scenarioRecord (bound : Nat) : _GLFWmonitor :=
  { name := "wl_output@5", widthMM := 600, heightMM := 340, modes := 0,
    wayland := { output := bound, modes := 3, modesCount := 2, modesSize := 4,
                 done := true, x := 100, y := 0 } }

/-- The mode storage of the live record after the end-to-end scenario. -/
def scenarioModes : List _GLFWvidmodeWayland :=
  [newMode 0 1920 1080 60000, newMode 1 1920 1080 144000, zeroVidmodeWayland,
   zeroVidmodeWayland]

/-- The state after the end-to-end scenario on an empty registry of the given
capacity: the record is block 2 and its mode storage block 3; with capacity 1
the registry storage was reallocated (block 4), otherwise it is block 1.
`oracle` lists the outcomes of the allocations still to come. -/
def scenarioState (capacity bound : Nat) (oracle : List Bool) : State :=
  { heap :=
      if capacity = 1 then
        [none, some (.monitor (scenarioRecord bound)), some (.wlModes scenarioModes),
         some (.monitorPtrs [2, 0])]
      else
        [some (.monitorPtrs (2 :: List.replicate (capacity - 1) 0)),
         some (.monitor (scenarioRecord bound)), some (.wlModes scenarioModes)],
    wayland :=
      if capacity = 1 then { monitors := 4, monitorsCount := 1, monitorsSize := 2 }
      else { monitors := 1, monitorsCount := 1, monitorsSize := capacity },
    oracle := oracle, errors := [], proxies := [bound], listeners := [(bound, 2)] }

/-- The record `m` with its mode count set to 0. -/
def zeroCount (m : _GLFWmonitor) : _GLFWmonitor :=
  { m with wayland := { m.wayland with modesCount := 0 } }

/-- The record `m1` is `m`, or `m` with its mode count set to 0. -/
def Zeroed (m1 m : _GLFWmonitor) : Prop := m1 = m ∨ m1 = zeroCount m

/-- The live record at `p` is readable and its first `modesCount` modes lie in
its mode storage. -/
def recordOk (h : Heap) (p : Nat) : Bool :=
  match loadMonitor h p with
  | none => false
  | some m => decide (m.wayland.modesCount ≤ (modeStorage h m).length)

/-- What a query may do to the state `s0`: the registry fields stay, no block
disappears, every block that is not a record keeps its contents, and a record
keeps its contents except that its mode count may have been set to 0. -/
def Frame (s0 s : State) : Prop :=
  s.wayland = s0.wayland ∧ s0.heap.length ≤ s.heap.length ∧
  (∀ p b, load s0.heap p = some b → (∀ m, b ≠ .monitor m) → load s.heap p = some b) ∧
  (∀ p m, loadMonitor s0.heap p = some m →
    ∃ m1, loadMonitor s.heap p = some m1 ∧ Zeroed m1 m)

/-- The outcome of the `malloc` of line 195 for record `k` of
`_glfwPlatformGetMonitors`, when the allocations for the records before `k`
succeeded: entry 0 of the oracle is the `calloc` of line 188, and every copied
record consumes two entries (lines 195 and 246). -/
def recordAllocOk (oracle : List Bool) (k : Nat) : Bool := oracle.getD (2 * k + 1) true

/-- The state `_glfwPlatformGetMonitors` leaves when called on
`scenarioState 4 77 oracle` with all its allocations succeeding: block 4 is the
returned array, block 5 the returned record, block 6 the array made by
`_glfwPlatformGetVideoModes` at lines 209-211. -/
def snapshotState (oracle : List Bool) : State :=
  { scenarioState 4 77 oracle with
    heap := (scenarioState 4 77 oracle).heap ++
      [some (.monitorPtrs [5]), some (.monitor (scenarioRecord 77)),
       some (.vidModes [⟨1920, 1080, 0, 0, 0, 60000⟩, ⟨1920, 1080, 0, 0, 0, 144000⟩])] }

/-- A registry of capacity 4 with two registered outputs: records at blocks 2
and 4, each with one mode in storage of four entries. -/
def twoRecordState (oracle : List Bool) : State :=
  { heap :=
      [some (.monitorPtrs [2, 4, 0, 0]),
       some (.monitor { freshRecord 5 77 3 with
          wayland := { (freshRecord 5 77 3).wayland with modesCount := 1 } }),
       some (.wlModes [newMode 1 1920 1080 60000, zeroVidmodeWayland, zeroVidmodeWayland,
          zeroVidmodeWayland]),
       some (.monitor { freshRecord 6 78 5 with
          wayland := { (freshRecord 6 78 5).wayland with modesCount := 1 } }),
       some (.wlModes [newMode 1 1280 720 60000, zeroVidmodeWayland, zeroVidmodeWayland,
          zeroVidmodeWayland])],
    wayland := { monitors := 1, monitorsCount := 2, monitorsSize := 4 },
    oracle := oracle, errors := [], proxies := [77, 78], listeners := [(77, 2), (78, 4)] }

/-- The mode list of a record: the first `modesCount` entries of its mode
storage, in arrival order. -/
def modeList (h : Heap) (m : _GLFWmonitor) : List _GLFWvidmodeWayland :=
  (modeStorage h m).take m.wayland.modesCount

/-- The state after `_glfwAddOutput(5, 2)` bound to handle 77 on an empty
registry of capacity 4, followed by mode events that left the given storage,
counters and completion flag: the record is block 2, its mode storage
block 3.  `oracle` lists the outcomes of the allocations still to come. -/
def outputState (storage : List _GLFWvidmodeWayland) (count size : Nat) (done : Bool)
    (oracle : List Bool) : State :=
  { heap :=
      [some (.monitorPtrs [2, 0, 0, 0]),
       some (.monitor { freshRecord 5 77 3 with
          wayland := { output := 77, modes := 3, modesCount := count, modesSize := size,
                       done := done, x := 0, y := 0 } }),
       some (.wlModes storage)],
    wayland := { monitors := 1, monitorsCount := 1, monitorsSize := 4 },
    oracle := oracle, errors := [], proxies := [77], listeners := [(77, 2)] }

/-- One call of `_glfwAddOutput`: the advertised name and version, and what
`wl_registry_bind` returns for it (`0` when the bind fails). -/
structure AddCall where
  name : Nat
  version : Nat
  bound : Nat
  deriving DecidableEq, Repr

/-- A sequence of `_glfwAddOutput` calls, in order. -/
def addOutputs (s : State) : List AddCall → Option State
  | [] => some s
  | c :: rest =>
    match _glfwAddOutput s c.name c.version c.bound with
    | some s1 => addOutputs s1 rest
    | none => none

/-- The contract of `wl_registry_bind` along a sequence of calls: a handle it
returns is never one of the proxies that are live at the time of the call. -/
def freshBinds (s : State) : List AddCall → Bool
  | [] => true
  | c :: rest =>
    (c.bound == 0 || !(s.proxies.contains c.bound)) &&
    (match _glfwAddOutput s c.name c.version c.bound with
     | some s1 => freshBinds s1 rest
     | none => true)

/-- The output handles of the registered records, in registry order (`none`
for an entry that points to no record). -/
def registryHandles (s : State) : List (Option Nat) :=
  match load s.heap s.wayland.monitors with
  | some (.monitorPtrs cells) =>
    (cells.take s.wayland.monitorsCount).map
      (fun p => (loadMonitor s.heap p).map (fun m => m.wayland.output))
  | _ => []

/-- The effect of the `mode` handler on the pair (`modesCount`, `modesSize`),
lines 74-88, when its stores stay inside the storage: `reallocOk` is the
outcome of the `realloc` of line 78. -/
def modeCounters (reallocOk : Bool) (c : Nat × Nat) : Nat × Nat :=
  if c.1 + 1 ≥ c.2 then
    (if reallocOk then (c.1 + 1, c.2 * 2) else c)
  else (c.1 + 1, c.2)

/-- Invariant of the registry under `_glfwAddOutput`: the registry is well
formed with positive capacity, `NULL` is no live proxy, every registered entry
points to a record whose handle is a live proxy, and no handle occurs twice. -/
def HandlesOk (s : State) : Prop :=
  (∃ cells, RegistryOk s cells) ∧ 0 < s.wayland.monitorsSize ∧ 0 ∉ s.proxies ∧
  (∀ h ∈ registryHandles s, ∃ v, h = some v ∧ v ∈ s.proxies) ∧
  (registryHandles s).Nodup

/-- The state after one `_glfwAddOutput(5, 2)` bound to handle 77 on an empty
registry of capacity 4, before any event. -/
def registeredState (oracle : List Bool) : State :=
  outputState (List.replicate 4 zeroVidmodeWayland) 0 4 false oracle

/-- Register an output on `s` and deliver the given mode events to its record:
the recorded mode capacity (`modesSize`) and the number of entries of the
storage the record then points to. -/
def capacityAfter (s : State) (name version bound : Nat) (evs : List ModeArgs) :
    Option (Nat × Nat) :=
  match _glfwAddOutput s name version bound with
  | none => none
  | some s1 =>
    match readPtr s1.heap s1.wayland.monitors s.wayland.monitorsCount with
    | none => none
    | some monitor =>
      match deliverAll s1 monitor (evs.map ModeArgs.event) with
      | none => none
      | some s2 =>
        match loadMonitor s2.heap monitor with
        | none => none
        | some m => some (m.wayland.modesSize, (modeStorage s2.heap m).length)

/-! ## Heap lemmas -/

theorem load_zero (h : Heap) : load h 0 = none := rfl

theorem load_bounds {h : Heap} {p : Nat} {b : Block} (hl : load h p = some b) :
    0 < p ∧ p ≤ h.length := by
  cases p with
  | zero => simp [load] at hl
  | succ q =>
    refine ⟨Nat.succ_pos q, ?_⟩
    by_contra hc
    have hq : h.length ≤ q := by omega
    simp [load, List.getElem?_eq_none hq] at hl

theorem load_of_length_lt {h : Heap} {p : Nat} (hp : h.length < p) : load h p = none := by
  cases hl : load h p with
  | none => rfl
  | some b => have := (load_bounds hl).2; omega

theorem load_append {h : Heap} (t : Heap) {p : Nat} (hp : p ≤ h.length) :
    load (h ++ t) p = load h p := by
  cases p with
  | zero => rfl
  | succ q => simp [load, List.getElem?_append_left (show q < h.length by omega)]

theorem load_append_some {h : Heap} (t : Heap) {p : Nat} {b : Block}
    (hl : load h p = some b) : load (h ++ t) p = some b := by
  rw [load_append t (load_bounds hl).2, hl]

theorem load_append_fresh (h : Heap) (b : Option Block) :
    load (h ++ [b]) (h.length + 1) = b := by
  simp [load]

theorem load_append_at (h t : Heap) (k : Nat) :
    load (h ++ t) (h.length + k + 1) = (t[k]?).join := by
  have : (h ++ t)[h.length + k]? = t[k]? := by
    rw [List.getElem?_append_right (by omega)]
    congr 1
    omega
  simp only [load, this]

theorem load_store_ne (h : Heap) {p q : Nat} (b : Block) (hne : q ≠ p) :
    load (store h p b) q = load h q := by
  cases p with
  | zero => rfl
  | succ p =>
    cases q with
    | zero => rfl
    | succ q =>
      have : p ≠ q := fun e => hne (by rw [e])
      simp [load, store, List.getElem?_set_ne this]

theorem load_store_eq {h : Heap} {p : Nat} (b : Block) (h0 : 0 < p) (hp : p ≤ h.length) :
    load (store h p b) p = some b := by
  cases p with
  | zero => omega
  | succ p => simp [load, store, List.getElem?_set, (show p < h.length by omega)]

theorem load_release_ne (h : Heap) {p q : Nat} (hne : q ≠ p) :
    load (release h p) q = load h q := by
  cases p with
  | zero => rfl
  | succ p =>
    cases q with
    | zero => rfl
    | succ q =>
      have : p ≠ q := fun e => hne (by rw [e])
      simp [load, release, List.getElem?_set_ne this]

theorem load_release_eq (h : Heap) (p : Nat) : load (release h p) p = none := by
  cases p with
  | zero => rfl
  | succ p =>
    by_cases hp : p < h.length
    · simp [load, release, List.getElem?_set, hp]
    · simp [load, release, List.getElem?_set, hp, List.getElem?_eq_none (show h.length ≤ p by omega)]

theorem length_store (h : Heap) (p : Nat) (b : Block) : (store h p b).length = h.length := by
  cases p <;> simp [store]

theorem length_release (h : Heap) (p : Nat) : (release h p).length = h.length := by
  cases p <;> simp [release]

theorem loadMonitor_eq_some {h : Heap} {p : Nat} {m : _GLFWmonitor} :
    loadMonitor h p = some m ↔ load h p = some (.monitor m) := by
  unfold loadMonitor
  split
  · next m1 heq => simp [heq]
  · next hne =>
    constructor
    · intro hc; cases hc
    · intro hc; exact absurd hc (hne m)

theorem AllocsSucceed.head {s : State} (h : AllocsSucceed s) : s.oracle.headD true = true := by
  unfold AllocsSucceed at h
  cases ho : s.oracle with
  | nil => rfl
  | cons b r => rw [ho] at h; simpa using h b (by simp)

theorem AllocsSucceed.tail {s : State} (h : AllocsSucceed s) :
    ∀ b ∈ s.oracle.tail, b = true :=
  fun b hb => h b (List.mem_of_mem_tail hb)

theorem resize_length {α : Type} (z : α) (cells : List α) (n : Nat) :
    (resize z cells n).length = n := by
  simp [resize]; omega

theorem resize_getElem? {α : Type} (z : α) (cells : List α) (n i : Nat) (hi : i < cells.length)
    (hn : i < n) : (resize z cells n)[i]? = cells[i]? := by
  unfold resize
  rw [List.getElem?_append_left (by simp; omega), List.getElem?_take]
  simp [hn]

/-! ## `_glfwAddOutput` -/

theorem addOutput_unsupported (s : State) (name version bound : Nat) (hv : version < 2) :
    _glfwAddOutput s name version bound =
      some (_glfwInputError s GLFW_PLATFORM_ERROR "Unsupported wl_output interface version") := by
  simp [_glfwAddOutput, hv]

theorem allocate_of_ok (s : State) (b : Block) (h : s.oracle.headD true = true) :
    allocate s b =
      ({ s with oracle := s.oracle.tail, heap := s.heap ++ [some b] }, s.heap.length + 1) := by
  simp only [allocate, h, if_true]

theorem allocate_of_fail (s : State) (b : Block) (h : s.oracle.headD true = false) :
    allocate s b = ({ s with oracle := s.oracle.tail }, 0) := by
  simp only [allocate, h, Bool.false_eq_true, if_false]

theorem reallocMonitors_of_ok (s : State) (p n : Nat) (cells : List Nat)
    (hl : load s.heap p = some (.monitorPtrs cells)) (h : s.oracle.headD true = true) :
    reallocMonitors s p n =
      some ({ s with oracle := s.oracle.tail,
                     heap := release s.heap p ++ [some (.monitorPtrs (resize 0 cells n))] },
            s.heap.length + 1) := by
  have hp : p ≠ 0 := by have := (load_bounds hl).1; omega
  simp only [reallocMonitors, hp, if_false, hl, h, if_true]

theorem reallocMonitors_of_fail (s : State) (p n : Nat) (cells : List Nat)
    (hl : load s.heap p = some (.monitorPtrs cells)) (h : s.oracle.headD true = false) :
    reallocMonitors s p n = some ({ s with oracle := s.oracle.tail }, 0) := by
  have hp : p ≠ 0 := by have := (load_bounds hl).1; omega
  simp only [reallocMonitors, hp, if_false, hl, h, Bool.false_eq_true]

theorem registerMonitor_success (s : State) (cells : List Nat) (output monitor : Nat)
    (hreg : RegistryOk s cells) (hpos : 0 < s.wayland.monitorsSize)
    (hhd : s.oracle.headD true = true) :
    ∃ s1 cells1, registerMonitor s output monitor = some s1 ∧
      RegistryOk s1 cells1 ∧
      s1.wayland.monitorsCount = s.wayland.monitorsCount + 1 ∧
      s1.wayland.monitorsSize =
        (if s.wayland.monitorsCount + 1 ≥ s.wayland.monitorsSize
          then s.wayland.monitorsSize * 2 else s.wayland.monitorsSize) ∧
      (∀ i, i < s.wayland.monitorsCount → cells1[i]? = cells[i]?) ∧
      cells1[s.wayland.monitorsCount]? = some monitor ∧
      (∀ p b, load s.heap p = some b → p ≠ s.wayland.monitors → load s1.heap p = some b) ∧
      (∀ b ∈ s1.oracle, b ∈ s.oracle) := by
  obtain ⟨hR, hlen, hcnt⟩ := hreg
  have hRb := load_bounds hR
  unfold registerMonitor
  by_cases hg : s.wayland.monitorsCount + 1 ≥ s.wayland.monitorsSize
  · simp only [hg, if_true, reallocMonitors_of_ok s _ _ cells hR hhd]
    have hne : s.heap.length + 1 ≠ 0 := by omega
    have hfresh : load (release s.heap s.wayland.monitors ++
        [some (.monitorPtrs (resize 0 cells (s.wayland.monitorsSize * 2)))])
        (s.heap.length + 1) =
        some (.monitorPtrs (resize 0 cells (s.wayland.monitorsSize * 2))) := by
      have := load_append_fresh (release s.heap s.wayland.monitors)
        (some (.monitorPtrs (resize 0 cells (s.wayland.monitorsSize * 2))))
      rwa [length_release] at this
    simp only [hne, if_false, appendMonitor, writePtr, hfresh, resize_length]
    have hlt : s.wayland.monitorsCount < s.wayland.monitorsSize * 2 := by omega
    simp only [hlt, if_true]
    refine ⟨_, (resize 0 cells (s.wayland.monitorsSize * 2)).set s.wayland.monitorsCount monitor,
      rfl, ⟨?_, ?_, ?_⟩, rfl, ?_, ?_, ?_, ?_, ?_⟩
    · exact @load_store_eq _ (s.heap.length + 1) _ (Nat.succ_pos _)
        (by rw [List.length_append, length_release]; simp)
    · simp [resize_length]
    · simp only; omega
    · simp
    · intro i hi
      rw [List.getElem?_set_ne (by omega), resize_getElem? _ _ _ _ (by omega) (by omega)]
    · rw [List.getElem?_set]; simp [resize_length, hlt]
    · intro p b hp hne2
      have hpb := load_bounds hp
      simp only
      rw [load_store_ne _ _ (by omega), load_append _ (by rw [length_release]; exact hpb.2),
        load_release_ne _ hne2, hp]
    · intro b hb; exact List.mem_of_mem_tail hb
  · simp only [hg, if_false, appendMonitor, writePtr, hR]
    have hlt : s.wayland.monitorsCount < cells.length := by omega
    simp only [hlt, if_true]
    refine ⟨_, cells.set s.wayland.monitorsCount monitor,
      rfl, ⟨?_, ?_, ?_⟩, rfl, ?_, ?_, ?_, ?_, ?_⟩
    · exact load_store_eq _ hRb.1 hRb.2
    · simp [hlen]
    · simp only; omega
    · rfl
    · intro i hi
      rw [List.getElem?_set_ne (by omega)]
    · rw [List.getElem?_set]; simp [hlt]
    · intro p b hp hne2
      simp only
      rw [load_store_ne _ _ hne2, hp]
    · intro b hb; exact hb

theorem store_append_fresh (h t : Heap) (a : Option Block) (b : Block) :
    store (h ++ a :: t) (h.length + 1) b = h ++ some b :: t := by
  simp [store]

theorem addOutput_bound (s : State) (name version bound : Nat) (hv : 2 ≤ version)
    (hb : bound ≠ 0) :
    _glfwAddOutput s name version bound =
      registerMonitor (boundState s name bound (s.oracle.headD true)) bound
        (s.heap.length + 1) := by
  have hv2 : ¬ version < 2 := by omega
  have hm0 : ∀ (m : _GLFWmonitor) (t : Heap),
      loadMonitor (s.heap ++ some (.monitor m) :: t) (s.heap.length + 1) = some m := by
    intro m t
    rw [loadMonitor_eq_some]
    have h1 : s.heap ++ some (Block.monitor m) :: t = (s.heap ++ [some (Block.monitor m)]) ++ t := by
      simp
    rw [h1, load_append _ (by simp), load_append_fresh]
  unfold _glfwAddOutput
  simp only [hv2, if_false, _glfwAllocMonitor, wl_registry_bind, hb]
  cases hhd : s.oracle.headD true
  · simp only [allocate_of_fail, hhd]
    have := hm0 { zeroMonitor with name := "wl_output@" ++ toString name, widthMM := 0, heightMM := 0 } []
    simp only [this]
    simp only [boundState, wl_output_add_listener]
    congr 1
    simp [store, freshRecord, zeroMonitor]
  · simp only [allocate_of_ok, hhd]
    have := hm0 { zeroMonitor with name := "wl_output@" ++ toString name, widthMM := 0, heightMM := 0 }
      [some (.wlModes (List.replicate 4 zeroVidmodeWayland))]
    simp only [List.append_assoc, List.singleton_append, this]
    simp only [boundState, wl_output_add_listener]
    congr 1
    simp [store, freshRecord, zeroMonitor]

theorem addOutput_success (s : State) (cells : List Nat) (name version bound : Nat)
    (hreg : RegistryOk s cells) (hpos : 0 < s.wayland.monitorsSize) (hv : 2 ≤ version)
    (hb : bound ≠ 0) (hok : AllocsSucceed s) :
    ∃ s1 cells1, _glfwAddOutput s name version bound = some s1 ∧
      RegistryOk s1 cells1 ∧
      s1.wayland.monitorsCount = s.wayland.monitorsCount + 1 ∧
      s1.wayland.monitorsSize =
        (if s.wayland.monitorsCount + 1 ≥ s.wayland.monitorsSize
          then s.wayland.monitorsSize * 2 else s.wayland.monitorsSize) ∧
      (∀ i, i < s.wayland.monitorsCount → cells1[i]? = cells[i]?) ∧
      cells1[s.wayland.monitorsCount]? = some (s.heap.length + 1) ∧
      loadMonitor s1.heap (s.heap.length + 1) =
        some (freshRecord name bound (s.heap.length + 2)) ∧
      load s1.heap (s.heap.length + 2) =
        some (.wlModes (List.replicate 4 zeroVidmodeWayland)) ∧
      (∀ p b, load s.heap p = some b → p ≠ s.wayland.monitors → load s1.heap p = some b) ∧
      AllocsSucceed s1 := by
  obtain ⟨hR, hlen, hcnt⟩ := hreg
  have hRb := load_bounds hR
  have hhd := hok.head
  have htl := hok.tail
  have hhd2 : s.oracle.tail.headD true = true := by
    cases ho : s.oracle.tail with
    | nil => rfl
    | cons b r => simpa using htl b (by rw [ho]; simp)
  rw [addOutput_bound s name version bound hv hb, hhd]
  have hreg4 : RegistryOk (boundState s name bound true) cells :=
    ⟨load_append_some _ hR, hlen, hcnt⟩
  obtain ⟨s1, cells1, h1, h2, h3, h4, h5, h6, h7, h8⟩ :=
    registerMonitor_success (boundState s name bound true) cells bound (s.heap.length + 1)
      hreg4 hpos hhd2
  have hl1 : load (boundState s name bound true).heap (s.heap.length + 1) =
      some (.monitor (freshRecord name bound (s.heap.length + 2))) := by
    simpa [boundState] using load_append_at s.heap
      [some (.monitor (freshRecord name bound (s.heap.length + 2))),
       some (.wlModes (List.replicate 4 zeroVidmodeWayland))] 0
  have hl2 : load (boundState s name bound true).heap (s.heap.length + 2) =
      some (.wlModes (List.replicate 4 zeroVidmodeWayland)) := by
    simpa [boundState] using load_append_at s.heap
      [some (.monitor (freshRecord name bound (s.heap.length + 2))),
       some (.wlModes (List.replicate 4 zeroVidmodeWayland))] 1
  have hw : (boundState s name bound true).wayland = s.wayland := rfl
  rw [hw] at h3 h4 h5 h6 h7
  refine ⟨s1, cells1, h1, h2, h3, h4, h5, h6, ?_, ?_, ?_, ?_⟩
  · rw [loadMonitor_eq_some]
    exact h7 _ _ hl1 (by omega)
  · exact h7 _ _ hl2 (by omega)
  · intro p b hp hne
    exact h7 _ _ (load_append_some _ hp) hne
  · intro b hb
    exact htl b (h8 b hb)

theorem registerMonitor_fail (s : State) (cells : List Nat) (output monitor : Nat)
    (hR : load s.heap s.wayland.monitors = some (.monitorPtrs cells))
    (hg : s.wayland.monitorsCount + 1 ≥ s.wayland.monitorsSize)
    (hhd : s.oracle.headD true = false) :
    registerMonitor s output monitor =
      some (_glfwInputError
        (_glfwFreeMonitor (wl_output_destroy { s with oracle := s.oracle.tail } output) monitor)
        GLFW_PLATFORM_ERROR "Failed to retrieve monitor information") := by
  unfold registerMonitor
  simp only [hg, if_true, reallocMonitors_of_fail s _ _ cells hR hhd]

theorem released_fresh_frame (h t : Heap) (p : Nat) (hp : p ≤ h.length) :
    load (release (h ++ t) (h.length + 1)) p = load h p := by
  rw [load_release_ne _ (by omega), load_append _ hp]

theorem released_fresh_monitor (h : Heap) (t : Heap)
    (ht : ∀ (k : Nat) (m : _GLFWmonitor), (t[k]?).join ≠ some (Block.monitor m))
    (a : Option Block) (p : Nat) :
    loadMonitor (release (h ++ a :: t) (h.length + 1)) p = loadMonitor h p := by
  rcases Nat.lt_trichotomy p (h.length + 1) with hlt | heq | hgt
  · unfold loadMonitor
    rw [released_fresh_frame h _ p (by omega)]
  · subst heq
    unfold loadMonitor
    rw [load_release_eq, load_of_length_lt (Nat.lt_succ_self _)]
  · obtain ⟨k, rfl⟩ : ∃ k, p = h.length + (k + 1) + 1 := ⟨p - h.length - 2, by omega⟩
    unfold loadMonitor
    rw [load_release_ne _ (by omega), load_append_at, load_of_length_lt (by omega)]
    have := ht k
    simp only [List.getElem?_cons_succ]

/-- C8: registering an output whose protocol version is below 2 reports a
platform error, creates no record and binds no handle; heap, registry (record
storage, count, capacity), proxies and listeners are as before the call. -/
theorem addOutput_version_below_two (s : State) (name version bound : Nat)
    (hv : version < 2) :
    ∃ s1, _glfwAddOutput s name version bound = some s1 ∧
      s1.errors = s.errors ++
        [(GLFW_PLATFORM_ERROR, "Unsupported wl_output interface version")] ∧
      s1.heap = s.heap ∧ s1.wayland = s.wayland ∧ s1.oracle = s.oracle ∧
      s1.proxies = s.proxies ∧ s1.listeners = s.listeners :=
  ⟨_, addOutput_unsupported s name version bound hv, rfl, rfl, rfl, rfl, rfl, rfl⟩

/-- C8 at a concrete call: version 1 on an empty registry of capacity 4. -/
theorem addOutput_version_below_two_witness :
    (1 : Nat) < 2 ∧
    ∃ s1, _glfwAddOutput (emptyRegistry 4 []) 5 1 77 = some s1 ∧
      s1.errors = (emptyRegistry 4 []).errors ++
        [(GLFW_PLATFORM_ERROR, "Unsupported wl_output interface version")] ∧
      s1.heap = (emptyRegistry 4 []).heap ∧ s1.wayland = (emptyRegistry 4 []).wayland ∧
      s1.oracle = (emptyRegistry 4 []).oracle ∧
      s1.proxies = (emptyRegistry 4 []).proxies ∧
      s1.listeners = (emptyRegistry 4 []).listeners :=
  ⟨by decide, addOutput_version_below_two (emptyRegistry 4 []) 5 1 77 (by decide)⟩

/-- C9: a call of `_glfwAddOutput` with version at least 2 that fails, because
the bind returns no handle or because the reallocation of the registry storage
fails, returns with the registry fields (storage pointer, count, capacity)
unchanged, every block that existed before the call unchanged, and no record
in memory that was not there before. -/
theorem addOutput_failure_keeps_registry (s : State) (cells : List Nat)
    (name version bound : Nat) (hv : 2 ≤ version)
    (hfail : bound = 0 ∨
      (load s.heap s.wayland.monitors = some (.monitorPtrs cells) ∧
       s.wayland.monitorsCount + 1 ≥ s.wayland.monitorsSize ∧
       s.oracle.tail.headD true = false)) :
    ∃ s1, _glfwAddOutput s name version bound = some s1 ∧
      s1.wayland = s.wayland ∧
      (∀ p, p ≤ s.heap.length → load s1.heap p = load s.heap p) ∧
      (∀ p, loadMonitor s1.heap p = loadMonitor s.heap p) := by
  by_cases hb : bound = 0
  · have hv2 : ¬ version < 2 := by omega
    subst hb
    have hrun : _glfwAddOutput s name version 0 =
        some (_glfwFreeMonitor (_glfwAllocMonitor s ("wl_output@" ++ toString name) 0 0).1
          (s.heap.length + 1)) := by
      simp only [_glfwAddOutput, hv2, if_false, _glfwAllocMonitor, wl_registry_bind, if_true]
    refine ⟨_, hrun, rfl, ?_, ?_⟩
    · intro p hp
      exact released_fresh_frame s.heap _ p hp
    · intro p
      exact released_fresh_monitor s.heap [] (by simp) _ p
  · obtain ⟨hR, hg, hhd⟩ := hfail.resolve_left hb
    rw [addOutput_bound s name version bound hv hb]
    have hR4 : load (boundState s name bound (s.oracle.headD true)).heap
        (boundState s name bound (s.oracle.headD true)).wayland.monitors =
        some (.monitorPtrs cells) := load_append_some _ hR
    rw [registerMonitor_fail _ cells bound _ hR4 hg hhd]
    refine ⟨_, rfl, rfl, ?_, ?_⟩
    · intro p hp
      exact released_fresh_frame s.heap _ p hp
    · intro p
      cases s.oracle.headD true
      · exact released_fresh_monitor s.heap [] (by simp) _ p
      · exact released_fresh_monitor s.heap _ (by
          intro k m
          cases k <;> simp) _ p

/-- C9 at a concrete call: the registry has capacity 1, so the append needs a
reallocation of its storage; the `calloc` of line 145 succeeds and the
`realloc` of line 156 fails. -/
theorem addOutput_failure_keeps_registry_witness :
    (2 : Nat) ≤ 2 ∧
    ∃ s1, _glfwAddOutput (emptyRegistry 1 [true, false]) 5 2 77 = some s1 ∧
      s1.wayland = (emptyRegistry 1 [true, false]).wayland ∧
      (∀ p, p ≤ (emptyRegistry 1 [true, false]).heap.length →
        load s1.heap p = load (emptyRegistry 1 [true, false]).heap p) ∧
      (∀ p, loadMonitor s1.heap p = loadMonitor (emptyRegistry 1 [true, false]).heap p) :=
  ⟨by decide, addOutput_failure_keeps_registry (emptyRegistry 1 [true, false]) [0] 5 2 77
    (by decide) (Or.inr ⟨by decide, by decide, by decide⟩)⟩

/-- C10: on a well-formed registry of positive capacity, a call of
`_glfwAddOutput` with version at least 2 whose bind and allocations succeed
raises the count by one and stores, at the index of the old count, a pointer
to the new record (no modes, mode capacity 4, the bound handle, storage of
four zeroed modes); the entries below the old count and the records they point
to are unchanged; the capacity doubles exactly when the old count plus one
reaches it, and the registry storage then holds that many entries. -/
theorem addOutput_appends (s : State) (cells : List Nat) (name version bound : Nat)
    (hreg : RegistryOk s cells) (hpos : 0 < s.wayland.monitorsSize) (hv : 2 ≤ version)
    (hb : bound ≠ 0) (hok : AllocsSucceed s) :
    ∃ s1 cells1 monitor modes, _glfwAddOutput s name version bound = some s1 ∧
      RegistryOk s1 cells1 ∧
      s1.wayland.monitorsCount = s.wayland.monitorsCount + 1 ∧
      s1.wayland.monitorsSize =
        (if s.wayland.monitorsCount + 1 ≥ s.wayland.monitorsSize
          then s.wayland.monitorsSize * 2 else s.wayland.monitorsSize) ∧
      cells1[s.wayland.monitorsCount]? = some monitor ∧
      loadMonitor s1.heap monitor = some (freshRecord name bound modes) ∧
      load s1.heap modes = some (.wlModes (List.replicate 4 zeroVidmodeWayland)) ∧
      (∀ i, i < s.wayland.monitorsCount → cells1[i]? = cells[i]?) ∧
      (∀ p m, loadMonitor s.heap p = some m → loadMonitor s1.heap p = some m) ∧
      (∀ p b, load s.heap p = some b → p ≠ s.wayland.monitors → load s1.heap p = some b) := by
  obtain ⟨s1, cells1, h1, h2, h3, h4, h5, h6, h7, h8, h9, _⟩ :=
    addOutput_success s cells name version bound hreg hpos hv hb hok
  refine ⟨s1, cells1, _, _, h1, h2, h3, h4, h6, h7, h8, h5, ?_, h9⟩
  intro p m hm
  rw [loadMonitor_eq_some] at hm ⊢
  refine h9 p _ hm ?_
  intro hc
  rw [hc, hreg.1] at hm
  cases hm

/-- C10 at a concrete call: capacity 1, so the storage is reallocated to 2. -/
theorem addOutput_appends_witness :
    RegistryOk (emptyRegistry 1 []) [0] ∧ 0 < (emptyRegistry 1 []).wayland.monitorsSize ∧
    (2 : Nat) ≤ 2 ∧ (77 : Nat) ≠ 0 ∧ AllocsSucceed (emptyRegistry 1 []) ∧
    ∃ s1, _glfwAddOutput (emptyRegistry 1 []) 5 2 77 = some s1 ∧
      s1.wayland.monitorsCount = 1 ∧ s1.wayland.monitorsSize = 2 := by
  refine ⟨by decide, by decide, by decide, by decide, by decide, ?_⟩
  obtain ⟨s1, _, _, _, h1, _, h3, h4, _⟩ :=
    addOutput_appends (emptyRegistry 1 []) [0] 5 2 77
      (by decide) (by decide) (by decide) (by decide) (by decide)
  exact ⟨s1, h1, h3, h4⟩

/-! ## The `mode` handler -/

theorem take_succ_set {α : Type} (l : List α) (c : Nat) (x : α) (hc : c < l.length) :
    (l.set c x).take (c + 1) = l.take c ++ [x] := by
  apply List.ext_getElem?
  intro i
  simp only [List.getElem?_take, List.getElem?_set, List.getElem?_append, List.length_take]
  have hmin : min c l.length = c := by omega
  rw [hmin]
  by_cases h1 : i < c
  · have h2 : i < c + 1 := by omega
    have h3 : c ≠ i := by omega
    simp [h1, h2, h3]
  · by_cases h2 : i = c
    · subst h2
      simp [hc]
    · have h3 : ¬ i < c + 1 := by omega
      have h4 : i - c ≠ 0 := by omega
      simp [h1, h3]
      cases hi : i - c with
      | zero => omega
      | succ k => simp

theorem resize_take {α : Type} (z : α) (l : List α) (n c : Nat) (hc : c ≤ l.length)
    (hn : c ≤ n) : (resize z l n).take c = l.take c := by
  unfold resize
  rw [List.take_append_of_le_length (by simp; omega), List.take_take]
  congr 1
  omega

theorem reallocModes_of_ok (s : State) (p n : Nat) (cells : List _GLFWvidmodeWayland)
    (hl : load s.heap p = some (.wlModes cells)) (h : s.oracle.headD true = true) :
    reallocModes s p n =
      some ({ s with oracle := s.oracle.tail,
                     heap := release s.heap p ++
                       [some (.wlModes (resize zeroVidmodeWayland cells n))] },
            s.heap.length + 1) := by
  have hp : p ≠ 0 := by have := (load_bounds hl).1; omega
  simp only [reallocModes, hp, if_false, hl, h, if_true]

theorem reallocModes_of_fail (s : State) (p n : Nat) (cells : List _GLFWvidmodeWayland)
    (hl : load s.heap p = some (.wlModes cells)) (h : s.oracle.headD true = false) :
    reallocModes s p n = some ({ s with oracle := s.oracle.tail }, 0) := by
  have hp : p ≠ 0 := by have := (load_bounds hl).1; omega
  simp only [reallocModes, hp, if_false, hl, h, Bool.false_eq_true]

theorem mode_step (s : State) (data : Nat) (m : _GLFWmonitor) (cells : List _GLFWvidmodeWayland)
    (flags : Nat) (width height refresh : Int)
    (hm : loadMonitor s.heap data = some m)
    (hc : load s.heap m.wayland.modes = some (.wlModes cells))
    (hroom : m.wayland.modesCount < cells.length)
    (hsize : m.wayland.modesCount < m.wayland.modesSize)
    (hhd : m.wayland.modesCount + 1 ≥ m.wayland.modesSize → s.oracle.headD true = true) :
    ∃ s1 modes1 cells1, mode s data flags width height refresh = some s1 ∧
      loadMonitor s1.heap data = some { m with wayland := { m.wayland with
        modes := modes1,
        modesSize := (if m.wayland.modesCount + 1 ≥ m.wayland.modesSize
          then m.wayland.modesSize * 2 else m.wayland.modesSize),
        modesCount := m.wayland.modesCount + 1 } } ∧
      load s1.heap modes1 = some (.wlModes cells1) ∧
      cells1.length = (if m.wayland.modesCount + 1 ≥ m.wayland.modesSize
          then m.wayland.modesSize else cells.length) ∧
      cells1.take (m.wayland.modesCount + 1) =
        cells.take m.wayland.modesCount ++ [newMode flags width height refresh] ∧
      (∀ p b, load s.heap p = some b → p ≠ data → p ≠ m.wayland.modes →
        load s1.heap p = some b) ∧
      s1.wayland = s.wayland ∧
      (∀ b ∈ s1.oracle, b ∈ s.oracle) := by
  have hmb := load_bounds (loadMonitor_eq_some.mp hm)
  have hcb := load_bounds hc
  have hne : data ≠ m.wayland.modes := by
    intro e
    rw [loadMonitor_eq_some, e, hc] at hm
    cases hm
  unfold mode
  simp only [hm]
  by_cases hg : m.wayland.modesCount + 1 ≥ m.wayland.modesSize
  · have hfresh : load (release s.heap m.wayland.modes ++
        [some (.wlModes (resize zeroVidmodeWayland cells m.wayland.modesSize))])
        (s.heap.length + 1) =
        some (.wlModes (resize zeroVidmodeWayland cells m.wayland.modesSize)) := by
      have := load_append_fresh (release s.heap m.wayland.modes)
        (some (.wlModes (resize zeroVidmodeWayland cells m.wayland.modesSize)))
      rwa [length_release] at this
    have hne0 : s.heap.length + 1 ≠ 0 := by omega
    simp only [hg, if_true, reallocModes_of_ok s _ _ cells hc (hhd hg), hne0, if_false,
      writeMode, hfresh, resize_length, hsize]
    refine ⟨_, s.heap.length + 1,
      (resize zeroVidmodeWayland cells m.wayland.modesSize).set m.wayland.modesCount
        (newMode flags width height refresh), rfl, ?_, ?_, ?_, ?_, ?_, rfl, ?_⟩
    · rw [loadMonitor_eq_some]
      exact load_store_eq _ hmb.1 (by
        rw [length_store, List.length_append, length_release]; simp; omega)
    · simp only
      rw [load_store_ne _ _ (by omega)]
      exact @load_store_eq _ (s.heap.length + 1) _ (Nat.succ_pos _)
        (by rw [List.length_append, length_release]; simp)
    · simp [resize_length]
    · rw [take_succ_set _ _ _ (by rw [resize_length]; exact hsize),
        resize_take _ _ _ _ (by omega) (by omega)]
    · intro p b hp hp1 hp2
      have hpb := load_bounds hp
      simp only
      rw [load_store_ne _ _ hp1, load_store_ne _ _ (by omega),
        load_append _ (by rw [length_release]; exact hpb.2), load_release_ne _ hp2, hp]
    · intro b hb; exact List.mem_of_mem_tail hb
  · simp only [hg, if_false, writeMode, hc, hroom, if_true]
    refine ⟨_, m.wayland.modes,
      cells.set m.wayland.modesCount (newMode flags width height refresh),
      rfl, ?_, ?_, ?_, ?_, ?_, rfl, ?_⟩
    · rw [loadMonitor_eq_some]
      exact load_store_eq _ hmb.1 (by rw [length_store]; exact hmb.2)
    · simp only
      rw [load_store_ne _ _ (Ne.symm hne)]
      exact load_store_eq _ hcb.1 hcb.2
    · simp
    · exact take_succ_set _ _ _ hroom
    · intro p b hp hp1 hp2
      simp only
      rw [load_store_ne _ _ hp1, load_store_ne _ _ hp2, hp]
    · intro b hb; exact hb

/-! ## `_glfwPlatformGetVideoModes` -/

theorem copyModes_spec (h0 : Heap) (src : Nat) (cells : List _GLFWvidmodeWayland) (n : Nat)
    (hsrc : load h0 src = some (.wlModes cells)) (hn : n ≤ cells.length) :
    ∀ (fuel i : Nat) (dst : List GLFWvidmode), i + fuel = n → dst.length = n →
      copyModes src (h0.length + 1) fuel i (h0 ++ [some (.vidModes dst)]) =
        some (h0 ++ [some (.vidModes
          (dst.take i ++ ((cells.take n).drop i).map (fun e => e.base)))]) := by
  intro fuel
  induction fuel with
  | zero =>
    intro i dst hi hd
    have hin : i = n := by omega
    subst hin
    simp [copyModes, ← hd]
  | succ k ih =>
    intro i dst hi hd
    have hil : i < cells.length := by omega
    have hread : readMode (h0 ++ [some (.vidModes dst)]) src i = some cells[i] := by
      unfold readMode
      rw [load_append_some _ hsrc]
      exact List.getElem?_eq_getElem hil
    have hdrop : (cells.take n).drop i = cells[i] :: (cells.take n).drop (i + 1) := by
      rw [List.drop_eq_getElem_cons (by simp; omega)]
      simp
    unfold copyModes
    simp only [hread, writeVidmode, load_append_fresh, (show i < dst.length by omega), if_true]
    have hst := store_append_fresh h0 [] (some (.vidModes dst))
      (.vidModes (dst.set i cells[i].base))
    rw [hst, ih (i + 1) _ (by omega) (by simpa using hd),
      take_succ_set _ _ _ (by omega), hdrop]
    simp

theorem getVideoModes_of_ok (s : State) (monitor : Nat) (m : _GLFWmonitor)
    (cells : List _GLFWvidmodeWayland)
    (hm : loadMonitor s.heap monitor = some m)
    (hc : load s.heap m.wayland.modes = some (.wlModes cells))
    (hn : m.wayland.modesCount ≤ cells.length)
    (hhd : s.oracle.headD true = true) :
    _glfwPlatformGetVideoModes s monitor =
      some ({ s with oracle := s.oracle.tail,
                     heap := s.heap ++ [some (.vidModes
                       ((cells.take m.wayland.modesCount).map (fun e => e.base)))] },
            s.heap.length + 1, m.wayland.modesCount) := by
  unfold _glfwPlatformGetVideoModes
  have hne0 : s.heap.length + 1 ≠ 0 := by omega
  simp only [hm, allocate_of_ok s _ hhd, hne0, if_false]
  rw [copyModes_spec s.heap _ cells _ hc hn _ 0 _ (by omega) (by simp)]
  simp

theorem modeStorage_of_load {h : Heap} {m : _GLFWmonitor} {c : List _GLFWvidmodeWayland}
    (hc : load h m.wayland.modes = some (.wlModes c)) : modeStorage h m = c := by
  unfold modeStorage
  rw [hc]

theorem modeStorage_cases (h : Heap) (m : _GLFWmonitor) :
    (∃ c, load h m.wayland.modes = some (.wlModes c) ∧ modeStorage h m = c) ∨
    modeStorage h m = [] := by
  unfold modeStorage
  split
  · next c hc => exact Or.inl ⟨c, hc, rfl⟩
  · exact Or.inr rfl

theorem getVideoModes_of_fits (s : State) (monitor : Nat) (m : _GLFWmonitor)
    (hm : loadMonitor s.heap monitor = some m)
    (hn : m.wayland.modesCount ≤ (modeStorage s.heap m).length)
    (hhd : s.oracle.headD true = true) :
    _glfwPlatformGetVideoModes s monitor =
      some ({ s with oracle := s.oracle.tail,
                     heap := s.heap ++ [some (.vidModes
                       (((modeStorage s.heap m).take m.wayland.modesCount).map
                         (fun e => e.base)))] },
            s.heap.length + 1, m.wayland.modesCount) := by
  rcases modeStorage_cases s.heap m with ⟨c, hc, hst⟩ | hst
  · rw [hst] at hn ⊢
    exact getVideoModes_of_ok s monitor m c hm hc hn hhd
  · rw [hst] at hn ⊢
    have h0 : m.wayland.modesCount = 0 := by simpa using hn
    have hne0 : s.heap.length + 1 ≠ 0 := by omega
    unfold _glfwPlatformGetVideoModes
    simp only [hm, allocate_of_ok s _ hhd, hne0, if_false, h0, copyModes]
    simp

theorem getVideoModes_of_fail (s : State) (monitor : Nat) (m : _GLFWmonitor)
    (hm : loadMonitor s.heap monitor = some m)
    (hhd : s.oracle.headD true = false) :
    _glfwPlatformGetVideoModes s monitor = some ({ s with oracle := s.oracle.tail }, 0, 0) := by
  unfold _glfwPlatformGetVideoModes
  simp only [hm, allocate_of_fail s _ hhd, if_true]

/-! ## Mode events on a freshly registered output -/

theorem deliver_modes_within_four (data : Nat) :
    ∀ (evs : List ModeArgs) (s : State) (m : _GLFWmonitor) (cells : List _GLFWvidmodeWayland),
      loadMonitor s.heap data = some m →
      load s.heap m.wayland.modes = some (.wlModes cells) →
      cells.length = 4 →
      m.wayland.modesCount + evs.length ≤ 4 →
      (evs ≠ [] → m.wayland.modesSize = 4) →
      AllocsSucceed s →
      ∃ s2 m2 cells2, deliverAll s data (evs.map ModeArgs.event) = some s2 ∧
        loadMonitor s2.heap data = some m2 ∧
        load s2.heap m2.wayland.modes = some (.wlModes cells2) ∧
        m2.wayland.modesCount = m.wayland.modesCount + evs.length ∧
        m2.wayland.modesCount ≤ cells2.length ∧
        cells2.take m2.wayland.modesCount =
          cells.take m.wayland.modesCount ++
            evs.map (fun a => newMode a.flags a.width a.height a.refresh) ∧
        AllocsSucceed s2 := by
  intro evs
  induction evs with
  | nil =>
    intro s m cells hm hc hlen hcnt _ hok
    exact ⟨s, m, cells, rfl, hm, hc, by simp, by simp at hcnt; omega, by simp, hok⟩
  | cons a es ih =>
    intro s m cells hm hc hlen hcnt hsz hok
    have hsz4 := hsz (by simp)
    simp only [List.length_cons] at hcnt
    obtain ⟨s1, modes1, cells1, h1, h2, h3, h4, h5, _, _, h8⟩ :=
      mode_step s data m cells a.flags a.width a.height a.refresh hm hc
        (by omega) (by omega) (fun _ => hok.head)
    have hok1 : AllocsSucceed s1 := fun b hb => hok b (h8 b hb)
    have hlen1 : cells1.length = 4 := by
      rw [h4]; split <;> omega
    obtain ⟨s2, m2, cells2, g1, g2, g3, g4, g5, g6, g7⟩ :=
      ih s1 _ cells1 h2 h3 hlen1 (by simp only; omega)
        (by
          intro hne
          have : 0 < es.length := List.length_pos.mpr hne
          simp only
          rw [if_neg (by omega)]
          exact hsz4)
        hok1
    refine ⟨s2, m2, cells2, ?_, g2, g3, ?_, g5, ?_, g7⟩
    · simp only [List.map_cons, deliverAll, deliver, ModeArgs.event, h1]
      exact g1
    · rw [g4]; simp only [List.length_cons]; omega
    · rw [g6]
      simp only at h5 ⊢
      rw [h5]
      simp

/-- C1, amended: on a well-formed registry of positive capacity, register an
output (version at least 2, bind and allocations succeeding) and deliver `N`
mode events to it, `N ≤ 4`; then `_glfwPlatformGetVideoModes` stores `N`
through `found` and returns an array of `N` entries whose `i`-th entry has the
width, height and refresh rate of the `i`-th event and zero colour depths.  A
returned `GLFWvidmode` has no flags field. -/
theorem videoModes_after_modes (s : State) (cells : List Nat) (name version bound : Nat)
    (evs : List ModeArgs)
    (hreg : RegistryOk s cells) (hpos : 0 < s.wayland.monitorsSize) (hv : 2 ≤ version)
    (hb : bound ≠ 0) (hok : AllocsSucceed s) (hN : evs.length ≤ 4) :
    videoModesAfter s name version bound evs =
      some (evs.length, evs.map ModeArgs.vidmode) := by
  obtain ⟨s1, cells1, h1, h2, _, _, _, h6, h7, h8, _, h10⟩ :=
    addOutput_success s cells name version bound hreg hpos hv hb hok
  have hrd : readPtr s1.heap s1.wayland.monitors s.wayland.monitorsCount =
      some (s.heap.length + 1) := by
    unfold readPtr
    rw [h2.1]
    exact h6
  obtain ⟨s2, m2, cells2, g1, g2, g3, g4, g5, g6, g7⟩ :=
    deliver_modes_within_four (s.heap.length + 1) evs s1 _ _ h7 h8 (by simp)
      (by simp [freshRecord]; exact hN) (fun _ => rfl) h10
  unfold videoModesAfter
  simp only [h1, hrd, g1, getVideoModes_of_ok s2 _ m2 cells2 g2 g3 g5 g7.head,
    load_append_fresh]
  rw [g6, g4]
  simp [freshRecord, newMode, ModeArgs.vidmode]

/-- C1, amended, at a concrete input: two mode events on the first output of
an empty registry of capacity 4. -/
theorem videoModes_after_modes_witness :
    RegistryOk (emptyRegistry 4 []) [0, 0, 0, 0] ∧
    0 < (emptyRegistry 4 []).wayland.monitorsSize ∧ (2 : Nat) ≤ 2 ∧ (77 : Nat) ≠ 0 ∧
    AllocsSucceed (emptyRegistry 4 []) ∧
    [(⟨0, 1920, 1080, 60000⟩ : ModeArgs), ⟨1, 1920, 1080, 144000⟩].length ≤ 4 ∧
    videoModesAfter (emptyRegistry 4 []) 5 2 77 [⟨0, 1920, 1080, 60000⟩, ⟨1, 1920, 1080, 144000⟩] =
      some (2, [⟨1920, 1080, 0, 0, 0, 60000⟩, ⟨1920, 1080, 0, 0, 0, 144000⟩]) :=
  ⟨by decide, by decide, by decide, by decide, by decide, by decide,
    videoModes_after_modes (emptyRegistry 4 []) [0, 0, 0, 0] 5 2 77
      [⟨0, 1920, 1080, 60000⟩, ⟨1, 1920, 1080, 144000⟩]
      (by decide) (by decide) (by decide) (by decide) (by decide) (by decide)⟩

/-- C1 as stated fails: the array returned after a mode event with flags 0 is
the array returned after the same event with flags 1, so the returned entries
do not carry the flags; and with five mode events on a freshly registered
output (all allocations succeeding) the fifth store falls outside the storage
that line 79 allocated, so no result is defined. -/
theorem videoModes_flags_counterexample :
    videoModesAfter (emptyRegistry 4 []) 5 2 77 [⟨0, 1920, 1080, 60000⟩] =
      some (1, [⟨1920, 1080, 0, 0, 0, 60000⟩]) ∧
    videoModesAfter (emptyRegistry 4 []) 5 2 77 [⟨1, 1920, 1080, 60000⟩] =
      some (1, [⟨1920, 1080, 0, 0, 0, 60000⟩]) ∧
    videoModesAfter (emptyRegistry 4 []) 5 2 77
      [⟨0, 640, 480, 60000⟩, ⟨0, 800, 600, 60000⟩, ⟨0, 1024, 768, 60000⟩,
       ⟨0, 1280, 720, 60000⟩, ⟨1, 1920, 1080, 60000⟩] = none := by
  decide

/-! ## `_glfwPlatformGetVideoMode` -/

theorem readMode_of_load {h : Heap} {p : Nat} {cells : List _GLFWvidmodeWayland}
    (hc : load h p = some (.wlModes cells)) (i : Nat) : readMode h p i = cells[i]? := by
  unfold readMode
  rw [hc]

theorem scanCurrent_some (h : Heap) (p : Nat) (cells : List _GLFWvidmodeWayland)
    (hc : load h p = some (.wlModes cells)) (k : Nat) (e : _GLFWvidmodeWayland)
    (hk : cells[k]? = some e) (hcur : e.flags &&& WL_OUTPUT_MODE_CURRENT ≠ 0) :
    ∀ (fuel i : Nat), i ≤ k → k < i + fuel →
      (∀ j e1, i ≤ j → j < k → cells[j]? = some e1 →
        e1.flags &&& WL_OUTPUT_MODE_CURRENT = 0) →
      scanCurrent h p fuel i = some (some e.base) := by
  intro fuel
  induction fuel with
  | zero => intro i h1 h2; omega
  | succ n ih =>
    intro i h1 h2 hbefore
    unfold scanCurrent
    rw [readMode_of_load hc]
    by_cases hik : i = k
    · subst hik
      simp only [hk, hcur, ne_eq, not_false_eq_true, if_true]
    · have hlt : i < k := by omega
      have hkl : k < cells.length := by
        by_contra hc2
        rw [List.getElem?_eq_none (by omega)] at hk
        cases hk
      have hi : cells[i]? = some cells[i] := List.getElem?_eq_getElem (by omega)
      have h0 := hbefore i _ (Nat.le_refl i) hlt hi
      simp only [hi, h0, ne_eq, not_true_eq_false, if_false]
      exact ih (i + 1) (by omega) (by omega)
        (fun j e1 hj1 hj2 hj3 => hbefore j e1 (by omega) hj2 hj3)

theorem scanCurrent_none_iff (h : Heap) (p : Nat) (cells : List _GLFWvidmodeWayland)
    (hc : load h p = some (.wlModes cells)) :
    ∀ (fuel i : Nat), i + fuel ≤ cells.length →
      (scanCurrent h p fuel i = some none ↔
        ∀ j e, i ≤ j → j < i + fuel → cells[j]? = some e →
          e.flags &&& WL_OUTPUT_MODE_CURRENT = 0) := by
  intro fuel
  induction fuel with
  | zero =>
    intro i _
    simp only [scanCurrent, true_iff]
    intro j e h1 h2
    omega
  | succ n ih =>
    intro i hlen
    have hi : cells[i]? = some cells[i] := List.getElem?_eq_getElem (by omega)
    unfold scanCurrent
    rw [readMode_of_load hc]
    simp only [hi]
    by_cases hcur : cells[i].flags &&& WL_OUTPUT_MODE_CURRENT = 0
    · simp only [hcur, ne_eq, not_true_eq_false, if_false]
      rw [ih (i + 1) (by omega)]
      constructor
      · intro hall j e h1 h2 h3
        by_cases hji : j = i
        · subst hji
          rw [hi] at h3
          cases h3
          exact hcur
        · exact hall j e (by omega) (by omega) h3
      · intro hall j e h1 h2 h3
        exact hall j e (by omega) (by omega) h3
    · simp only [hcur, ne_eq, not_false_eq_true, if_true]
      constructor
      · intro hc2
        cases hc2
      · intro hall
        exact absurd (hall i _ (Nat.le_refl i) (by omega) hi) hcur

/-- C5: for a monitor record whose first `modesCount` modes lie in its mode
storage, `_glfwPlatformGetVideoMode` stores the base mode of the entry of
lowest index, below `modesCount`, whose flags contain the `CURRENT` bit (so
the first in arrival order when several carry it), and returns without
storing exactly when no entry below `modesCount` carries the bit. -/
theorem getVideoMode_first_current (s : State) (monitor : Nat) (m : _GLFWmonitor)
    (hm : loadMonitor s.heap monitor = some m)
    (hn : m.wayland.modesCount ≤ (modeStorage s.heap m).length) :
    (∀ i e, i < m.wayland.modesCount → (modeStorage s.heap m)[i]? = some e →
      e.flags &&& WL_OUTPUT_MODE_CURRENT ≠ 0 →
      (∀ j e1, j < i → (modeStorage s.heap m)[j]? = some e1 →
        e1.flags &&& WL_OUTPUT_MODE_CURRENT = 0) →
      _glfwPlatformGetVideoMode s monitor = some (some e.base)) ∧
    (_glfwPlatformGetVideoMode s monitor = some none ↔
      ∀ i e, i < m.wayland.modesCount → (modeStorage s.heap m)[i]? = some e →
        e.flags &&& WL_OUTPUT_MODE_CURRENT = 0) := by
  unfold _glfwPlatformGetVideoMode
  simp only [hm]
  rcases modeStorage_cases s.heap m with ⟨cells, hc, hst⟩ | hst
  · rw [hst] at hn ⊢
    constructor
    · intro i e hi he hcur hbefore
      exact scanCurrent_some s.heap _ cells hc i e he hcur _ 0 (Nat.zero_le i) (by omega)
        (fun j e1 _ hj2 hj3 => hbefore j e1 hj2 hj3)
    · rw [scanCurrent_none_iff s.heap _ cells hc _ 0 (by omega)]
      constructor
      · intro hall i e hi he
        exact hall i e (Nat.zero_le i) (by omega) he
      · intro hall j e _ h2 h3
        exact hall j e (by omega) h3
  · rw [hst] at hn ⊢
    have h0 : m.wayland.modesCount = 0 := by simpa using hn
    rw [h0]
    constructor
    · intro i e hi
      omega
    · simp [scanCurrent]

/-! ## The end-to-end scenario -/

theorem scenario_run (capacity bound : Nat) (hc : 0 < capacity) (hb : bound ≠ 0) :
    ∃ s1, _glfwAddOutput (emptyRegistry capacity []) 5 2 bound = some s1 ∧
      readPtr s1.heap s1.wayland.monitors 0 = some 2 ∧
      deliverAll s1 2 scenarioEvents = some (scenarioState capacity bound []) := by
  rw [addOutput_bound _ 5 2 bound (by decide) hb]
  rcases Nat.lt_or_ge capacity 2 with h | h
  · obtain rfl : capacity = 1 := by omega
    exact ⟨_, rfl, rfl, rfl⟩
  · obtain ⟨k, rfl⟩ : ∃ k, capacity = k + 2 := ⟨capacity - 2, by omega⟩
    exact ⟨_, rfl, rfl, rfl⟩

theorem scenario_queries (capacity bound : Nat) (hc : 0 < capacity) :
    ∃ s3 monitors copy s4 modes,
      _glfwPlatformGetMonitors (scenarioState capacity bound []) = some (s3, monitors, 1) ∧
      readPtr s3.heap monitors 0 = some copy ∧
      _glfwPlatformGetMonitorPos s3 copy true true = some (some 100, some 0) ∧
      _glfwPlatformGetVideoModes s3 2 = some (s4, modes, 2) ∧
      load s4.heap modes =
        some (.vidModes [⟨1920, 1080, 0, 0, 0, 60000⟩, ⟨1920, 1080, 0, 0, 0, 144000⟩]) ∧
      _glfwPlatformGetVideoMode s4 2 = some (some ⟨1920, 1080, 0, 0, 0, 144000⟩) := by
  let L := (scenarioState capacity bound []).heap.length
  let s3 : State := { scenarioState capacity bound [] with
    heap := (scenarioState capacity bound []).heap ++
      [some (.monitorPtrs [L + 2]), some (.monitor (scenarioRecord bound)),
       some (.vidModes [⟨1920, 1080, 0, 0, 0, 60000⟩, ⟨1920, 1080, 0, 0, 0, 144000⟩])] }
  let s4 : State := { s3 with heap := s3.heap ++
      [some (.vidModes [⟨1920, 1080, 0, 0, 0, 60000⟩, ⟨1920, 1080, 0, 0, 0, 144000⟩])] }
  rcases Nat.lt_or_ge capacity 2 with h | h
  · obtain rfl : capacity = 1 := by omega
    exact ⟨s3, L + 1, L + 2, s4, L + 4, rfl, rfl, rfl, rfl, rfl, rfl⟩
  · obtain ⟨k, rfl⟩ : ∃ k, capacity = k + 2 := ⟨capacity - 2, by omega⟩
    exact ⟨s3, L + 1, L + 2, s4, L + 4, rfl, rfl, rfl, rfl, rfl, rfl⟩

/-- C6: on an empty registry of positive capacity, `_glfwAddOutput(5, 2)` with
a successful bind, then `geometry(100, 0, 600, 340)`, `mode(0, 1920, 1080,
60000)`, `mode(CURRENT, 1920, 1080, 144000)` and `done()` on the new record,
all run without fault; then `_glfwPlatformGetMonitors` stores count 1 and
returns one record whose position is (100, 0), `_glfwPlatformGetVideoModes`
on the live record stores 2 and returns (1920, 1080, 60000) then (1920, 1080,
144000), and `_glfwPlatformGetVideoMode` stores (1920, 1080, 144000). -/
theorem end_to_end_scenario (capacity bound : Nat) (hc : 0 < capacity) (hb : bound ≠ 0) :
    ∃ s1 monitor s2 s3 monitors copy s4 modes,
      _glfwAddOutput (emptyRegistry capacity []) 5 2 bound = some s1 ∧
      readPtr s1.heap s1.wayland.monitors 0 = some monitor ∧
      deliverAll s1 monitor scenarioEvents = some s2 ∧
      _glfwPlatformGetMonitors s2 = some (s3, monitors, 1) ∧
      readPtr s3.heap monitors 0 = some copy ∧
      _glfwPlatformGetMonitorPos s3 copy true true = some (some 100, some 0) ∧
      _glfwPlatformGetVideoModes s3 monitor = some (s4, modes, 2) ∧
      load s4.heap modes =
        some (.vidModes [⟨1920, 1080, 0, 0, 0, 60000⟩, ⟨1920, 1080, 0, 0, 0, 144000⟩]) ∧
      _glfwPlatformGetVideoMode s4 monitor = some (some ⟨1920, 1080, 0, 0, 0, 144000⟩) := by
  obtain ⟨s1, h1, h2, h3⟩ := scenario_run capacity bound hc hb
  obtain ⟨s3, monitors, copy, s4, modes, g1, g2, g3, g4, g5, g6⟩ :=
    scenario_queries capacity bound hc
  exact ⟨s1, 2, _, s3, monitors, copy, s4, modes, h1, h2, h3, g1, g2, g3, g4, g5, g6⟩

/-- C6 at capacity 4 and handle 77. -/
theorem end_to_end_scenario_witness :
    0 < 4 ∧ (77 : Nat) ≠ 0 ∧
    ∃ s1 monitor s2 s3 monitors copy s4 modes,
      _glfwAddOutput (emptyRegistry 4 []) 5 2 77 = some s1 ∧
      readPtr s1.heap s1.wayland.monitors 0 = some monitor ∧
      deliverAll s1 monitor scenarioEvents = some s2 ∧
      _glfwPlatformGetMonitors s2 = some (s3, monitors, 1) ∧
      readPtr s3.heap monitors 0 = some copy ∧
      _glfwPlatformGetMonitorPos s3 copy true true = some (some 100, some 0) ∧
      _glfwPlatformGetVideoModes s3 monitor = some (s4, modes, 2) ∧
      load s4.heap modes =
        some (.vidModes [⟨1920, 1080, 0, 0, 0, 60000⟩, ⟨1920, 1080, 0, 0, 0, 144000⟩]) ∧
      _glfwPlatformGetVideoMode s4 monitor = some (some ⟨1920, 1080, 0, 0, 0, 144000⟩) :=
  ⟨by decide, by decide, end_to_end_scenario 4 77 (by decide) (by decide)⟩

/-- C5 at the live record of the end-to-end scenario: of its two modes the
second is the first to carry `CURRENT`, and it is the one stored. -/
theorem getVideoMode_first_current_witness :
    loadMonitor (scenarioState 4 77 []).heap 2 = some (scenarioRecord 77) ∧
    (scenarioRecord 77).wayland.modesCount ≤
      (modeStorage (scenarioState 4 77 []).heap (scenarioRecord 77)).length ∧
    _glfwPlatformGetVideoMode (scenarioState 4 77 []) 2 =
      some (some ⟨1920, 1080, 0, 0, 0, 144000⟩) :=
  ⟨by decide, by decide,
    (getVideoMode_first_current (scenarioState 4 77 []) 2 (scenarioRecord 77)
      (by decide) (by decide)).1 1 (newMode 1 1920 1080 144000)
      (by decide) (by decide) (by decide)
      (fun j e1 hj he => by
        obtain rfl : j = 0 := by omega
        cases he
        decide)⟩

/-! ## `_glfwPlatformGetMonitors` -/

theorem recordOk_iff {h : Heap} {p : Nat} :
    recordOk h p = true ↔ ∃ m, loadMonitor h p = some m ∧
      m.wayland.modesCount ≤ (modeStorage h m).length := by
  unfold recordOk
  constructor
  · intro hr
    split at hr
    · cases hr
    · next m hm => exact ⟨m, hm, by simpa using hr⟩
  · rintro ⟨m, hm, hle⟩
    simp [hm, hle]

theorem Zeroed.modes {m1 m : _GLFWmonitor} (h : Zeroed m1 m) :
    m1.wayland.modes = m.wayland.modes ∧ m1.wayland.modesCount ≤ m.wayland.modesCount := by
  rcases h with h | h <;> subst h <;> simp [zeroCount]

theorem Zeroed.step {m1 m : _GLFWmonitor} (h : Zeroed m1 m) (b : Bool) :
    Zeroed (if b then m1 else zeroCount m1) m := by
  cases b
  · rcases h with h | h <;> subst h
    · exact Or.inr rfl
    · exact Or.inr rfl
  · exact h

theorem getD_tail_tail (o : List Bool) (j : Nat) :
    o.tail.tail.getD j true = o.getD (j + 2) true := by
  cases o with
  | nil => simp
  | cons a t =>
    cases t with
    | nil => simp
    | cons b r => simp

theorem getD_zero_eq_headD (o : List Bool) : o.getD 0 true = o.headD true := by
  cases o <;> simp

theorem load_ne_of_blocks {h : Heap} {p q : Nat} {b1 b2 : Block} (h1 : load h p = some b1)
    (h2 : load h q = some b2) (hne : b1 ≠ b2) : p ≠ q := by
  intro e
  rw [e, h2] at h1
  exact hne (Option.some.inj h1).symm

theorem load_store_valid {h : Heap} {p : Nat} {b0 : Block} (b : Block)
    (hv : load h p = some b0) : load (store h p b) p = some b :=
  load_store_eq b (load_bounds hv).1 (load_bounds hv).2

theorem copyMonitor_spec (s : State) (arr q orig i : Nat) (mq m : _GLFWmonitor)
    (a cells : List Nat)
    (hq : loadMonitor s.heap q = some mq)
    (horig : loadMonitor s.heap orig = some m)
    (hne : orig ≠ q)
    (hfit : m.wayland.modesCount ≤ (modeStorage s.heap m).length)
    (harr : load s.heap arr = some (.monitorPtrs a)) (hi : i < a.length)
    (hR : load s.heap s.wayland.monitors = some (.monitorPtrs cells))
    (hcell : cells[i]? = some orig) :
    ∃ s1, copyMonitor s arr q orig i = some s1 ∧
      loadMonitor s1.heap orig = some (if s.oracle.headD true then m else zeroCount m) ∧
      loadMonitor s1.heap q = some (if s.oracle.headD true then m else zeroCount m) ∧
      load s1.heap arr = some (.monitorPtrs (a.set i q)) ∧
      (∀ p b, load s.heap p = some b → p ≠ orig → p ≠ q → p ≠ arr →
        load s1.heap p = some b) ∧
      s1.oracle = s.oracle.tail ∧ s1.wayland = s.wayland ∧
      s.heap.length ≤ s1.heap.length := by
  have hq0 := loadMonitor_eq_some.mp hq
  have ho0 := loadMonitor_eq_some.mp horig
  have hRq : s.wayland.monitors ≠ q := load_ne_of_blocks hR hq0 (by simp)
  have hRo : s.wayland.monitors ≠ orig := load_ne_of_blocks hR ho0 (by simp)
  have haq : arr ≠ q := load_ne_of_blocks harr hq0 (by simp)
  have hao : arr ≠ orig := load_ne_of_blocks harr ho0 (by simp)
  -- the heap after `_glfwPlatformGetVideoModes` and the two values it yields
  obtain ⟨h1, modes, found, hgv, hfound, hframe1, hlen1⟩ :
      ∃ (h1 : Heap) (modes found : Nat),
        _glfwPlatformGetVideoModes s orig = some ({ s with oracle := s.oracle.tail, heap := h1 }, modes, found) ∧
        found = (if s.oracle.headD true then m.wayland.modesCount else 0) ∧
        (∀ p b, load s.heap p = some b → load h1 p = some b) ∧
        s.heap.length ≤ h1.length := by
    cases hhd : s.oracle.headD true
    · exact ⟨s.heap, 0, 0, getVideoModes_of_fail s orig m horig hhd, by simp,
        fun p b hp => hp, Nat.le_refl _⟩
    · exact ⟨_, _, _, getVideoModes_of_fits s orig m horig hfit hhd, by simp,
        fun p b hp => load_append_some _ hp, by simp⟩
  have hm' : ({ m with wayland := { m.wayland with modesCount := found } } : _GLFWmonitor) =
      (if s.oracle.headD true then m else zeroCount m) := by
    rw [hfound]
    cases s.oracle.headD true <;> simp [zeroCount]
  unfold copyMonitor
  simp only [hgv, storeModesCount, loadMonitor_eq_some.mpr (hframe1 _ _ ho0), hm']
  generalize (if s.oracle.headD true then m else zeroCount m) = m1
  have e1 : loadMonitor (store h1 orig (.monitor m1)) q = some mq := by
    rw [loadMonitor_eq_some, load_store_ne _ _ (Ne.symm hne)]
    exact hframe1 _ _ hq0
  simp only [storeModes, e1]
  have e2 : readPtr (store (store h1 orig (.monitor m1)) q
      (.monitor { mq with modes := modes })) s.wayland.monitors i = some orig := by
    unfold readPtr
    rw [load_store_ne _ _ hRq, load_store_ne _ _ hRo, hframe1 _ _ hR]
    exact hcell
  have e3 : loadMonitor (store (store h1 orig (.monitor m1)) q
      (.monitor { mq with modes := modes })) orig = some m1 := by
    rw [loadMonitor_eq_some, load_store_ne _ _ hne]
    exact load_store_valid _ (hframe1 _ _ ho0)
  have e4 : load (store (store h1 orig (.monitor m1)) q
      (.monitor { mq with modes := modes })) q = some (.monitor { mq with modes := modes }) := by
    apply @load_store_valid _ _ (.monitor mq)
    rw [load_store_ne _ _ (Ne.symm hne)]
    exact hframe1 _ _ hq0
  have e5 : load (store (store (store h1 orig (.monitor m1)) q
      (.monitor { mq with modes := modes })) q (.monitor m1)) arr = some (.monitorPtrs a) := by
    rw [load_store_ne _ _ haq, load_store_ne _ _ haq, load_store_ne _ _ hao]
    exact hframe1 _ _ harr
  simp only [e2, e3, writePtr, e5, hi, if_true]
  refine ⟨_, rfl, ?_, ?_, ?_, ?_, rfl, rfl, ?_⟩
  · rw [loadMonitor_eq_some, load_store_ne _ _ (Ne.symm hao), load_store_ne _ _ hne,
      load_store_ne _ _ hne]
    exact load_store_valid _ (hframe1 _ _ ho0)
  · rw [loadMonitor_eq_some, load_store_ne _ _ (Ne.symm haq)]
    exact load_store_valid _ e4
  · exact load_store_valid _ e5
  · intro p b hp hp1 hp2 hp3
    simp only
    rw [load_store_ne _ _ hp3, load_store_ne _ _ hp2, load_store_ne _ _ hp2,
      load_store_ne _ _ hp1]
    exact hframe1 _ _ hp
  · simp only [length_store]
    exact hlen1

theorem getMonitorsLoop_spec (s0 : State) (cells : List Nat) (n arr : Nat)
    (hR0 : load s0.heap s0.wayland.monitors = some (.monitorPtrs cells))
    (hn : n ≤ cells.length)
    (hok0 : ∀ p ∈ cells.take n, recordOk s0.heap p = true)
    (hnd : (cells.take n).Nodup)
    (harr0 : s0.heap.length < arr)
    (t : Nat) (ht0 : 0 < t) (htn : t ≤ n) :
    ∀ (fuel i : Nat) (s : State) (a : List Nat), i + fuel = n → i ≤ t →
      Frame s0 s →
      load s.heap arr = some (.monitorPtrs a) → a.length = n →
      (∀ k, k < i → ∃ q p mk, a[k]? = some q ∧ cells[k]? = some p ∧
        s0.heap.length < q ∧ q ≠ arr ∧
        loadMonitor s.heap q = some mk ∧ loadMonitor s.heap p = some mk) →
      (∀ j, i + j < t → s.oracle.getD (2 * j) true = true) →
      (t < n → s.oracle.getD (2 * (t - i)) true = false) →
      ∃ s1 a1, getMonitorsLoop arr n fuel i s = some (s1, arr, t) ∧
        Frame s0 s1 ∧ load s1.heap arr = some (.monitorPtrs a1) ∧ a1.length = n ∧
        (∀ k, k < t → ∃ q p mk, a1[k]? = some q ∧ cells[k]? = some p ∧
          s0.heap.length < q ∧ q ≠ arr ∧
          loadMonitor s1.heap q = some mk ∧ loadMonitor s1.heap p = some mk) := by
  intro fuel
  induction fuel with
  | zero =>
    intro i s a hi hit hfr harr hlen hcop _ _
    have : t = i := by omega
    subst this
    have : n = t := by omega
    subst this
    exact ⟨s, a, rfl, hfr, harr, hlen, hcop⟩
  | succ fuel ih =>
    intro i s a hi hit hfr harr hlen hcop hsucc hfail
    obtain ⟨hw, hlen0, hnonmon, hmon⟩ := hfr
    have hin : i < n := by omega
    have hicl : i < cells.length := by omega
    have hcell : cells[i]? = some cells[i] := List.getElem?_eq_getElem hicl
    have hR : load s.heap s.wayland.monitors = some (.monitorPtrs cells) := by
      rw [hw]; exact hnonmon _ _ hR0 (by simp)
    have hread : readPtr s.heap s.wayland.monitors i = some cells[i] := by
      unfold readPtr; rw [hR]; exact hcell
    unfold getMonitorsLoop
    simp only [hread]
    by_cases hit2 : i = t
    · -- the allocation of the record fails
      subst hit2
      have hhd : s.oracle.headD true = false := by
        have := hfail hin
        rwa [Nat.sub_self, Nat.mul_zero, getD_zero_eq_headD] at this
      simp only [allocate_of_fail s _ hhd, if_true, ht0]
      exact ⟨_, a, rfl, ⟨hw, hlen0, hnonmon, hmon⟩, harr, hlen, hcop⟩
    · have hlt : i < t := by omega
      have hhd : s.oracle.headD true = true := by
        have := hsucc 0 (by omega)
        rwa [Nat.mul_zero, getD_zero_eq_headD] at this
      have hq0 : s.heap.length + 1 ≠ 0 := by omega
      simp only [allocate_of_ok s _ hhd, hq0, if_false]
      -- the live record
      have hmem : cells[i] ∈ cells.take n :=
        List.mem_take_iff_getElem.mpr ⟨i, by simp; omega, rfl⟩
      obtain ⟨m0, hm0, hfit0⟩ := recordOk_iff.mp (hok0 _ hmem)
      obtain ⟨m, hm, hz⟩ := hmon _ _ hm0
      have hmb := load_bounds (loadMonitor_eq_some.mp hm)
      have hm0b := load_bounds (loadMonitor_eq_some.mp hm0)
      have hfit : m.wayland.modesCount ≤
          (modeStorage (s.heap ++ [some (.monitor zeroMonitor)]) m).length := by
        have hz2 := hz.modes.2
        rcases modeStorage_cases s0.heap m0 with ⟨c, hc0, hst⟩ | hst
        · have hc : load (s.heap ++ [some (.monitor zeroMonitor)]) m.wayland.modes =
              some (.wlModes c) := by
            rw [hz.modes.1]
            exact load_append_some _ (hnonmon _ _ hc0 (by simp))
          rw [modeStorage_of_load hc]
          rw [hst] at hfit0
          omega
        · rw [hst] at hfit0
          simp only [List.length_nil] at hfit0
          omega
      obtain ⟨s2, h1, h2, h3, h4, h5, h6, h7, h8⟩ :=
        copyMonitor_spec
          { s with oracle := s.oracle.tail, heap := s.heap ++ [some (.monitor zeroMonitor)] }
          arr (s.heap.length + 1) cells[i] i zeroMonitor m a cells
          (by rw [loadMonitor_eq_some]; exact load_append_fresh _ _)
          (by rw [loadMonitor_eq_some]; exact load_append_some _ (loadMonitor_eq_some.mp hm))
          (by omega)
          hfit
          (load_append_some _ harr) (by omega)
          (load_append_some _ hR) hcell
      simp only [h1]
      simp only [List.length_append, List.length_singleton] at h8
      have hfr2 : Frame s0 s2 := by
        refine ⟨by rw [h7]; exact hw, by omega, ?_, ?_⟩
        · intro p b hp hb
          have hp1 := hnonmon p b hp hb
          have hpb := load_bounds hp
          refine h5 p b (load_append_some _ hp1) ?_ (by omega) (by omega)
          exact load_ne_of_blocks hp1 (loadMonitor_eq_some.mp hm) (hb m)
        · intro p mp hp
          obtain ⟨mp1, hp1, hz1⟩ := hmon p mp hp
          have hpb := load_bounds (loadMonitor_eq_some.mp hp)
          by_cases hpo : p = cells[i]
          · subst hpo
            rw [hm0] at hp
            cases hp
            exact ⟨_, h2, hz.step _⟩
          · refine ⟨mp1, ?_, hz1⟩
            rw [loadMonitor_eq_some]
            exact h5 p _ (load_append_some _ (loadMonitor_eq_some.mp hp1)) hpo (by omega)
              (by omega)
      obtain ⟨s3, a3, g1, g2, g3, g4, g5⟩ :=
        ih (i + 1) s2 (a.set i (s.heap.length + 1)) (by omega) (by omega) hfr2 h4
          (by simp [hlen])
          (by
            intro k hk
            by_cases hki : k = i
            · subst hki
              refine ⟨s.heap.length + 1, cells[k], _, ?_, hcell, by omega, ?_, h3, h2⟩
              · rw [List.getElem?_set]; simp [hlen, hin]
              · have harrb := load_bounds harr
                omega
            · obtain ⟨q, p, mk, c1, c2, c3, c4, c5, c6⟩ := hcop k (by omega)
              have hqb := load_bounds (loadMonitor_eq_some.mp c5)
              have hpb := load_bounds (loadMonitor_eq_some.mp c6)
              refine ⟨q, p, mk, ?_, c2, c3, c4, ?_, ?_⟩
              · rw [List.getElem?_set_ne (by omega)]; exact c1
              · rw [loadMonitor_eq_some]
                exact h5 q _ (load_append_some _ (loadMonitor_eq_some.mp c5)) (by omega)
                  (by omega) c4
              · rw [loadMonitor_eq_some]
                refine h5 p _ (load_append_some _ (loadMonitor_eq_some.mp c6)) ?_ (by omega)
                  (Ne.symm (load_ne_of_blocks harr (loadMonitor_eq_some.mp c6) (by simp)))
                intro hpe
                have hkl : k < cells.length := by omega
                have hk2 : cells[k]? = some cells[k] := List.getElem?_eq_getElem hkl
                rw [hk2] at c2
                have hpk : cells[k] = p := Option.some.inj c2
                have h1t : k < (cells.take n).length := by simp; omega
                have h2t : i < (cells.take n).length := by simp; omega
                have := (@List.Nodup.getElem_inj_iff _ _ hnd k h1t i h2t).mp (by
                  simp only [List.getElem_take]
                  rw [hpk, hpe])
                omega)
          (by
            intro j hj
            rw [h6]
            simp only [getD_tail_tail]
            have := hsucc (j + 1) (by omega)
            rwa [Nat.mul_add] at this)
          (by
            intro htn2
            rw [h6]
            simp only [getD_tail_tail]
            have := hfail htn2
            have e : 2 * (t - i) = 2 * (t - (i + 1)) + 2 := by omega
            rwa [e] at this)
      exact ⟨s3, a3, g1, g2, g3, g4, g5⟩

theorem getD_tail (o : List Bool) (j : Nat) : o.tail.getD j true = o.getD (j + 1) true := by
  cases o with
  | nil => simp
  | cons a t => simp

theorem getMonitorsLoop_first_fails (s : State) (arr n fuel orig : Nat)
    (hread : readPtr s.heap s.wayland.monitors 0 = some orig)
    (hhd : s.oracle.headD true = false) :
    getMonitorsLoop arr n (fuel + 1) 0 s =
      some ({ s with oracle := s.oracle.tail, heap := release s.heap arr }, 0, 0) := by
  unfold getMonitorsLoop
  simp only [hread, allocate_of_fail s _ hhd, if_true, Nat.lt_irrefl, gt_iff_lt, if_false]

/-- C7: on a well-formed registry (readable storage holding at least
`monitorsCount` entries, which point to distinct readable records), the count
stored by `_glfwPlatformGetMonitors` is: 0, with `NULL` returned, when the
registry is empty, when the allocation of the sequence fails, or when the
allocation for record 0 fails (the sequence is then released); and `t`, with
the sequence returned, when the allocations for records `0 .. t-1` succeed and
either `t` is the number of live records or the allocation for record `t`
fails, `t > 0`.  In the last case entry `k < t` of the sequence points to a
block created by the call that holds the same record as live record `k`;
whether the arrays of line 210 could be allocated does not matter. -/
theorem getMonitors_count (s : State) (cells : List Nat)
    (hR : load s.heap s.wayland.monitors = some (.monitorPtrs cells))
    (hn : s.wayland.monitorsCount ≤ cells.length)
    (hok : ∀ p ∈ cells.take s.wayland.monitorsCount, recordOk s.heap p = true)
    (hnd : (cells.take s.wayland.monitorsCount).Nodup) :
    (s.wayland.monitorsCount = 0 → _glfwPlatformGetMonitors s = some (s, 0, 0)) ∧
    (s.wayland.monitorsCount ≠ 0 → s.oracle.headD true = false →
      _glfwPlatformGetMonitors s = some ({ s with oracle := s.oracle.tail }, 0, 0)) ∧
    (s.wayland.monitorsCount ≠ 0 → s.oracle.headD true = true →
      recordAllocOk s.oracle 0 = false →
      ∃ s1, _glfwPlatformGetMonitors s = some (s1, 0, 0) ∧ Frame s s1 ∧
        load s1.heap (s.heap.length + 1) = none) ∧
    (∀ t, 0 < t → t ≤ s.wayland.monitorsCount → s.oracle.headD true = true →
      (∀ k, k < t → recordAllocOk s.oracle k = true) →
      (t < s.wayland.monitorsCount → recordAllocOk s.oracle t = false) →
      ∃ s1 monitors a, _glfwPlatformGetMonitors s = some (s1, monitors, t) ∧
        monitors ≠ 0 ∧ load s1.heap monitors = some (.monitorPtrs a) ∧
        a.length = s.wayland.monitorsCount ∧ Frame s s1 ∧
        ∀ k, k < t → ∃ q p mk, a[k]? = some q ∧ cells[k]? = some p ∧
          s.heap.length < q ∧
          loadMonitor s1.heap q = some mk ∧ loadMonitor s1.heap p = some mk) := by
  have hRb := load_bounds hR
  refine ⟨?_, ?_, ?_, ?_⟩
  · intro h0
    simp only [_glfwPlatformGetMonitors, h0, if_true]
  · intro h0 hhd
    simp only [_glfwPlatformGetMonitors, h0, if_false, allocate_of_fail s _ hhd, if_true]
  · intro h0 hhd hrec
    obtain ⟨f, hf⟩ : ∃ f, s.wayland.monitorsCount = f + 1 := ⟨s.wayland.monitorsCount - 1, by omega⟩
    have hq0 : s.heap.length + 1 ≠ 0 := by omega
    have hcell : cells[0]? = some cells[0] := List.getElem?_eq_getElem (by omega)
    have hread : readPtr (s.heap ++ [some (.monitorPtrs (List.replicate (f + 1) 0))])
        s.wayland.monitors 0 = some cells[0] := by
      unfold readPtr; rw [load_append_some _ hR]; exact hcell
    have hhd2 : s.oracle.tail.headD true = false := by
      have := hrec
      unfold recordAllocOk at this
      rwa [← getD_tail, getD_zero_eq_headD] at this
    simp only [_glfwPlatformGetMonitors, h0, if_false, allocate_of_ok s _ hhd, hq0]
    rw [hf, getMonitorsLoop_first_fails
      { s with oracle := s.oracle.tail,
               heap := s.heap ++ [some (.monitorPtrs (List.replicate (f + 1) 0))] }
      (s.heap.length + 1) (f + 1) f cells[0] hread hhd2]
    refine ⟨_, rfl, ⟨rfl, ?_, ?_, ?_⟩, ?_⟩
    · simp [length_release]
    · intro p b hp _
      rw [released_fresh_frame s.heap _ p (load_bounds hp).2]
      exact hp
    · intro p m hp
      refine ⟨m, ?_, Or.inl rfl⟩
      rw [loadMonitor_eq_some] at hp ⊢
      rw [released_fresh_frame s.heap _ p (load_bounds hp).2]
      exact hp
    · exact load_release_eq
        (s.heap ++ [some (.monitorPtrs (List.replicate (f + 1) 0))]) (s.heap.length + 1)
  · intro t ht0 htn hhd hsucc hfail
    have h0 : s.wayland.monitorsCount ≠ 0 := by omega
    have hq0 : s.heap.length + 1 ≠ 0 := by omega
    simp only [_glfwPlatformGetMonitors, h0, if_false, allocate_of_ok s _ hhd, hq0]
    obtain ⟨s1, a1, g1, g2, g3, g4, g5⟩ :=
      getMonitorsLoop_spec s cells s.wayland.monitorsCount (s.heap.length + 1) hR hn hok hnd
        (Nat.lt_succ_self _) t ht0 htn s.wayland.monitorsCount 0
        { s with oracle := s.oracle.tail,
                 heap := s.heap ++ [some (.monitorPtrs (List.replicate s.wayland.monitorsCount 0))] }
        (List.replicate s.wayland.monitorsCount 0) (by omega) (by omega)
        ⟨rfl, by simp, fun p b hp _ => load_append_some _ hp,
          fun p m hp => ⟨m, by
            rw [loadMonitor_eq_some] at hp ⊢
            exact load_append_some _ hp, Or.inl rfl⟩⟩
        (load_append_fresh _ _) (by simp)
        (fun k hk => by omega)
        (fun j hj => by
          have := hsucc j (by omega)
          unfold recordAllocOk at this
          simp only
          rwa [getD_tail])
        (fun htn2 => by
          have := hfail htn2
          unfold recordAllocOk at this
          simp only [Nat.sub_zero]
          rwa [getD_tail])
    refine ⟨s1, _, a1, g1, hq0, g3, g4, g2, ?_⟩
    intro k hk
    obtain ⟨q, p, mk, c1, c2, c3, _, c5, c6⟩ := g5 k hk
    exact ⟨q, p, mk, c1, c2, c3, c5, c6⟩

/-- C7 at a concrete registry of two records: the sequence and the first
record are allocated, the allocation for the second record fails; the count
is 1 and the sequence is returned. -/
theorem getMonitors_count_witness :
    load (twoRecordState [true, true, true, false]).heap
      (twoRecordState [true, true, true, false]).wayland.monitors =
      some (.monitorPtrs [2, 4, 0, 0]) ∧
    (twoRecordState [true, true, true, false]).wayland.monitorsCount ≤ [2, 4, 0, 0].length ∧
    (∀ p ∈ [2, 4, 0, 0].take (twoRecordState [true, true, true, false]).wayland.monitorsCount,
      recordOk (twoRecordState [true, true, true, false]).heap p = true) ∧
    ([2, 4, 0, 0].take (twoRecordState [true, true, true, false]).wayland.monitorsCount).Nodup ∧
    ∃ s1 monitors, _glfwPlatformGetMonitors (twoRecordState [true, true, true, false]) =
      some (s1, monitors, 1) ∧ monitors ≠ 0 := by
  refine ⟨by decide, by decide, by decide, by decide, ?_⟩
  obtain ⟨s1, monitors, _, h1, h2, _⟩ :=
    (getMonitors_count (twoRecordState [true, true, true, false]) [2, 4, 0, 0]
      (by decide) (by decide) (by decide) (by decide)).2.2.2 1 (by decide) (by decide)
      (by decide)
      (fun k hk => by
        obtain rfl : k = 0 := by omega
        decide)
      (fun _ => by decide)
  exact ⟨s1, monitors, h1, h2⟩

/-! ## `_glfwPlatformGetMonitors` on the state of the end-to-end scenario -/

/-- C2, at the failing input: after the end-to-end scenario (capacity 4,
handle 77) with every allocation succeeding, the record returned by
`_glfwPlatformGetMonitors` (block 5) is the live record field for field: its
`modes` field is `NULL`, the value of the `modes` field of the live record,
which line 212 copied over the pointer stored at line 209; and the array of
the two modes made at lines 209-211 is block 6, to which no record points. -/
theorem getMonitors_discards_mode_copy :
    (∃ s1, _glfwAddOutput (emptyRegistry 4 []) 5 2 77 = some s1 ∧
      deliverAll s1 2 scenarioEvents = some (scenarioState 4 77 [])) ∧
    _glfwPlatformGetMonitors (scenarioState 4 77 []) = some (snapshotState [], 4, 1) ∧
    readPtr (snapshotState []).heap 4 0 = some 5 ∧
    loadMonitor (snapshotState []).heap 5 = some (scenarioRecord 77) ∧
    loadMonitor (snapshotState []).heap 2 = some (scenarioRecord 77) ∧
    (scenarioRecord 77).modes = 0 ∧
    load (snapshotState []).heap 6 =
      some (.vidModes [⟨1920, 1080, 0, 0, 0, 60000⟩, ⟨1920, 1080, 0, 0, 0, 144000⟩]) ∧
    (snapshotState []).heap.length = 6 :=
  ⟨⟨_, rfl, by decide⟩, by decide, by decide, by decide, by decide, by decide, by decide,
    by decide⟩

/-- C3, at the failing input: the end-to-end scenario (capacity 4, handle 77)
leaves a live record with two modes; `_glfwPlatformGetMonitors` is then called
with the allocations of the sequence and of the record succeeding and the
allocation of line 246 failing.  The call stores 0 through `found`, which line
211 made the address of the live `modesCount`: the live record has mode count
0 afterwards, `_glfwPlatformGetVideoModes` reports no mode and
`_glfwPlatformGetVideoMode` stores none. -/
theorem getMonitors_zeroes_live_count :
    (∃ s1, _glfwAddOutput (emptyRegistry 4 [true, true, true, false]) 5 2 77 = some s1 ∧
      deliverAll s1 2 scenarioEvents = some (scenarioState 4 77 [true, true, false])) ∧
    (loadMonitor (scenarioState 4 77 [true, true, false]).heap 2).map
      (fun m => m.wayland.modesCount) = some 2 ∧
    _glfwPlatformGetVideoMode (scenarioState 4 77 [true, true, false]) 2 =
      some (some ⟨1920, 1080, 0, 0, 0, 144000⟩) ∧
    ∃ s3, _glfwPlatformGetMonitors (scenarioState 4 77 [true, true, false]) = some (s3, 4, 1) ∧
      (loadMonitor s3.heap 2).map (fun m => m.wayland.modesCount) = some 0 ∧
      (_glfwPlatformGetVideoModes s3 2).map (fun r => r.2.2) = some 0 ∧
      _glfwPlatformGetVideoMode s3 2 = some none :=
  ⟨⟨_, rfl, by decide⟩, by decide, by decide, _, rfl, by decide, by decide, by decide⟩

/-- C4, at the failing input: after the end-to-end scenario (capacity 4,
handle 77) with every allocation succeeding, the record returned by
`_glfwPlatformGetMonitors` (block 5) has the same `wayland.modes` pointer as
the live record (block 2): both point to block 3.  A store through the copy
into entry 1 of that storage turns the answer of `_glfwPlatformGetVideoMode`
on the live record from (1920, 1080, 144000) into none, and releasing the
storage through the copy leaves both live queries undefined. -/
theorem snapshot_aliases_live_modes :
    (∃ s1, _glfwAddOutput (emptyRegistry 4 []) 5 2 77 = some s1 ∧
      deliverAll s1 2 scenarioEvents = some (scenarioState 4 77 [])) ∧
    _glfwPlatformGetMonitors (scenarioState 4 77 []) = some (snapshotState [], 4, 1) ∧
    readPtr (snapshotState []).heap 4 0 = some 5 ∧
    (loadMonitor (snapshotState []).heap 5).map (fun m => m.wayland.modes) = some 3 ∧
    (loadMonitor (snapshotState []).heap 2).map (fun m => m.wayland.modes) = some 3 ∧
    _glfwPlatformGetVideoMode (snapshotState []) 2 = some (some ⟨1920, 1080, 0, 0, 0, 144000⟩) ∧
    (∃ h, writeMode (snapshotState []).heap 3 1 zeroVidmodeWayland = some h ∧
      _glfwPlatformGetVideoMode { snapshotState [] with heap := h } 2 = some none) ∧
    _glfwPlatformGetVideoMode
      { snapshotState [] with heap := release (snapshotState []).heap 3 } 2 = none ∧
    _glfwPlatformGetVideoModes
      { snapshotState [] with heap := release (snapshotState []).heap 3 } 2 = none :=
  ⟨⟨_, rfl, by decide⟩, by decide, by decide, by decide, by decide, by decide,
    ⟨_, rfl, by decide⟩, by decide, by decide⟩

/-! ## The event handlers on one record -/

theorem geometry_eq (s : State) (data : Nat) (m : _GLFWmonitor) (x y w h : Int)
    (hm : loadMonitor s.heap data = some m) :
    geometry s data x y w h =
      some { s with heap := store s.heap data (.monitor
        { m with wayland := { m.wayland with x := x, y := y }, widthMM := w, heightMM := h }) } := by
  simp only [geometry, hm]

theorem done_eq (s : State) (data : Nat) (m : _GLFWmonitor)
    (hm : loadMonitor s.heap data = some m) :
    done s data =
      some { s with heap := store s.heap data (.monitor
        { m with wayland := { m.wayland with done := true } }) } := by
  simp only [done, hm]

theorem loadMonitor_store_self {h : Heap} {data : Nat} {m : _GLFWmonitor} (m1 : _GLFWmonitor)
    (hm : loadMonitor h data = some m) :
    loadMonitor (store h data (.monitor m1)) data = some m1 := by
  rw [loadMonitor_eq_some]
  exact load_store_valid _ (loadMonitor_eq_some.mp hm)

theorem modeStorage_store_record {h : Heap} {data : Nat} {m : _GLFWmonitor}
    (m1 m2 : _GLFWmonitor) (hm : loadMonitor h data = some m)
    (hmodes : m2.wayland.modes = m.wayland.modes) :
    modeStorage (store h data (.monitor m1)) m2 = modeStorage h m := by
  unfold modeStorage
  rw [hmodes]
  by_cases he : m.wayland.modes = data
  · rw [he, load_store_valid _ (loadMonitor_eq_some.mp hm), loadMonitor_eq_some.mp hm]
  · rw [load_store_ne _ _ he]

theorem stored_facts (H : Heap) (data modes1 c : Nat) (m m1 : _GLFWmonitor)
    (C : List _GLFWvidmodeWayland) (x : _GLFWvidmodeWayland)
    (hd : load H data = some (.monitor m)) (hmo : load H modes1 = some (.wlModes C))
    (hc : c < C.length) :
    writeMode H modes1 c x = some (store H modes1 (.wlModes (C.set c x))) ∧
    loadMonitor (store (store H modes1 (.wlModes (C.set c x))) data (.monitor m1)) data =
      some m1 ∧
    load (store (store H modes1 (.wlModes (C.set c x))) data (.monitor m1)) modes1 =
      some (.wlModes (C.set c x)) ∧
    ∀ p, p ≠ data → p ≠ modes1 →
      load (store (store H modes1 (.wlModes (C.set c x))) data (.monitor m1)) p = load H p := by
  have hne : data ≠ modes1 := load_ne_of_blocks hd hmo (by simp)
  refine ⟨by simp only [writeMode, hmo, hc, if_true], ?_, ?_, ?_⟩
  · rw [loadMonitor_eq_some]
    apply @load_store_valid _ _ (.monitor m)
    rw [load_store_ne _ _ hne]
    exact hd
  · rw [load_store_ne _ _ (Ne.symm hne)]
    exact load_store_valid _ hmo
  · intro p h1 h2
    rw [load_store_ne _ _ h1, load_store_ne _ _ h2]

theorem reallocModes_result (s : State) (m : _GLFWmonitor) (n : Nat) (s1 : State)
    (modes : Nat) (hre : reallocModes s m.wayland.modes n = some (s1, modes)) :
    (∀ q mq, load s.heap q = some (.monitor mq) → q ≠ m.wayland.modes) ∧
    ((s.oracle.headD true = false ∧ modes = 0 ∧ s1 = { s with oracle := s.oracle.tail }) ∨
     (s.oracle.headD true = true ∧ modes = s.heap.length + 1 ∧
      ∃ H C, s1 = { s with oracle := s.oracle.tail, heap := H ++ [some (.wlModes C)] } ∧
        H.length = s.heap.length ∧ C.length = n ∧
        (∀ q b, load s.heap q = some b → q ≠ m.wayland.modes → load H q = some b) ∧
        (∀ k, k ≤ (modeStorage s.heap m).length → k ≤ n →
          C.take k = (modeStorage s.heap m).take k))) := by
  unfold reallocModes at hre
  by_cases hp : m.wayland.modes = 0
  · simp only [hp, if_true] at hre
    have hst : modeStorage s.heap m = [] := by
      unfold modeStorage; rw [hp]; rfl
    refine ⟨?_, ?_⟩
    · intro q mq hq
      have := (load_bounds hq).1
      omega
    · cases hhd : s.oracle.headD true
      · rw [allocate_of_fail s _ hhd] at hre
        cases hre
        exact Or.inl ⟨rfl, rfl, rfl⟩
      · rw [allocate_of_ok s _ hhd] at hre
        cases hre
        refine Or.inr ⟨rfl, rfl, s.heap, _, rfl, rfl, by simp, fun q b hq _ => hq, ?_⟩
        intro k hk _
        rw [hst] at hk ⊢
        have : k = 0 := by simpa using hk
        subst this
        simp
  · simp only [hp, if_false] at hre
    cases hl : load s.heap m.wayland.modes with
    | none => rw [hl] at hre; cases hre
    | some b =>
      cases b with
      | wlModes cells =>
        rw [hl] at hre
        simp only at hre
        have hst : modeStorage s.heap m = cells := modeStorage_of_load hl
        refine ⟨fun q mq hq => load_ne_of_blocks hq hl (by simp), ?_⟩
        cases hhd : s.oracle.headD true
        · simp only [hhd, Bool.false_eq_true, if_false] at hre
          cases hre
          exact Or.inl ⟨rfl, rfl, rfl⟩
        · simp only [hhd, if_true] at hre
          cases hre
          refine Or.inr ⟨rfl, rfl, release s.heap m.wayland.modes, _, rfl, length_release _ _,
            resize_length _ _ _, ?_, ?_⟩
          · intro q b hq hne
            rw [load_release_ne _ hne]
            exact hq
          · intro k hk hkn
            rw [hst] at hk ⊢
            exact resize_take _ _ _ _ hk hkn
      | monitor _ => rw [hl] at hre; cases hre
      | vidModes _ => rw [hl] at hre; cases hre
      | monitorPtrs _ => rw [hl] at hre; cases hre

theorem writeMode_none_of_not_lt (H : Heap) (p c : Nat) (C : List _GLFWvidmodeWayland)
    (x : _GLFWvidmodeWayland) (hl : load H p = some (.wlModes C)) (hc : ¬ c < C.length) :
    writeMode H p c x = none := by
  simp only [writeMode, hl, hc, if_false]

theorem mode_result (s : State) (data flags : Nat) (w h r : Int) (m : _GLFWmonitor) (s1 : State)
    (hm : loadMonitor s.heap data = some m)
    (hrun : mode s data flags w h r = some s1) :
    (m.wayland.modesCount + 1 ≥ m.wayland.modesSize ∧ s.oracle.headD true = false ∧
      s1 = { s with oracle := s.oracle.tail }) ∨
    (∃ modes1 cells1,
      (m.wayland.modesCount + 1 ≥ m.wayland.modesSize → s.oracle.headD true = true) ∧
      loadMonitor s1.heap data = some { m with wayland := { m.wayland with
        modes := modes1,
        modesSize := (if m.wayland.modesCount + 1 ≥ m.wayland.modesSize
          then m.wayland.modesSize * 2 else m.wayland.modesSize),
        modesCount := m.wayland.modesCount + 1 } } ∧
      load s1.heap modes1 = some (.wlModes cells1) ∧
      cells1.length = (if m.wayland.modesCount + 1 ≥ m.wayland.modesSize
        then m.wayland.modesSize else (modeStorage s.heap m).length) ∧
      m.wayland.modesCount < cells1.length ∧
      (m.wayland.modesCount ≤ (modeStorage s.heap m).length →
        cells1.take (m.wayland.modesCount + 1) =
          (modeStorage s.heap m).take m.wayland.modesCount ++ [newMode flags w h r]) ∧
      (∀ p b, load s.heap p = some b → p ≠ data → p ≠ m.wayland.modes →
        load s1.heap p = some b) ∧
      s1.wayland = s.wayland ∧ (∀ b ∈ s1.oracle, b ∈ s.oracle)) := by
  have hd := loadMonitor_eq_some.mp hm
  have hdb := load_bounds hd
  unfold mode at hrun
  simp only [hm] at hrun
  by_cases hg : m.wayland.modesCount + 1 ≥ m.wayland.modesSize
  · simp only [hg, if_true] at hrun ⊢
    cases hre : reallocModes s m.wayland.modes m.wayland.modesSize with
    | none => rw [hre] at hrun; cases hrun
    | some res =>
      obtain ⟨s2, modes⟩ := res
      rw [hre] at hrun
      simp only at hrun
      obtain ⟨hnemon, hcases⟩ := reallocModes_result s m _ s2 modes hre
      rcases hcases with ⟨hhd, h0, hs2⟩ | ⟨hhd, hmodes, H, C, hs2, hH, hC, hfr, htake⟩
      · subst h0
        simp only [if_true] at hrun
        cases hrun
        exact Or.inl ⟨trivial, hhd, hs2⟩
      · subst hmodes
        have hne0 : s.heap.length + 1 ≠ 0 := by omega
        simp only [hne0, if_false] at hrun
        subst hs2
        have hfresh : load (H ++ [some (.wlModes C)]) (s.heap.length + 1) =
            some (.wlModes C) := by
          rw [← hH]; exact load_append_fresh _ _
        have hdH : load (H ++ [some (.wlModes C)]) data = some (.monitor m) :=
          load_append_some _ (hfr _ _ hd (hnemon _ _ hd))
        by_cases hlt : m.wayland.modesCount < C.length
        · obtain ⟨f1, f2, f3, f4⟩ := stored_facts (H ++ [some (.wlModes C)]) data
            (s.heap.length + 1) m.wayland.modesCount m
            { m with wayland := { m.wayland with
                modes := s.heap.length + 1, modesSize := m.wayland.modesSize * 2,
                modesCount := m.wayland.modesCount + 1 } }
            C (newMode flags w h r) hdH hfresh hlt
          simp only [f1] at hrun
          cases hrun
          refine Or.inr ⟨s.heap.length + 1, C.set m.wayland.modesCount (newMode flags w h r),
            fun _ => hhd, f2, f3, by simp [hC], by simpa using hlt, ?_, ?_, rfl,
            fun b hb => List.mem_of_mem_tail hb⟩
          · intro hfit
            rw [take_succ_set _ _ _ hlt, htake _ hfit (by omega)]
          · intro p b hp hp1 hp2
            have hpb := load_bounds hp
            simp only
            rw [f4 p hp1 (by omega)]
            exact load_append_some _ (hfr _ _ hp hp2)
        · rw [writeMode_none_of_not_lt _ _ _ _ _ hfresh hlt] at hrun
          cases hrun
  · simp only [hg, if_false] at hrun ⊢
    cases hl : load s.heap m.wayland.modes with
    | none => simp only [writeMode, hl] at hrun; cases hrun
    | some b =>
      cases b with
      | wlModes cells =>
        have hst : modeStorage s.heap m = cells := modeStorage_of_load hl
        by_cases hlt : m.wayland.modesCount < cells.length
        · obtain ⟨f1, f2, f3, f4⟩ := stored_facts s.heap data m.wayland.modes
            m.wayland.modesCount m
            { m with wayland := { m.wayland with
                modesCount := m.wayland.modesCount + 1 } }
            cells (newMode flags w h r) hd hl hlt
          simp only [f1] at hrun
          cases hrun
          refine Or.inr ⟨m.wayland.modes, cells.set m.wayland.modesCount (newMode flags w h r),
            fun hc => hc.elim, f2, f3, by simp [hst], by simpa using hlt, ?_, ?_, rfl,
            fun b hb => hb⟩
          · intro _
            rw [hst]
            exact take_succ_set _ _ _ hlt
          · intro p b hp hp1 hp2
            simp only
            rw [f4 p hp1 hp2]
            exact hp
        · rw [writeMode_none_of_not_lt _ _ _ _ _ hl hlt] at hrun
          cases hrun
      | monitor _ => simp only [writeMode, hl] at hrun; cases hrun
      | vidModes _ => simp only [writeMode, hl] at hrun; cases hrun
      | monitorPtrs _ => simp only [writeMode, hl] at hrun; cases hrun

theorem getMonitorPos_of_record (s : State) (monitor : Nat) (m : _GLFWmonitor)
    (hm : loadMonitor s.heap monitor = some m) :
    _glfwPlatformGetMonitorPos s monitor true true =
      some (some m.wayland.x, some m.wayland.y) := by
  simp [_glfwPlatformGetMonitorPos, hm]

theorem modeList_store_record {h : Heap} {data : Nat} {m : _GLFWmonitor}
    (m1 : _GLFWmonitor) (hm : loadMonitor h data = some m)
    (hmodes : m1.wayland.modes = m.wayland.modes)
    (hcount : m1.wayland.modesCount = m.wayland.modesCount) :
    modeList (store h data (.monitor m1)) m1 = modeList h m := by
  unfold modeList
  rw [modeStorage_store_record m1 m1 hm hmodes, hcount]

theorem geometry_facts (s : State) (data : Nat) (m : _GLFWmonitor)
    (x y physicalWidth physicalHeight : Int)
    (hm : loadMonitor s.heap data = some m) :
    ∃ s1 m1, geometry s data x y physicalWidth physicalHeight = some s1 ∧
      m1 = { m with wayland := { m.wayland with x := x, y := y },
                    widthMM := physicalWidth, heightMM := physicalHeight } ∧
      loadMonitor s1.heap data = some m1 ∧
      modeStorage s1.heap m1 = modeStorage s.heap m ∧
      modeList s1.heap m1 = modeList s.heap m ∧
      (∀ p, p ≠ data → load s1.heap p = load s.heap p) ∧
      s1.wayland = s.wayland ∧ s1.oracle = s.oracle ∧ s1.errors = s.errors ∧
      s1.proxies = s.proxies ∧ s1.listeners = s.listeners :=
  ⟨_, _, geometry_eq s data m x y physicalWidth physicalHeight hm, rfl,
    loadMonitor_store_self _ hm, modeStorage_store_record _ _ hm rfl,
    modeList_store_record _ hm rfl rfl, fun _ hp => load_store_ne _ _ hp,
    rfl, rfl, rfl, rfl, rfl⟩

theorem done_facts (s : State) (data : Nat) (m : _GLFWmonitor)
    (hm : loadMonitor s.heap data = some m) :
    ∃ s1 m1, done s data = some s1 ∧
      m1 = { m with wayland := { m.wayland with done := true } } ∧
      loadMonitor s1.heap data = some m1 ∧
      modeStorage s1.heap m1 = modeStorage s.heap m ∧
      modeList s1.heap m1 = modeList s.heap m ∧
      (∀ p, p ≠ data → load s1.heap p = load s.heap p) ∧
      s1.wayland = s.wayland ∧ s1.oracle = s.oracle ∧ s1.errors = s.errors ∧
      s1.proxies = s.proxies ∧ s1.listeners = s.listeners :=
  ⟨_, _, done_eq s data m hm, rfl,
    loadMonitor_store_self _ hm, modeStorage_store_record _ _ hm rfl,
    modeList_store_record _ hm rfl rfl, fun _ hp => load_store_ne _ _ hp,
    rfl, rfl, rfl, rfl, rfl⟩

/-- C11: for a readable record in any state, a `geometry(x, y, physicalWidth,
physicalHeight, ...)` event runs without fault; afterwards
`_glfwPlatformGetMonitorPos` stores (x, y), the record has `widthMM =
physicalWidth` and `heightMM = physicalHeight` whatever the previous values
were, and its name, mode storage pointer, mode count, mode capacity, done flag
and output handle, the contents of its mode storage, every other block and
the registry are unchanged.  In particular `geometry(200, 0, ...)` followed by
`done()` leaves the position (200, 0) and the mode list as it was. -/
theorem geometry_overwrites_position (s : State) (data : Nat) (m : _GLFWmonitor)
    (x y physicalWidth physicalHeight : Int)
    (hm : loadMonitor s.heap data = some m) :
    (∃ s1, geometry s data x y physicalWidth physicalHeight = some s1 ∧
      _glfwPlatformGetMonitorPos s1 data true true = some (some x, some y) ∧
      loadMonitor s1.heap data =
        some { m with wayland := { m.wayland with x := x, y := y },
                      widthMM := physicalWidth, heightMM := physicalHeight } ∧
      (∀ m1, loadMonitor s1.heap data = some m1 →
        modeStorage s1.heap m1 = modeStorage s.heap m ∧
        modeList s1.heap m1 = modeList s.heap m) ∧
      (∀ p, p ≠ data → load s1.heap p = load s.heap p) ∧
      s1.wayland = s.wayland) ∧
    (∃ s2 m2, deliverAll s data [.geometry 200 0 physicalWidth physicalHeight, .done] =
        some s2 ∧
      _glfwPlatformGetMonitorPos s2 data true true = some (some 200, some 0) ∧
      loadMonitor s2.heap data = some m2 ∧
      m2.wayland.done = true ∧
      m2.wayland.modesCount = m.wayland.modesCount ∧
      modeList s2.heap m2 = modeList s.heap m) := by
  constructor
  · obtain ⟨s1, m1, h1, h2, h3, h4, h5, h6, h7, _⟩ :=
      geometry_facts s data m x y physicalWidth physicalHeight hm
    subst h2
    refine ⟨s1, h1, ?_, h3, ?_, h6, h7⟩
    · rw [getMonitorPos_of_record _ _ _ h3]
    · intro m1 hm1
      rw [h3] at hm1
      cases hm1
      exact ⟨h4, h5⟩
  · obtain ⟨s1, m1, h1, h2, h3, _, h5, _⟩ :=
      geometry_facts s data m 200 0 physicalWidth physicalHeight hm
    obtain ⟨s2, m2, g1, g2, g3, _, g5, _⟩ := done_facts s1 data m1 h3
    refine ⟨s2, m2, ?_, ?_, g3, ?_, ?_, ?_⟩
    · simp only [deliverAll, deliver, h1, g1]
    · rw [getMonitorPos_of_record _ _ _ g3, g2, h2]
    · rw [g2]
    · rw [g2, h2]
    · rw [g5, h5]

/-- C18: for a readable record, the `done` event runs without fault whatever
the mode count is (an empty mode list included); afterwards the record is the
record before with the completion flag set, and the contents of its mode
storage, every other block, the registry, the proxies and the listeners are
unchanged. -/
theorem done_sets_flag_only (s : State) (data : Nat) (m : _GLFWmonitor)
    (hm : loadMonitor s.heap data = some m) :
    ∃ s1, done s data = some s1 ∧
      loadMonitor s1.heap data =
        some { m with wayland := { m.wayland with done := true } } ∧
      (∀ m1, loadMonitor s1.heap data = some m1 →
        m1.wayland.done = true ∧
        m1.wayland.x = m.wayland.x ∧ m1.wayland.y = m.wayland.y ∧
        m1.widthMM = m.widthMM ∧ m1.heightMM = m.heightMM ∧
        m1.wayland.modesCount = m.wayland.modesCount ∧
        m1.wayland.modesSize = m.wayland.modesSize ∧
        m1.wayland.output = m.wayland.output ∧
        modeStorage s1.heap m1 = modeStorage s.heap m ∧
        modeList s1.heap m1 = modeList s.heap m) ∧
      (∀ p, p ≠ data → load s1.heap p = load s.heap p) ∧
      s1.wayland = s.wayland ∧ s1.proxies = s.proxies ∧ s1.listeners = s.listeners := by
  obtain ⟨s1, m1, h1, h2, h3, h4, h5, h6, h7, _, _, h10, h11⟩ := done_facts s data m hm
  subst h2
  refine ⟨s1, h1, h3, ?_, h6, h7, h10, h11⟩
  intro m1 hm1
  rw [h3] at hm1
  cases hm1
  exact ⟨rfl, rfl, rfl, rfl, rfl, rfl, rfl, rfl, h4, h5⟩

theorem mode_dropped (s : State) (data flags : Nat) (w h r : Int) (m : _GLFWmonitor)
    (hm : loadMonitor s.heap data = some m)
    (hg : m.wayland.modesCount + 1 ≥ m.wayland.modesSize)
    (hst : m.wayland.modes = 0 ∨ ∃ c, load s.heap m.wayland.modes = some (.wlModes c))
    (hhd : s.oracle.headD true = false) :
    mode s data flags w h r = some { s with oracle := s.oracle.tail } := by
  have hre : reallocModes s m.wayland.modes m.wayland.modesSize =
      some ({ s with oracle := s.oracle.tail }, 0) := by
    rcases hst with h0 | ⟨c, hc⟩
    · simp only [reallocModes, h0, if_true, allocate_of_fail s _ hhd]
    · exact reallocModes_of_fail s _ _ c hc hhd
  unfold mode
  simp only [hm, hg, if_true, hre]

/-- C14: for a readable record whose next append calls `realloc` (count + 1
reaches the recorded capacity) on its mode storage, a mode event whose
reallocation fails returns without fault and without storing anything: the
heap is the heap before the event, so the record (mode count, recorded
capacity, storage pointer and every other field), the contents of the storage
and every previously appended mode are as before, and so is the registry. -/
theorem mode_realloc_failure_drops (s : State) (data flags : Nat) (w h r : Int)
    (m : _GLFWmonitor)
    (hm : loadMonitor s.heap data = some m)
    (hg : m.wayland.modesCount + 1 ≥ m.wayland.modesSize)
    (hst : m.wayland.modes = 0 ∨ ∃ c, load s.heap m.wayland.modes = some (.wlModes c))
    (hhd : s.oracle.headD true = false) :
    ∃ s1, mode s data flags w h r = some s1 ∧
      s1.heap = s.heap ∧ s1.wayland = s.wayland ∧
      loadMonitor s1.heap data = some m ∧
      modeStorage s1.heap m = modeStorage s.heap m ∧
      modeList s1.heap m = modeList s.heap m ∧
      s1.proxies = s.proxies ∧ s1.listeners = s.listeners ∧ s1.errors = s.errors :=
  ⟨_, mode_dropped s data flags w h r m hm hg hst hhd, rfl, rfl, hm, rfl, rfl, rfl, rfl, rfl⟩

theorem deliver_effect (s : State) (data : Nat) (e : Event) (m : _GLFWmonitor) (s1 : State)
    (hm : loadMonitor s.heap data = some m)
    (hrun : deliver s data e = some s1) :
    ∃ m1, loadMonitor s1.heap data = some m1 ∧
      m1.wayland.output = m.wayland.output ∧
      (m.wayland.done = true → m1.wayland.done = true) ∧
      ((m1.wayland.modesCount = m.wayland.modesCount ∧
        m1.wayland.modesSize = m.wayland.modesSize) ∨
       ((∃ f w h r, e = .mode f w h r) ∧
        m1.wayland.modesCount = m.wayland.modesCount + 1 ∧
        m1.wayland.modesSize =
          (if m.wayland.modesCount + 1 ≥ m.wayland.modesSize
            then m.wayland.modesSize * 2 else m.wayland.modesSize))) ∧
      (m.wayland.modesCount ≤ (modeStorage s.heap m).length →
        m1.wayland.modesCount ≤ (modeStorage s1.heap m1).length ∧
        ((m1.wayland.modesCount = m.wayland.modesCount ∧
          modeList s1.heap m1 = modeList s.heap m) ∨
         (∃ f w h r, e = .mode f w h r ∧
          m1.wayland.modesCount = m.wayland.modesCount + 1 ∧
          modeList s1.heap m1 = modeList s.heap m ++ [newMode f w h r]))) := by
  cases e with
  | geometry x y pw ph =>
    obtain ⟨s2, m1, h1, h2, h3, h4, h5, _⟩ := geometry_facts s data m x y pw ph hm
    simp only [deliver, h1] at hrun
    cases hrun
    subst h2
    exact ⟨_, h3, rfl, fun hd => hd, Or.inl ⟨rfl, rfl⟩,
      fun hfit => ⟨by rw [h4]; exact hfit, Or.inl ⟨rfl, h5⟩⟩⟩
  | done =>
    obtain ⟨s2, m1, h1, h2, h3, h4, h5, _⟩ := done_facts s data m hm
    simp only [deliver, h1] at hrun
    cases hrun
    subst h2
    exact ⟨_, h3, rfl, fun _ => rfl, Or.inl ⟨rfl, rfl⟩,
      fun hfit => ⟨by rw [h4]; exact hfit, Or.inl ⟨rfl, h5⟩⟩⟩
  | scale k =>
    simp only [deliver, scale] at hrun
    cases hrun
    exact ⟨m, hm, rfl, fun hd => hd, Or.inl ⟨rfl, rfl⟩, fun hfit => ⟨hfit, Or.inl ⟨rfl, rfl⟩⟩⟩
  | mode f w h r =>
    simp only [deliver] at hrun
    rcases mode_result s data f w h r m s1 hm hrun with
      ⟨_, _, hs1⟩ | ⟨modes1, cells1, _, g2, g3, g4, g5, g6, _, _, _⟩
    · subst hs1
      exact ⟨m, hm, rfl, fun hd => hd, Or.inl ⟨rfl, rfl⟩,
        fun hfit => ⟨hfit, Or.inl ⟨rfl, rfl⟩⟩⟩
    · refine ⟨_, g2, rfl, fun hd => hd, Or.inr ⟨⟨f, w, h, r, rfl⟩, rfl, rfl⟩, ?_⟩
      intro hfit
      have hst : modeStorage s1.heap { m with wayland := { m.wayland with
          modes := modes1,
          modesSize := (if m.wayland.modesCount + 1 ≥ m.wayland.modesSize
            then m.wayland.modesSize * 2 else m.wayland.modesSize),
          modesCount := m.wayland.modesCount + 1 } } = cells1 :=
        modeStorage_of_load g3
      refine ⟨?_, Or.inr ⟨f, w, h, r, rfl, rfl, ?_⟩⟩
      · rw [hst]
        simp only
        omega
      · unfold modeList
        rw [hst]
        exact g6 hfit

theorem deliverAll_invariant (P : _GLFWmonitor → Prop) (data : Nat)
    (hstep : ∀ s e m s1, loadMonitor s.heap data = some m → P m →
      deliver s data e = some s1 → ∃ m1, loadMonitor s1.heap data = some m1 ∧ P m1) :
    ∀ (evs : List Event) (s : State) (m : _GLFWmonitor) (s1 : State),
      loadMonitor s.heap data = some m → P m → deliverAll s data evs = some s1 →
      ∀ k, ∃ sk mk, deliverAll s data (evs.take k) = some sk ∧
        loadMonitor sk.heap data = some mk ∧ P mk := by
  intro evs
  induction evs with
  | nil =>
    intro s m s1 hm hP _ k
    exact ⟨s, m, by simp [deliverAll], hm, hP⟩
  | cons e es ih =>
    intro s m s1 hm hP hrun k
    cases k with
    | zero => exact ⟨s, m, by simp [deliverAll], hm, hP⟩
    | succ k =>
      cases hd : deliver s data e with
      | none => simp only [deliverAll, hd] at hrun; cases hrun
      | some s2 =>
        simp only [deliverAll, hd] at hrun
        obtain ⟨m2, hm2, hP2⟩ := hstep s e m s2 hm hP hd
        obtain ⟨sk, mk, g1, g2, g3⟩ := ih s2 m2 s1 hm2 hP2 hrun k
        exact ⟨sk, mk, by simp only [List.take_succ_cons, deliverAll, hd]; exact g1, g2, g3⟩

/-! ## Every outcome of `_glfwAddOutput` -/

theorem registerMonitor_appends (s : State) (cells : List Nat) (output monitor : Nat)
    (hreg : RegistryOk s cells) (hpos : 0 < s.wayland.monitorsSize)
    (hhd : s.wayland.monitorsCount + 1 ≥ s.wayland.monitorsSize →
      s.oracle.headD true = true) :
    ∃ s1 cells1, registerMonitor s output monitor = some s1 ∧
      RegistryOk s1 cells1 ∧
      s1.wayland.monitorsCount = s.wayland.monitorsCount + 1 ∧
      s1.wayland.monitorsSize =
        (if s.wayland.monitorsCount + 1 ≥ s.wayland.monitorsSize
          then s.wayland.monitorsSize * 2 else s.wayland.monitorsSize) ∧
      (∀ i, i < s.wayland.monitorsCount → cells1[i]? = cells[i]?) ∧
      cells1[s.wayland.monitorsCount]? = some monitor ∧
      (∀ p b, load s.heap p = some b → p ≠ s.wayland.monitors → load s1.heap p = some b) ∧
      s1.proxies = s.proxies := by
  obtain ⟨hR, hlen, hcnt⟩ := hreg
  have hRb := load_bounds hR
  unfold registerMonitor
  by_cases hg : s.wayland.monitorsCount + 1 ≥ s.wayland.monitorsSize
  · simp only [hg, if_true, reallocMonitors_of_ok s _ _ cells hR (hhd hg)]
    have hne : s.heap.length + 1 ≠ 0 := by omega
    have hfresh : load (release s.heap s.wayland.monitors ++
        [some (.monitorPtrs (resize 0 cells (s.wayland.monitorsSize * 2)))])
        (s.heap.length + 1) =
        some (.monitorPtrs (resize 0 cells (s.wayland.monitorsSize * 2))) := by
      have := load_append_fresh (release s.heap s.wayland.monitors)
        (some (.monitorPtrs (resize 0 cells (s.wayland.monitorsSize * 2))))
      rwa [length_release] at this
    simp only [hne, if_false, appendMonitor, writePtr, hfresh, resize_length]
    have hlt : s.wayland.monitorsCount < s.wayland.monitorsSize * 2 := by omega
    simp only [hlt, if_true]
    refine ⟨_, (resize 0 cells (s.wayland.monitorsSize * 2)).set s.wayland.monitorsCount monitor,
      rfl, ⟨?_, ?_, ?_⟩, rfl, ?_, ?_, ?_, ?_, rfl⟩
    · exact @load_store_eq _ (s.heap.length + 1) _ (Nat.succ_pos _)
        (by rw [List.length_append, length_release]; simp)
    · simp [resize_length]
    · simp only; omega
    · simp
    · intro i hi
      rw [List.getElem?_set_ne (by omega), resize_getElem? _ _ _ _ (by omega) (by omega)]
    · rw [List.getElem?_set]; simp [resize_length, hlt]
    · intro p b hp hne2
      have hpb := load_bounds hp
      simp only
      rw [load_store_ne _ _ (by omega), load_append _ (by rw [length_release]; exact hpb.2),
        load_release_ne _ hne2, hp]
  · simp only [hg, if_false, appendMonitor, writePtr, hR]
    have hlt : s.wayland.monitorsCount < cells.length := by omega
    simp only [hlt, if_true]
    refine ⟨_, cells.set s.wayland.monitorsCount monitor,
      rfl, ⟨?_, ?_, ?_⟩, rfl, ?_, ?_, ?_, ?_, rfl⟩
    · exact load_store_eq _ hRb.1 hRb.2
    · simp [hlen]
    · simp only; omega
    · rfl
    · intro i hi
      rw [List.getElem?_set_ne (by omega)]
    · rw [List.getElem?_set]; simp [hlt]
    · intro p b hp hne2
      simp only
      rw [load_store_ne _ _ hne2, hp]

theorem addOutput_total (s : State) (cells : List Nat) (name version bound : Nat)
    (hreg : RegistryOk s cells) (hpos : 0 < s.wayland.monitorsSize) :
    ∃ s1, _glfwAddOutput s name version bound = some s1 ∧
      ((s1.wayland = s.wayland ∧
        (∀ p b, load s.heap p = some b → load s1.heap p = some b) ∧
        (∀ h, h ∈ s.proxies → h ≠ bound → h ∈ s1.proxies) ∧
        (∀ h, h ∈ s1.proxies → h ∈ s.proxies)) ∨
       (∃ cells1 r, bound ≠ 0 ∧ 2 ≤ version ∧ RegistryOk s1 cells1 ∧
        s1.wayland.monitorsCount = s.wayland.monitorsCount + 1 ∧
        s1.wayland.monitorsSize =
          (if s.wayland.monitorsCount + 1 ≥ s.wayland.monitorsSize
            then s.wayland.monitorsSize * 2 else s.wayland.monitorsSize) ∧
        (∀ i, i < s.wayland.monitorsCount → cells1[i]? = cells[i]?) ∧
        cells1[s.wayland.monitorsCount]? = some (s.heap.length + 1) ∧
        loadMonitor s1.heap (s.heap.length + 1) = some r ∧
        r.wayland.output = bound ∧ r.wayland.modesCount = 0 ∧ r.wayland.modesSize = 4 ∧
        (∀ p b, load s.heap p = some b → p ≠ s.wayland.monitors →
          load s1.heap p = some b) ∧
        s1.proxies = s.proxies ++ [bound])) := by
  have hR := hreg.1
  have hRb := load_bounds hR
  by_cases hv : version < 2
  · exact ⟨_, addOutput_unsupported s name version bound hv,
      Or.inl ⟨rfl, fun p b hp => hp, fun h hh _ => hh, fun h hh => hh⟩⟩
  have hv2 : 2 ≤ version := by omega
  by_cases hb : bound = 0
  · subst hb
    have hrun : _glfwAddOutput s name version 0 =
        some (_glfwFreeMonitor (_glfwAllocMonitor s ("wl_output@" ++ toString name) 0 0).1
          (s.heap.length + 1)) := by
      simp only [_glfwAddOutput, hv, if_false, _glfwAllocMonitor, wl_registry_bind, if_true]
    refine ⟨_, hrun, Or.inl ⟨rfl, ?_, fun h hh _ => hh, fun h hh => hh⟩⟩
    intro p b hp
    have := released_fresh_frame s.heap
      [some (.monitor { zeroMonitor with name := "wl_output@" ++ toString name,
                                          widthMM := 0, heightMM := 0 })] p (load_bounds hp).2
    simp only [_glfwFreeMonitor, _glfwAllocMonitor]
    rw [this]
    exact hp
  rw [addOutput_bound s name version bound hv2 hb]
  have hreg4 : RegistryOk (boundState s name bound (s.oracle.headD true)) cells :=
    ⟨load_append_some _ hR, hreg.2.1, hreg.2.2⟩
  by_cases hfail : s.wayland.monitorsCount + 1 ≥ s.wayland.monitorsSize ∧
      s.oracle.tail.headD true = false
  · rw [registerMonitor_fail _ cells bound _ hreg4.1 hfail.1 hfail.2]
    refine ⟨_, rfl, Or.inl ⟨rfl, ?_, ?_, ?_⟩⟩
    · intro p b hp
      have := released_fresh_frame s.heap
        (if s.oracle.headD true = true then
          [some (.monitor (freshRecord name bound (s.heap.length + 2))),
           some (.wlModes (List.replicate 4 zeroVidmodeWayland))]
         else [some (.monitor (freshRecord name bound 0))]) p (load_bounds hp).2
      simp only [_glfwInputError, _glfwFreeMonitor, wl_output_destroy, boundState]
      rw [this]
      exact hp
    · intro h hh hne
      show h ∈ (s.proxies ++ [bound]).filter (fun o => o != bound)
      rw [List.mem_filter]
      exact ⟨List.mem_append_left _ hh, by simpa using hne⟩
    · intro h hh
      have hh2 : h ∈ (s.proxies ++ [bound]).filter (fun o => o != bound) := hh
      rw [List.mem_filter, List.mem_append] at hh2
      rcases hh2.1 with h1 | h1
      · exact h1
      · have : h = bound := by simpa using h1
        have h2 := hh2.2
        rw [this] at h2
        simp at h2
  · have hhd2 : s.wayland.monitorsCount + 1 ≥ s.wayland.monitorsSize →
        s.oracle.tail.headD true = true := by
      intro hg
      by_contra hc
      exact hfail ⟨hg, Bool.eq_false_iff.mpr hc⟩
    obtain ⟨s1, cells1, h1, h2, h3, h4, h5, h6, h7, h8⟩ :=
      registerMonitor_appends (boundState s name bound (s.oracle.headD true)) cells bound
        (s.heap.length + 1) hreg4 hpos hhd2
    have hl1 : ∃ r, load (boundState s name bound (s.oracle.headD true)).heap
        (s.heap.length + 1) = some (.monitor r) ∧ r.wayland.output = bound ∧
        r.wayland.modesCount = 0 ∧ r.wayland.modesSize = 4 := by
      cases s.oracle.headD true
      · have := load_append_at s.heap [some (.monitor (freshRecord name bound 0))] 0
        exact ⟨_, by simpa [boundState] using this, rfl, rfl, rfl⟩
      · have := load_append_at s.heap
          [some (.monitor (freshRecord name bound (s.heap.length + 2))),
           some (.wlModes (List.replicate 4 zeroVidmodeWayland))] 0
        exact ⟨_, by simpa [boundState] using this, rfl, rfl, rfl⟩
    obtain ⟨r, hr, hr1, hr2, hr3⟩ := hl1
    refine ⟨s1, h1, Or.inr ⟨cells1, r, hb, hv2, h2, h3, h4, h5, h6, ?_, hr1, hr2, hr3, ?_, h8⟩⟩
    · rw [loadMonitor_eq_some]
      exact h7 _ _ hr (by
        show s.heap.length + 1 ≠ s.wayland.monitors
        omega)
    · intro p b hp hne
      exact h7 _ _ (load_append_some _ hp) hne

/-! ## Sequences of registrations -/

theorem registryHandles_of_load {s : State} {cells : List Nat}
    (hR : load s.heap s.wayland.monitors = some (.monitorPtrs cells)) :
    registryHandles s = (cells.take s.wayland.monitorsCount).map
      (fun p => (loadMonitor s.heap p).map (fun m => m.wayland.output)) := by
  unfold registryHandles
  rw [hR]

theorem take_eq_of_getElem? {α : Type} (l1 l2 : List α) (n : Nat)
    (h : ∀ i, i < n → l1[i]? = l2[i]?) : l1.take n = l2.take n := by
  apply List.ext_getElem?
  intro i
  simp only [List.getElem?_take]
  split
  · next hi => exact h i hi
  · rfl

theorem addOutput_keeps_handles (s : State) (c : AddCall) (hinv : HandlesOk s)
    (hfresh : c.bound = 0 ∨ c.bound ∉ s.proxies) :
    ∃ s1, _glfwAddOutput s c.name c.version c.bound = some s1 ∧ HandlesOk s1 := by
  obtain ⟨⟨cells, hreg⟩, hpos, h0, hmem, hnd⟩ := hinv
  have hR := hreg.1
  have hb : c.bound ∉ s.proxies := by
    rcases hfresh with h | h
    · rw [h]; exact h0
    · exact h
  have hH := registryHandles_of_load hR
  -- every registered entry points to a record
  have hrec : ∀ p ∈ cells.take s.wayland.monitorsCount,
      ∃ m, loadMonitor s.heap p = some m ∧ m.wayland.output ∈ s.proxies := by
    intro p hp
    have : (loadMonitor s.heap p).map (fun m => m.wayland.output) ∈ registryHandles s := by
      rw [hH]; exact List.mem_map_of_mem _ hp
    obtain ⟨v, hv, hvp⟩ := hmem _ this
    cases hl : loadMonitor s.heap p with
    | none => rw [hl] at hv; cases hv
    | some m =>
      rw [hl] at hv
      simp only [Option.map_some', Option.some.injEq] at hv
      exact ⟨m, rfl, by rw [hv]; exact hvp⟩
  obtain ⟨s1, hrun, hcase⟩ := addOutput_total s cells c.name c.version c.bound hreg hpos
  refine ⟨s1, hrun, ?_⟩
  rcases hcase with ⟨hw, hfr, hp1, hp2⟩ |
    ⟨cells1, r, hbn, _, hreg1, hcnt, hsz, hpre, hlast, hr, hro, _, _, hfr, hprox⟩
  · have hR1 : load s1.heap s1.wayland.monitors = some (.monitorPtrs cells) := by
      rw [hw]; exact hfr _ _ hR
    have hH1 : registryHandles s1 = registryHandles s := by
      rw [registryHandles_of_load hR1, hH, hw]
      apply List.map_congr_left
      intro p hp
      obtain ⟨m, hm, _⟩ := hrec p hp
      rw [hm, loadMonitor_eq_some.mpr (hfr _ _ (loadMonitor_eq_some.mp hm))]
    refine ⟨⟨cells, hR1, by rw [hw]; exact hreg.2.1, by rw [hw]; exact hreg.2.2⟩,
      by rw [hw]; exact hpos, fun hc => h0 (hp2 _ hc), ?_, by rw [hH1]; exact hnd⟩
    intro h hh
    rw [hH1] at hh
    obtain ⟨v, hv, hvp⟩ := hmem h hh
    refine ⟨v, hv, hp1 v hvp ?_⟩
    intro e
    exact hb (e ▸ hvp)
  · have hR1 := hreg1.1
    have hlen1 : s.wayland.monitorsCount + 1 ≤ cells1.length := by
      have := hreg1.2.1
      have := hreg1.2.2
      omega
    have hlen : s.wayland.monitorsCount ≤ cells.length := by
      have := hreg.2.1
      have := hreg.2.2
      omega
    have htake : cells1.take (s.wayland.monitorsCount + 1) =
        cells.take s.wayland.monitorsCount ++ [s.heap.length + 1] := by
      rw [List.take_succ, hlast,
        take_eq_of_getElem? cells1 cells _ hpre]
      rfl
    have hH1 : registryHandles s1 = registryHandles s ++ [some c.bound] := by
      rw [registryHandles_of_load hR1, hH, hcnt, htake, List.map_append]
      congr 1
      · apply List.map_congr_left
        intro p hp
        obtain ⟨m, hm, _⟩ := hrec p hp
        have hm0 := loadMonitor_eq_some.mp hm
        rw [hm, loadMonitor_eq_some.mpr
          (hfr _ _ hm0 (load_ne_of_blocks hm0 hR (by simp)))]
      · simp [hr, hro]
    refine ⟨⟨cells1, hreg1⟩, ?_, ?_, ?_, ?_⟩
    · rw [hsz]; split <;> omega
    · rw [hprox]
      intro hc
      rcases List.mem_append.mp hc with h | h
      · exact h0 h
      · have h2 : (0 : Nat) = c.bound := by simpa using h
        exact hbn h2.symm
    · intro h hh
      rw [hH1] at hh
      rw [hprox]
      rcases List.mem_append.mp hh with h1 | h1
      · obtain ⟨v, hv, hvp⟩ := hmem h h1
        exact ⟨v, hv, List.mem_append_left _ hvp⟩
      · exact ⟨c.bound, by simpa using h1, by simp⟩
    · rw [hH1]
      refine List.Nodup.append hnd (List.nodup_singleton _) ?_
      intro h h1 h2
      obtain ⟨v, hv, hvp⟩ := hmem h h1
      have : h = some c.bound := by simpa using h2
      rw [this] at hv
      cases hv
      exact hb hvp

theorem emptyRegistry_handlesOk (capacity : Nat) (oracle : List Bool) (hc : 0 < capacity) :
    HandlesOk (emptyRegistry capacity oracle) := by
  have hR : load (emptyRegistry capacity oracle).heap
      (emptyRegistry capacity oracle).wayland.monitors =
      some (.monitorPtrs (List.replicate capacity 0)) := rfl
  refine ⟨⟨List.replicate capacity 0, hR, by simp [emptyRegistry], Nat.zero_le _⟩, hc,
    by simp [emptyRegistry], ?_, ?_⟩
  · intro h hh
    rw [registryHandles_of_load hR] at hh
    simp [emptyRegistry] at hh
  · rw [registryHandles_of_load hR]
    simp [emptyRegistry]

theorem addOutputs_keep_handles :
    ∀ (calls : List AddCall) (s : State), HandlesOk s → freshBinds s calls = true →
      ∃ s1, addOutputs s calls = some s1 ∧ HandlesOk s1 := by
  intro calls
  induction calls with
  | nil => intro s hinv _; exact ⟨s, rfl, hinv⟩
  | cons c rest ih =>
    intro s hinv hfresh
    simp only [freshBinds, Bool.and_eq_true, Bool.or_eq_true, beq_iff_eq,
      Bool.not_eq_true'] at hfresh
    have hf1 : c.bound = 0 ∨ c.bound ∉ s.proxies :=
      hfresh.1.imp id (fun h => by simpa using h)
    obtain ⟨s1, h1, hinv1⟩ := addOutput_keeps_handles s c hinv hf1
    have hrest := hfresh.2
    rw [h1] at hrest
    obtain ⟨s2, h2, hinv2⟩ := ih s1 hinv1 hrest
    exact ⟨s2, by simp only [addOutputs, h1]; exact h2, hinv2⟩

/-- C16: starting from an empty registry of positive capacity, after every
sequence of `_glfwAddOutput` calls, whatever the versions, the outcomes of the
binds and the outcomes of the allocations, in which `wl_registry_bind` never
returns a handle that is a live proxy, all calls run without fault, every
registered entry points to a record, and no two registered records hold the
same output handle. -/
theorem registry_handles_distinct (capacity : Nat) (oracle : List Bool) (calls : List AddCall)
    (hc : 0 < capacity) (hfresh : freshBinds (emptyRegistry capacity oracle) calls = true) :
    ∃ s1, addOutputs (emptyRegistry capacity oracle) calls = some s1 ∧
      (registryHandles s1).Nodup ∧
      (∀ h ∈ registryHandles s1, h ≠ none) ∧
      (registryHandles s1).length = s1.wayland.monitorsCount := by
  obtain ⟨s1, h1, ⟨cells, hreg⟩, _, _, hmem, hnd⟩ :=
    addOutputs_keep_handles calls _ (emptyRegistry_handlesOk capacity oracle hc) hfresh
  refine ⟨s1, h1, hnd, ?_, ?_⟩
  · intro h hh e
    obtain ⟨v, hv, _⟩ := hmem h hh
    rw [e] at hv
    cases hv
  · rw [registryHandles_of_load hreg.1]
    have := hreg.2.1
    have := hreg.2.2
    simp
    omega

/-- C16 at a concrete run on a registry of capacity 1: a rejected version, a
failed bind, three registrations (the registry storage grows twice) and a
registration whose reallocation of the registry storage fails. -/
theorem registry_handles_distinct_witness :
    0 < 1 ∧
    freshBinds (emptyRegistry 1 [true, true, true, true, true, true, false])
      [⟨4, 1, 70⟩, ⟨5, 2, 0⟩, ⟨5, 2, 77⟩, ⟨6, 3, 78⟩, ⟨7, 2, 79⟩, ⟨8, 2, 80⟩] = true ∧
    ∃ s1, addOutputs (emptyRegistry 1 [true, true, true, true, true, true, false])
        [⟨4, 1, 70⟩, ⟨5, 2, 0⟩, ⟨5, 2, 77⟩, ⟨6, 3, 78⟩, ⟨7, 2, 79⟩, ⟨8, 2, 80⟩] = some s1 ∧
      (registryHandles s1).Nodup ∧
      (∀ h ∈ registryHandles s1, h ≠ none) ∧
      (registryHandles s1).length = s1.wayland.monitorsCount :=
  ⟨by decide, by decide,
    registry_handles_distinct 1 [true, true, true, true, true, true, false]
      [⟨4, 1, 70⟩, ⟨5, 2, 0⟩, ⟨5, 2, 77⟩, ⟨6, 3, 78⟩, ⟨7, 2, 79⟩, ⟨8, 2, 80⟩] (by decide) (by decide)⟩

/-! ## Counters and the completion flag -/

theorem mode_counters (s : State) (data flags : Nat) (w h r : Int) (m : _GLFWmonitor)
    (s1 : State) (hm : loadMonitor s.heap data = some m)
    (hrun : mode s data flags w h r = some s1) :
    ∃ m1, loadMonitor s1.heap data = some m1 ∧
      (m1.wayland.modesCount, m1.wayland.modesSize) =
        modeCounters (s.oracle.headD true) (m.wayland.modesCount, m.wayland.modesSize) := by
  rcases mode_result s data flags w h r m s1 hm hrun with
    ⟨hg, hhd, hs1⟩ | ⟨modes1, cells1, g1, g2, _⟩
  · subst hs1
    refine ⟨m, hm, ?_⟩
    simp only [modeCounters, hg, if_true, hhd, Bool.false_eq_true, if_false]
  · refine ⟨_, g2, ?_⟩
    by_cases hg : m.wayland.modesCount + 1 ≥ m.wayland.modesSize
    · simp only [modeCounters, hg, if_true, g1 hg]
    · simp only [modeCounters, hg, if_false]

theorem modeCounters_below (ok : Bool) (c : Nat × Nat) (hc : c.1 < c.2) :
    (modeCounters ok c).1 < (modeCounters ok c).2 := by
  unfold modeCounters
  split
  · split
    · simp only; omega
    · exact hc
  · simp only; omega

theorem modeCounters_fold_below (oks : List Bool) :
    ∀ c : Nat × Nat, c.1 < c.2 →
      (oks.foldl (fun c ok => modeCounters ok c) c).1 <
        (oks.foldl (fun c ok => modeCounters ok c) c).2 := by
  induction oks with
  | nil => intro c hc; exact hc
  | cons ok rest ih =>
    intro c hc
    simp only [List.foldl_cons]
    exact ih _ (modeCounters_below ok c hc)

theorem deliver_keeps_below (s : State) (data : Nat) (e : Event) (m : _GLFWmonitor)
    (s1 : State) (hm : loadMonitor s.heap data = some m)
    (hlt : m.wayland.modesCount < m.wayland.modesSize)
    (hrun : deliver s data e = some s1) :
    ∃ m1, loadMonitor s1.heap data = some m1 ∧
      m1.wayland.modesCount < m1.wayland.modesSize := by
  obtain ⟨m1, h1, _, _, h4, _⟩ := deliver_effect s data e m s1 hm hrun
  refine ⟨m1, h1, ?_⟩
  rcases h4 with ⟨hc, hs⟩ | ⟨_, hc, hs⟩
  · omega
  · rw [hc, hs]
    split <;> omega

theorem addOutputs_keep_below :
    ∀ (calls : List AddCall) (s : State) (cells : List Nat), RegistryOk s cells →
      s.wayland.monitorsCount < s.wayland.monitorsSize →
      ∃ s1 cells1, addOutputs s calls = some s1 ∧ RegistryOk s1 cells1 ∧
        s1.wayland.monitorsCount < s1.wayland.monitorsSize := by
  intro calls
  induction calls with
  | nil => intro s cells hreg hlt; exact ⟨s, cells, rfl, hreg, hlt⟩
  | cons c rest ih =>
    intro s cells hreg hlt
    obtain ⟨s1, h1, hcase⟩ :=
      addOutput_total s cells c.name c.version c.bound hreg (by omega)
    have hnext : ∃ cells1, RegistryOk s1 cells1 ∧
        s1.wayland.monitorsCount < s1.wayland.monitorsSize := by
      rcases hcase with ⟨hw, hfr, _, _⟩ | ⟨cells1, _, _, _, hreg1, hcnt, hsz, _⟩
      · exact ⟨cells, ⟨by rw [hw]; exact hfr _ _ hreg.1, by rw [hw]; exact hreg.2.1,
          by rw [hw]; exact hreg.2.2⟩, by rw [hw]; exact hlt⟩
      · refine ⟨cells1, hreg1, ?_⟩
        rw [hcnt, hsz]
        split <;> omega
    obtain ⟨cells1, hreg1, hlt1⟩ := hnext
    obtain ⟨s2, cells2, h2, hreg2, hlt2⟩ := ih s1 cells1 hreg1 hlt1
    exact ⟨s2, cells2, by simp only [addOutputs, h1]; exact h2, hreg2, hlt2⟩

/-! ## The mode list within allocated storage, and instances at concrete records -/

/-- While the stores stay inside the mode storage the mode list only grows at
its end: for a readable record whose first `modesCount` modes lie in its mode
storage, the geometry, done and scale handlers always run and a mode event
whose index is inside the storage runs and appends its mode; and whenever a
handler returns, the mode list before the event is an initial segment of the
mode list after it: the list is unchanged by geometry, done and scale and by a
mode event whose reallocation fails, and a mode event that stores extends it
by exactly its own mode, at the end. -/
theorem modeList_extends_within_storage (s : State) (data : Nat) (m : _GLFWmonitor)
    (hm : loadMonitor s.heap data = some m)
    (hfit : m.wayland.modesCount ≤ (modeStorage s.heap m).length) :
    (∀ x y pw ph, ∃ s1, deliver s data (.geometry x y pw ph) = some s1) ∧
    (∃ s1, deliver s data .done = some s1) ∧
    (∀ k, ∃ s1, deliver s data (.scale k) = some s1) ∧
    (∀ f w h r, m.wayland.modesCount < (modeStorage s.heap m).length →
      m.wayland.modesCount < m.wayland.modesSize →
      (m.wayland.modesCount + 1 ≥ m.wayland.modesSize → s.oracle.headD true = true) →
      ∃ s1 m1, deliver s data (.mode f w h r) = some s1 ∧
        loadMonitor s1.heap data = some m1 ∧
        modeList s1.heap m1 = modeList s.heap m ++ [newMode f w h r]) ∧
    (∀ e s1, deliver s data e = some s1 →
      ∃ m1, loadMonitor s1.heap data = some m1 ∧
        (∃ t, modeList s1.heap m1 = modeList s.heap m ++ t) ∧
        ((m1.wayland.modesCount = m.wayland.modesCount ∧
          modeList s1.heap m1 = modeList s.heap m) ∨
         (∃ f w h r, e = .mode f w h r ∧
          m1.wayland.modesCount = m.wayland.modesCount + 1 ∧
          modeList s1.heap m1 = modeList s.heap m ++ [newMode f w h r]))) := by
  refine ⟨?_, ?_, ?_, ?_, ?_⟩
  · intro x y pw ph
    obtain ⟨s1, _, h1, _⟩ := geometry_facts s data m x y pw ph hm
    exact ⟨s1, h1⟩
  · obtain ⟨s1, _, h1, _⟩ := done_facts s data m hm
    exact ⟨s1, h1⟩
  · intro k
    exact ⟨s, rfl⟩
  · intro f w h r hroom hsize hhd
    rcases modeStorage_cases s.heap m with ⟨cells, hc, hst⟩ | hst
    · rw [hst] at hroom
      obtain ⟨s1, modes1, cells1, h1, h2, h3, _, h5, _⟩ :=
        mode_step s data m cells f w h r hm hc hroom hsize hhd
      refine ⟨s1, _, h1, h2, ?_⟩
      unfold modeList
      rw [modeStorage_of_load h3, hst]
      exact h5
    · rw [hst] at hroom
      simp at hroom
  · intro e s1 hrun
    obtain ⟨m1, h1, _, _, _, h5⟩ := deliver_effect s data e m s1 hm hrun
    obtain ⟨_, hlist⟩ := h5 hfit
    refine ⟨m1, h1, ?_, hlist⟩
    rcases hlist with ⟨_, hl⟩ | ⟨f, w, h, r, _, _, hl⟩
    · exact ⟨[], by rw [hl]; simp⟩
    · exact ⟨[newMode f w h r], hl⟩

/-- C11 at the live record of the end-to-end scenario, after its `done()`:
`geometry(200, 0, ...)` then `done()` moves the position to (200, 0) and the
mode list keeps its two entries. -/
theorem geometry_overwrites_position_witness :
    loadMonitor (scenarioState 4 77 []).heap 2 = some (scenarioRecord 77) ∧
    ∃ s2 m2, deliverAll (scenarioState 4 77 []) 2 [.geometry 200 0 600 340, .done] = some s2 ∧
      _glfwPlatformGetMonitorPos s2 2 true true = some (some 200, some 0) ∧
      loadMonitor s2.heap 2 = some m2 ∧
      m2.wayland.done = true ∧
      m2.wayland.modesCount = (scenarioRecord 77).wayland.modesCount ∧
      modeList s2.heap m2 = modeList (scenarioState 4 77 []).heap (scenarioRecord 77) :=
  ⟨by decide,
    (geometry_overwrites_position (scenarioState 4 77 []) 2 (scenarioRecord 77) 200 0 600 340
      (by decide)).2⟩

/-- C18 at a freshly registered record, whose mode list is empty. -/
theorem done_sets_flag_only_witness :
    loadMonitor (registeredState []).heap 2 = some (freshRecord 5 77 3) ∧
    ∃ s1, done (registeredState []) 2 = some s1 ∧
      loadMonitor s1.heap 2 =
        some { freshRecord 5 77 3 with
          wayland := { (freshRecord 5 77 3).wayland with done := true } } := by
  refine ⟨by decide, ?_⟩
  obtain ⟨s1, h1, h2, _⟩ :=
    done_sets_flag_only (registeredState []) 2 (freshRecord 5 77 3) (by decide)
  exact ⟨s1, h1, h2⟩

/-- C14 at a record with three modes in storage of four entries, recorded
capacity 4: the fourth mode event calls `realloc`, which fails. -/
theorem mode_realloc_failure_drops_witness :
    loadMonitor (outputState scenarioModes 3 4 false [false]).heap 2 =
      some { freshRecord 5 77 3 with
        wayland := { (freshRecord 5 77 3).wayland with modesCount := 3 } } ∧
    (3 + 1 ≥ 4) ∧
    load (outputState scenarioModes 3 4 false [false]).heap 3 = some (.wlModes scenarioModes) ∧
    (outputState scenarioModes 3 4 false [false]).oracle.headD true = false ∧
    ∃ s1, mode (outputState scenarioModes 3 4 false [false]) 2 1 800 600 60000 = some s1 ∧
      s1.heap = (outputState scenarioModes 3 4 false [false]).heap := by
  refine ⟨by decide, by decide, by decide, by decide, ?_⟩
  obtain ⟨s1, h1, h2, _⟩ :=
    mode_realloc_failure_drops (outputState scenarioModes 3 4 false [false]) 2 1 800 600 60000
      { freshRecord 5 77 3 with
        wayland := { (freshRecord 5 77 3).wayland with modesCount := 3 } }
      (by decide) (by decide) (Or.inr ⟨scenarioModes, by decide⟩) (by decide)
  exact ⟨s1, h1, h2⟩

/-! ## Growth of the mode storage -/

theorem deliver_modes_capacity (data : Nat) :
    ∀ (evs : List ModeArgs) (s : State) (m : _GLFWmonitor) (cells : List _GLFWvidmodeWayland),
      loadMonitor s.heap data = some m →
      load s.heap m.wayland.modes = some (.wlModes cells) →
      cells.length = 4 →
      m.wayland.modesCount + evs.length ≤ 4 →
      m.wayland.modesSize = 4 →
      AllocsSucceed s →
      ∃ s2 m2, deliverAll s data (evs.map ModeArgs.event) = some s2 ∧
        loadMonitor s2.heap data = some m2 ∧
        m2.wayland.modesSize =
          (if evs ≠ [] ∧ m.wayland.modesCount + evs.length = 4 then 8 else 4) ∧
        (modeStorage s2.heap m2).length = 4 := by
  intro evs
  induction evs with
  | nil =>
    intro s m cells hm hc hlen _ hsz _
    exact ⟨s, m, rfl, hm, by simpa using hsz, by rw [modeStorage_of_load hc]; exact hlen⟩
  | cons a es ih =>
    intro s m cells hm hc hlen hcnt hsz hok
    simp only [List.length_cons] at hcnt
    obtain ⟨s1, modes1, cells1, h1, h2, h3, h4, _, _, _, h8⟩ :=
      mode_step s data m cells a.flags a.width a.height a.refresh hm hc
        (by omega) (by omega) (fun _ => hok.head)
    have hok1 : AllocsSucceed s1 := fun b hb => hok b (h8 b hb)
    have hlen1 : cells1.length = 4 := by
      rw [h4]; split <;> omega
    have hrun : deliverAll s data ((a :: es).map ModeArgs.event) =
        deliverAll s1 data (es.map ModeArgs.event) := by
      simp only [List.map_cons, deliverAll, deliver, ModeArgs.event, h1]
    rw [hrun]
    cases es with
    | nil =>
      refine ⟨s1, _, rfl, h2, ?_, by rw [modeStorage_of_load h3]; exact hlen1⟩
      simp only [List.length_cons, List.length_nil, hsz]
      by_cases h4' : m.wayland.modesCount + 1 ≥ 4
      · have : m.wayland.modesCount + (0 + 1) = 4 := by omega
        simp [h4', this]
      · have : ¬ m.wayland.modesCount + (0 + 1) = 4 := by omega
        simp [h4', this]
    | cons b r =>
      simp only [List.length_cons] at hcnt
      obtain ⟨s2, m2, g1, g2, g3, g4⟩ :=
        ih s1 _ cells1 h2 h3 hlen1 (by simp only [List.length_cons]; omega)
          (by
            simp only
            rw [if_neg (by omega)]
            exact hsz)
          hok1
      refine ⟨s2, m2, g1, g2, ?_, g4⟩
      rw [g3]
      simp only [List.length_cons, ne_eq, reduceCtorEq, not_false_eq_true, true_and]
      have e : m.wayland.modesCount + 1 + (r.length + 1) = 4 ↔
          m.wayland.modesCount + (r.length + 1 + 1) = 4 := by omega
      simp only [e]

theorem least_failing_index (f : Nat → Bool) :
    ∀ n, 0 < n → f 0 = true →
      ∃ t, 0 < t ∧ t ≤ n ∧ (∀ k, k < t → f k = true) ∧ (t < n → f t = false) := by
  intro n
  induction n with
  | zero => intro h; omega
  | succ n ih =>
    intro _ h0
    by_cases hn : n = 0
    · subst hn
      exact ⟨1, by omega, by omega, fun k hk => by
        have : k = 0 := by omega
        rw [this]; exact h0, fun h => by omega⟩
    · obtain ⟨t, ht0, htn, hs, hf⟩ := ih (by omega) h0
      by_cases htn2 : t < n
      · exact ⟨t, ht0, by omega, hs, fun _ => hf htn2⟩
      · have htn3 : t = n := by omega
        subst htn3
        cases hft : f t
        · exact ⟨t, ht0, by omega, hs, fun _ => hft⟩
        · refine ⟨t + 1, by omega, by omega, ?_, fun h => by omega⟩
          intro k hk
          by_cases hkt : k = t
          · rw [hkt]; exact hft
          · exact hs k (by omega)

theorem getMonitors_copies (s : State) (cells : List Nat)
    (hR : load s.heap s.wayland.monitors = some (.monitorPtrs cells))
    (hn : s.wayland.monitorsCount ≤ cells.length)
    (hok : ∀ p ∈ cells.take s.wayland.monitorsCount, recordOk s.heap p = true)
    (hnd : (cells.take s.wayland.monitorsCount).Nodup)
    (t : Nat) (ht0 : 0 < t) (htn : t ≤ s.wayland.monitorsCount)
    (hhd : s.oracle.headD true = true)
    (hsucc : ∀ k, k < t → recordAllocOk s.oracle k = true)
    (hfail : t < s.wayland.monitorsCount → recordAllocOk s.oracle t = false) :
    ∃ s1 monitors a, _glfwPlatformGetMonitors s = some (s1, monitors, t) ∧
      load s1.heap monitors = some (.monitorPtrs a) ∧ Frame s s1 ∧
      ∀ k, k < t → ∃ q p mk, a[k]? = some q ∧ cells[k]? = some p ∧
        loadMonitor s1.heap q = some mk ∧ loadMonitor s1.heap p = some mk := by
  have h0 : s.wayland.monitorsCount ≠ 0 := by omega
  have hq0 : s.heap.length + 1 ≠ 0 := by omega
  simp only [_glfwPlatformGetMonitors, h0, if_false, allocate_of_ok s _ hhd, hq0]
  obtain ⟨s1, a1, g1, g2, g3, _, g5⟩ :=
    getMonitorsLoop_spec s cells s.wayland.monitorsCount (s.heap.length + 1) hR hn hok hnd
      (Nat.lt_succ_self _) t ht0 htn s.wayland.monitorsCount 0
      { s with oracle := s.oracle.tail,
               heap := s.heap ++ [some (.monitorPtrs (List.replicate s.wayland.monitorsCount 0))] }
      (List.replicate s.wayland.monitorsCount 0) (by omega) (by omega)
      ⟨rfl, by simp, fun p b hp _ => load_append_some _ hp,
        fun p m hp => ⟨m, by
          rw [loadMonitor_eq_some] at hp ⊢
          exact load_append_some _ hp, Or.inl rfl⟩⟩
      (load_append_fresh _ _) (by simp)
      (fun k hk => by omega)
      (fun j hj => by
        have := hsucc j (by omega)
        unfold recordAllocOk at this
        simp only
        rwa [getD_tail])
      (fun htn2 => by
        have := hfail htn2
        unfold recordAllocOk at this
        simp only [Nat.sub_zero]
        rwa [getD_tail])
  refine ⟨s1, _, a1, g1, g3, g2, ?_⟩
  intro k hk
  obtain ⟨q, p, mk, c1, c2, _, _, c5, c6⟩ := g5 k hk
  exact ⟨q, p, mk, c1, c2, c5, c6⟩

theorem isSameMonitor_of_records (s : State) (a b : Nat) (ma mb : _GLFWmonitor)
    (ha : loadMonitor s.heap a = some ma) (hb : loadMonitor s.heap b = some mb) :
    _glfwPlatformIsSameMonitor s a b = some (ma.wayland.output == mb.wayland.output) := by
  unfold _glfwPlatformIsSameMonitor
  rw [ha, hb]

/-- C13, at the failing input: on the first output of an empty registry of
capacity 4, every allocation succeeding, three mode events leave the recorded
capacity at 4 with storage of 4 entries; the fourth mode event reallocates the
storage to the old capacity, 4 entries (line 79), and records capacity 8
(line 85); the fifth mode event then finds 4 + 1 < 8, does not reallocate and
stores at index 4, outside the storage of 4 entries, so it has no defined
result. -/
theorem mode_growth_stores_outside_storage :
    capacityAfter (emptyRegistry 4 []) 5 2 77
      [⟨0, 640, 480, 60000⟩, ⟨0, 800, 600, 60000⟩, ⟨0, 1024, 768, 60000⟩] = some (4, 4) ∧
    (∃ s4 m4, deliverAll (registeredState []) 2
        [.mode 0 640 480 60000, .mode 0 800 600 60000, .mode 0 1024 768 60000,
         .mode 0 1280 720 60000] = some s4 ∧
      loadMonitor s4.heap 2 = some m4 ∧
      m4.wayland.modesCount = 4 ∧ m4.wayland.modesSize = 8 ∧
      (modeStorage s4.heap m4).length = 4 ∧
      writeMode s4.heap m4.wayland.modes m4.wayland.modesCount (newMode 1 1920 1080 60000) =
        none ∧
      mode s4 2 1 1920 1080 60000 = none) ∧
    _glfwAddOutput (emptyRegistry 4 []) 5 2 77 = some (registeredState []) ∧
    capacityAfter (emptyRegistry 4 []) 5 2 77
      [⟨0, 640, 480, 60000⟩, ⟨0, 800, 600, 60000⟩, ⟨0, 1024, 768, 60000⟩,
       ⟨0, 1280, 720, 60000⟩, ⟨1, 1920, 1080, 60000⟩] = none :=
  ⟨by decide, ⟨_, _, rfl, rfl, by decide, by decide, by decide, by decide, by decide⟩,
    by decide, by decide⟩

/-- C17 as stated fails: on the first output of an empty registry of capacity
4, every allocation succeeding, the recorded capacity is 4 after three mode
events and 8 after the fourth, although the fourth entry fits the capacity
(3 + 1 ≤ 4). -/
theorem mode_capacity_counterexample :
    capacityAfter (emptyRegistry 4 []) 5 2 77
      [⟨0, 640, 480, 60000⟩, ⟨0, 800, 600, 60000⟩, ⟨1, 1024, 768, 60000⟩] = some (4, 4) ∧
    capacityAfter (emptyRegistry 4 []) 5 2 77
      [⟨0, 640, 480, 60000⟩, ⟨0, 800, 600, 60000⟩, ⟨1, 1024, 768, 60000⟩,
       ⟨0, 1280, 720, 60000⟩] = some (8, 4) := by
  decide

/-- C17, amended: a freshly registered output has recorded mode capacity 4;
a mode event whose store is inside the storage runs and leaves the recorded
capacity unchanged when `modesCount + 1 < modesSize`, and doubles it when
`modesCount + 1 ≥ modesSize` and the reallocation succeeds; a mode event that
returns leaves the recorded capacity unchanged when the reallocation fails.
So after at most three mode events on a freshly registered output the recorded
capacity is still 4, and it is 8 after the fourth. -/
theorem mode_capacity_policy (s : State) (cells : List Nat) (name version bound : Nat)
    (evs : List ModeArgs)
    (hreg : RegistryOk s cells) (hpos : 0 < s.wayland.monitorsSize) (hv : 2 ≤ version)
    (hb : bound ≠ 0) (hok : AllocsSucceed s) (hN : evs.length ≤ 4) :
    capacityAfter s name version bound evs = some (if evs.length = 4 then 8 else 4, 4) ∧
    (∀ (t : State) data flags w h r m c,
      loadMonitor t.heap data = some m →
      load t.heap m.wayland.modes = some (.wlModes c) →
      m.wayland.modesCount < c.length → m.wayland.modesCount < m.wayland.modesSize →
      (m.wayland.modesCount + 1 ≥ m.wayland.modesSize → t.oracle.headD true = true) →
      ∃ t1 m1, mode t data flags w h r = some t1 ∧ loadMonitor t1.heap data = some m1 ∧
        m1.wayland.modesSize = (if m.wayland.modesCount + 1 ≥ m.wayland.modesSize
          then m.wayland.modesSize * 2 else m.wayland.modesSize)) ∧
    (∀ (t : State) data flags w h r m t1,
      loadMonitor t.heap data = some m → mode t data flags w h r = some t1 →
      ∃ m1, loadMonitor t1.heap data = some m1 ∧
        m1.wayland.modesSize =
          (if m.wayland.modesCount + 1 ≥ m.wayland.modesSize ∧ t.oracle.headD true = true
           then m.wayland.modesSize * 2 else m.wayland.modesSize)) := by
  refine ⟨?_, ?_, ?_⟩
  · obtain ⟨s1, cells1, h1, h2, _, _, _, h6, h7, h8, _, h10⟩ :=
      addOutput_success s cells name version bound hreg hpos hv hb hok
    have hrd : readPtr s1.heap s1.wayland.monitors s.wayland.monitorsCount =
        some (s.heap.length + 1) := by
      unfold readPtr
      rw [h2.1]
      exact h6
    obtain ⟨s2, m2, g1, g2, g3, g4⟩ :=
      deliver_modes_capacity (s.heap.length + 1) evs s1 _ _ h7 h8 (by simp)
        (by simp [freshRecord]; exact hN) rfl h10
    unfold capacityAfter
    simp only [h1, hrd, g1, g2, g3, g4]
    by_cases h4 : evs.length = 4
    · have hne : evs ≠ [] := by
        intro e; rw [e] at h4; simp at h4
      simp [h4, hne, freshRecord]
    · simp [h4, freshRecord]
  · intro t data flags w h r m c hm hc hroom hsize hhd
    obtain ⟨t1, modes1, cells1, h1, h2, _⟩ :=
      mode_step t data m c flags w h r hm hc hroom hsize hhd
    exact ⟨t1, _, h1, h2, rfl⟩
  · intro t data flags w h r m t1 hm hrun
    obtain ⟨m1, h1, h2⟩ := mode_counters t data flags w h r m t1 hm hrun
    refine ⟨m1, h1, ?_⟩
    have h3 := congrArg Prod.snd h2
    simp only at h3
    rw [h3]
    unfold modeCounters
    by_cases hg : m.wayland.modesCount + 1 ≥ m.wayland.modesSize
    · cases hhd : t.oracle.headD true <;> simp [hg]
    · simp [hg]

/-- C17, amended, at an empty registry of capacity 4: the recorded capacity
after four mode events is 8. -/
theorem mode_capacity_policy_witness :
    RegistryOk (emptyRegistry 4 []) [0, 0, 0, 0] ∧
    0 < (emptyRegistry 4 []).wayland.monitorsSize ∧ (2 : Nat) ≤ 2 ∧ (77 : Nat) ≠ 0 ∧
    AllocsSucceed (emptyRegistry 4 []) ∧
    [(⟨0, 640, 480, 60000⟩ : ModeArgs), ⟨0, 800, 600, 60000⟩, ⟨1, 1024, 768, 60000⟩,
      ⟨0, 1280, 720, 60000⟩].length ≤ 4 ∧
    capacityAfter (emptyRegistry 4 []) 5 2 77
      [⟨0, 640, 480, 60000⟩, ⟨0, 800, 600, 60000⟩, ⟨1, 1024, 768, 60000⟩,
       ⟨0, 1280, 720, 60000⟩] = some (8, 4) :=
  ⟨by decide, by decide, by decide, by decide, by decide, by decide,
    (mode_capacity_policy (emptyRegistry 4 []) [0, 0, 0, 0] 5 2 77
      [⟨0, 640, 480, 60000⟩, ⟨0, 800, 600, 60000⟩, ⟨1, 1024, 768, 60000⟩,
       ⟨0, 1280, 720, 60000⟩]
      (by decide) (by decide) (by decide) (by decide) (by decide) (by decide)).1⟩

/-! ## Identity of a record and its copy -/

theorem getMonitors_first_fails (s : State) (cells : List Nat)
    (hR : load s.heap s.wayland.monitors = some (.monitorPtrs cells))
    (hn : s.wayland.monitorsCount ≤ cells.length)
    (h0 : s.wayland.monitorsCount ≠ 0) (hhd : s.oracle.headD true = true)
    (hrec : recordAllocOk s.oracle 0 = false) :
    ∃ s1, _glfwPlatformGetMonitors s = some (s1, 0, 0) := by
  obtain ⟨f, hf⟩ : ∃ f, s.wayland.monitorsCount = f + 1 := ⟨s.wayland.monitorsCount - 1, by omega⟩
  have hq0 : s.heap.length + 1 ≠ 0 := by omega
  have hcell : cells[0]? = some cells[0] := List.getElem?_eq_getElem (by omega)
  have hread : readPtr (s.heap ++ [some (.monitorPtrs (List.replicate (f + 1) 0))])
      s.wayland.monitors 0 = some cells[0] := by
    unfold readPtr; rw [load_append_some _ hR]; exact hcell
  have hhd2 : s.oracle.tail.headD true = false := by
    have := hrec
    unfold recordAllocOk at this
    rwa [← getD_tail, getD_zero_eq_headD] at this
  simp only [_glfwPlatformGetMonitors, h0, if_false, allocate_of_ok s _ hhd, hq0]
  rw [hf, getMonitorsLoop_first_fails
    { s with oracle := s.oracle.tail,
             heap := s.heap ++ [some (.monitorPtrs (List.replicate (f + 1) 0))] }
    (s.heap.length + 1) (f + 1) f cells[0] hread hhd2]
  exact ⟨_, rfl⟩

theorem recordAllocOk_of_succeed (s : State) (hall : AllocsSucceed s) (k : Nat) :
    recordAllocOk s.oracle k = true := by
  unfold recordAllocOk
  rw [List.getD_eq_getElem?_getD]
  cases hg : s.oracle[2 * k + 1]? with
  | none => rfl
  | some b =>
    obtain ⟨hlt, hb⟩ := List.getElem?_eq_some.mp hg
    exact hall b (hb ▸ List.getElem_mem hlt)

/-- C12: on a well-formed registry (readable storage holding at least
`monitorsCount` entries, which point to distinct readable records), for every
outcome of the allocator `_glfwPlatformGetMonitors` returns a sequence and a
count, and for every index `i` below that count `_glfwPlatformIsSameMonitor`
called with live record `i` and entry `i` of the returned sequence is true;
and for any two readable records `_glfwPlatformIsSameMonitor` is true exactly
when their output handles are equal and false exactly when they differ,
whatever their other fields hold. -/
theorem same_monitor_identity (s : State) (cells : List Nat)
    (hR : load s.heap s.wayland.monitors = some (.monitorPtrs cells))
    (hn : s.wayland.monitorsCount ≤ cells.length)
    (hok : ∀ p ∈ cells.take s.wayland.monitorsCount, recordOk s.heap p = true)
    (hnd : (cells.take s.wayland.monitorsCount).Nodup) :
    (∃ s1 monitors count, _glfwPlatformGetMonitors s = some (s1, monitors, count) ∧
      count ≤ s.wayland.monitorsCount ∧
      (AllocsSucceed s → count = s.wayland.monitorsCount) ∧
      ∀ i, i < count → ∃ p q,
        readPtr s1.heap s1.wayland.monitors i = some p ∧
        readPtr s1.heap monitors i = some q ∧
        _glfwPlatformIsSameMonitor s1 p q = some true) ∧
    (∀ (t : State) (a b : Nat) (ma mb : _GLFWmonitor),
      loadMonitor t.heap a = some ma → loadMonitor t.heap b = some mb →
      (_glfwPlatformIsSameMonitor t a b = some true ↔
        ma.wayland.output = mb.wayland.output) ∧
      (_glfwPlatformIsSameMonitor t a b = some false ↔
        ma.wayland.output ≠ mb.wayland.output)) := by
  constructor
  · by_cases h0 : s.wayland.monitorsCount = 0
    · refine ⟨s, 0, 0, ?_, by omega, fun _ => h0.symm, fun i hi => by omega⟩
      simp only [_glfwPlatformGetMonitors, h0, if_true]
    · cases hhd : s.oracle.headD true
      · refine ⟨{ s with oracle := s.oracle.tail }, 0, 0, ?_, by omega, ?_, fun i hi => by omega⟩
        · simp only [_glfwPlatformGetMonitors, h0, if_false, allocate_of_fail s _ hhd, if_true]
        · intro hall
          have := hall.head
          rw [hhd] at this
          cases this
      · cases hrec : recordAllocOk s.oracle 0
        · obtain ⟨s1, h1⟩ := getMonitors_first_fails s cells hR hn h0 hhd hrec
          refine ⟨s1, 0, 0, h1, by omega, ?_, fun i hi => by omega⟩
          intro hall
          have hmem := recordAllocOk_of_succeed s hall 0
          rw [hrec] at hmem
          cases hmem
        · obtain ⟨t, ht0, htn, hsucc, hfail⟩ :=
            least_failing_index (recordAllocOk s.oracle) s.wayland.monitorsCount
              (by omega) hrec
          obtain ⟨s1, monitors, a, g1, g2, g3, g4⟩ :=
            getMonitors_copies s cells hR hn hok hnd t ht0 htn hhd hsucc hfail
          refine ⟨s1, monitors, t, g1, htn, ?_, ?_⟩
          · intro hall
            by_contra hne
            have hlt : t < s.wayland.monitorsCount := by omega
            have hf := hfail hlt
            have hmem := recordAllocOk_of_succeed s hall t
            rw [hf] at hmem
            cases hmem
          · intro i hi
            obtain ⟨q, p, mk, c1, c2, c3, c4⟩ := g4 i hi
            refine ⟨p, q, ?_, ?_, ?_⟩
            · unfold readPtr
              rw [g3.1, g3.2.2.1 _ _ hR (by simp)]
              exact c2
            · unfold readPtr
              rw [g2]
              exact c1
            · rw [isSameMonitor_of_records s1 p q mk mk c4 c3]
              simp
  · intro t a b ma mb ha hb
    rw [isSameMonitor_of_records t a b ma mb ha hb]
    constructor
    · simp
    · simp

/-- C12 at a registry of two records with one mode each, every allocation
succeeding: the count is 2. -/
theorem same_monitor_identity_witness :
    load (twoRecordState []).heap (twoRecordState []).wayland.monitors =
      some (.monitorPtrs [2, 4, 0, 0]) ∧
    (twoRecordState []).wayland.monitorsCount ≤ [2, 4, 0, 0].length ∧
    (∀ p ∈ [2, 4, 0, 0].take (twoRecordState []).wayland.monitorsCount,
      recordOk (twoRecordState []).heap p = true) ∧
    ([2, 4, 0, 0].take (twoRecordState []).wayland.monitorsCount).Nodup ∧
    AllocsSucceed (twoRecordState []) ∧
    ∃ s1 monitors, _glfwPlatformGetMonitors (twoRecordState []) = some (s1, monitors, 2) ∧
      ∀ i, i < 2 → ∃ p q,
        readPtr s1.heap s1.wayland.monitors i = some p ∧
        readPtr s1.heap monitors i = some q ∧
        _glfwPlatformIsSameMonitor s1 p q = some true := by
  refine ⟨by decide, by decide, by decide, by decide, by decide, ?_⟩
  obtain ⟨s1, monitors, count, h1, _, h3, h4⟩ :=
    (same_monitor_identity (twoRecordState []) [2, 4, 0, 0]
      (by decide) (by decide) (by decide) (by decide)).1
  have hc : count = 2 := h3 (by decide)
  subst hc
  exact ⟨s1, monitors, h1, h4⟩

/-! ## The completion flag within allocated storage -/

theorem deliverAll_without_mode (data : Nat) :
    ∀ (evs : List Event) (s : State) (m : _GLFWmonitor),
      loadMonitor s.heap data = some m →
      (∀ e ∈ evs, ∀ f w h r, e ≠ Event.mode f w h r) →
      ∃ s1, deliverAll s data evs = some s1 := by
  intro evs
  induction evs with
  | nil => intro s m _ _; exact ⟨s, rfl⟩
  | cons e es ih =>
    intro s m hm hno
    have hrest : ∀ e ∈ es, ∀ f w h r, e ≠ Event.mode f w h r :=
      fun e he => hno e (List.mem_cons_of_mem _ he)
    cases e with
    | geometry x y pw ph =>
      obtain ⟨s1, m1, h1, _, h3, _⟩ := geometry_facts s data m x y pw ph hm
      obtain ⟨s2, h2⟩ := ih s1 m1 h3 hrest
      exact ⟨s2, by simp only [deliverAll, deliver, h1]; exact h2⟩
    | mode f w h r =>
      exact absurd rfl (hno _ (List.mem_cons_self _ _) f w h r)
    | done =>
      obtain ⟨s1, m1, h1, _, h3, _⟩ := done_facts s data m hm
      obtain ⟨s2, h2⟩ := ih s1 m1 h3 hrest
      exact ⟨s2, by simp only [deliverAll, deliver, h1]; exact h2⟩
    | scale k =>
      obtain ⟨s2, h2⟩ := ih s m hm hrest
      exact ⟨s2, by simp only [deliverAll, deliver, scale]; exact h2⟩

/-- While the stores stay inside the mode storage no handler clears the done
flag: for a readable record whose done flag is set, (1) after each event of
every sequence of geometry, mode, done and scale events on which the handlers
return, the record is readable and its done flag is set; (2) every sequence of
geometry, done and scale events runs, and (3) a mode event whose store is
inside the storage runs, with the done flag set afterwards. -/
theorem done_flag_kept_within_storage (s : State) (data : Nat) (m : _GLFWmonitor) (evs : List Event)
    (hm : loadMonitor s.heap data = some m)
    (hdone : m.wayland.done = true) :
    (∀ s1, deliverAll s data evs = some s1 →
      ∀ k, ∃ sk mk, deliverAll s data (evs.take k) = some sk ∧
        loadMonitor sk.heap data = some mk ∧ mk.wayland.done = true) ∧
    ((∀ e ∈ evs, ∀ f w h r, e ≠ Event.mode f w h r) →
      ∃ s1 m1, deliverAll s data evs = some s1 ∧
        loadMonitor s1.heap data = some m1 ∧ m1.wayland.done = true) ∧
    (∀ f w h r c, load s.heap m.wayland.modes = some (.wlModes c) →
      m.wayland.modesCount < c.length → m.wayland.modesCount < m.wayland.modesSize →
      (m.wayland.modesCount + 1 ≥ m.wayland.modesSize → s.oracle.headD true = true) →
      ∃ s1 m1, mode s data f w h r = some s1 ∧
        loadMonitor s1.heap data = some m1 ∧ m1.wayland.done = true) := by
  have hinv : ∀ s1, deliverAll s data evs = some s1 →
      ∀ k, ∃ sk mk, deliverAll s data (evs.take k) = some sk ∧
        loadMonitor sk.heap data = some mk ∧ mk.wayland.done = true :=
    fun s1 hrun => deliverAll_invariant (fun m => m.wayland.done = true) data
      (fun s e m s1 hm hP hd => by
        obtain ⟨m1, h1, _, h3, _⟩ := deliver_effect s data e m s1 hm hd
        exact ⟨m1, h1, h3 hP⟩)
      evs s m s1 hm hdone hrun
  refine ⟨hinv, ?_, ?_⟩
  · intro hno
    obtain ⟨s1, h1⟩ := deliverAll_without_mode data evs s m hm hno
    obtain ⟨sk, mk, g1, g2, g3⟩ := hinv s1 h1 evs.length
    rw [List.take_length] at g1
    exact ⟨sk, mk, g1, g2, g3⟩
  · intro f w h r c hc hroom hsize hhd
    obtain ⟨s1, modes1, cells1, h1, h2, _⟩ := mode_step s data m c f w h r hm hc hroom hsize hhd
    exact ⟨s1, _, h1, h2, hdone⟩

/-! ## Mode events after the first growth of the mode storage -/

theorem mode_outside_storage (s : State) (data flags : Nat) (w h r : Int) (m : _GLFWmonitor)
    (c : List _GLFWvidmodeWayland)
    (hm : loadMonitor s.heap data = some m)
    (hg : m.wayland.modesCount + 1 < m.wayland.modesSize)
    (hc : load s.heap m.wayland.modes = some (.wlModes c))
    (hfull : c.length ≤ m.wayland.modesCount) :
    mode s data flags w h r = none := by
  have hng : ¬ m.wayland.modesCount + 1 ≥ m.wayland.modesSize := by omega
  have hw : writeMode s.heap m.wayland.modes m.wayland.modesCount (newMode flags w h r) =
      none :=
    writeMode_none_of_not_lt s.heap m.wayland.modes m.wayland.modesCount c _ hc (by omega)
  unfold mode
  simp only [hm, hng, if_false, hw]

theorem deliverAll_append_one (data : Nat) :
    ∀ (evs : List Event) (s t : State) (e : Event), deliverAll s data evs = some t →
      deliverAll s data (evs ++ [e]) = deliver t data e := by
  intro evs
  induction evs with
  | nil =>
    intro s t e hst
    simp only [deliverAll] at hst
    cases hst
    simp only [List.nil_append, deliverAll]
    cases deliver s data e <;> rfl
  | cons a es ih =>
    intro s t e hst
    simp only [deliverAll, List.cons_append] at hst ⊢
    cases hd : deliver s data a with
    | none => rw [hd] at hst; cases hst
    | some s1 =>
      rw [hd] at hst
      simp only at hst ⊢
      exact ih s1 t e hst

/-- C15, at the failing input: on the first output of an empty registry of
capacity 4, every allocation succeeding, four mode events leave a mode list of
four entries that fills storage of four entries, with recorded capacity 8 (the
reallocation of the fourth event asked for the old capacity, lines 78-79).
From that state no mode event extends the list: every mode event finds
4 + 1 < 8, does not reallocate and stores at index 4, outside the storage
(line 88), so it has no defined result; the run of five mode events leaves no
mode list of which the list of the first four is an initial segment. -/
theorem mode_append_fails_after_growth :
    _glfwAddOutput (emptyRegistry 4 []) 5 2 77 = some (registeredState []) ∧
    ∃ s4 m4, deliverAll (registeredState []) 2
        [.mode 0 640 480 60000, .mode 0 800 600 60000, .mode 0 1024 768 60000,
         .mode 0 1280 720 60000] = some s4 ∧
      loadMonitor s4.heap 2 = some m4 ∧
      modeList s4.heap m4 =
        [newMode 0 640 480 60000, newMode 0 800 600 60000, newMode 0 1024 768 60000,
         newMode 0 1280 720 60000] ∧
      modeStorage s4.heap m4 = modeList s4.heap m4 ∧
      m4.wayland.modesSize = 8 ∧
      (∀ flags w h r, deliver s4 2 (.mode flags w h r) = none) ∧
      (∀ flags w h r, ¬ ∃ s5 m5, deliverAll (registeredState []) 2
          [.mode 0 640 480 60000, .mode 0 800 600 60000, .mode 0 1024 768 60000,
           .mode 0 1280 720 60000, .mode flags w h r] = some s5 ∧
        loadMonitor s5.heap 2 = some m5 ∧
        ∃ t, modeList s5.heap m5 = modeList s4.heap m4 ++ t) := by
  have h4 : ∃ s4, deliverAll (registeredState []) 2
      [.mode 0 640 480 60000, .mode 0 800 600 60000, .mode 0 1024 768 60000,
       .mode 0 1280 720 60000] = some s4 := ⟨_, rfl⟩
  obtain ⟨s4, hs4⟩ := h4
  have hrec : ∃ m4, loadMonitor s4.heap 2 = some m4 ∧
      m4.wayland.modesCount = 4 ∧ m4.wayland.modesSize = 8 ∧
      modeStorage s4.heap m4 =
        [newMode 0 640 480 60000, newMode 0 800 600 60000, newMode 0 1024 768 60000,
         newMode 0 1280 720 60000] ∧
      load s4.heap m4.wayland.modes = some (.wlModes
        [newMode 0 640 480 60000, newMode 0 800 600 60000, newMode 0 1024 768 60000,
         newMode 0 1280 720 60000]) := by
    have e : some s4 = deliverAll (registeredState []) 2
        [.mode 0 640 480 60000, .mode 0 800 600 60000, .mode 0 1024 768 60000,
         .mode 0 1280 720 60000] := hs4.symm
    have e2 := Option.some.inj (e.trans (by rfl :
      deliverAll (registeredState []) 2
        [.mode 0 640 480 60000, .mode 0 800 600 60000, .mode 0 1024 768 60000,
         .mode 0 1280 720 60000] = some _))
    subst e2
    exact ⟨_, rfl, by decide, by decide, by decide, by decide⟩
  obtain ⟨m4, hm4, hcount, hsize, hstor, hload⟩ := hrec
  have hnone : ∀ flags w h r, deliver s4 2 (.mode flags w h r) = none := by
    intro flags w h r
    exact mode_outside_storage s4 2 flags w h r m4 _ hm4 (by omega) hload (by simp [hcount])
  refine ⟨by decide, s4, m4, hs4, hm4, ?_, ?_, hsize, hnone, ?_⟩
  · unfold modeList
    rw [hstor, hcount]
    rfl
  · unfold modeList
    rw [hstor, hcount]
    rfl
  · rintro flags w h r ⟨s5, m5, h5, _⟩
    have hsplit : deliverAll (registeredState []) 2
        ([.mode 0 640 480 60000, .mode 0 800 600 60000, .mode 0 1024 768 60000,
         .mode 0 1280 720 60000] ++ [.mode flags w h r]) = none := by
      rw [deliverAll_append_one 2 _ _ _ _ hs4]
      exact hnone flags w h r
    simp only [List.cons_append, List.nil_append] at hsplit
    rw [hsplit] at h5
    cases h5

end WaylandMonitor
